import Mathlib

/-!
# TES integrator core: `dhem.c` and `radau.c`

A shallow embedding of the differential (Encke-type) equations of motion
(`dhem.c`) and of the step driver (`radau.c`).

Conventions of the embedding.

* A C `double` is an element of an arbitrary linearly ordered field `α`
  (exact arithmetic); all definitions are computable and generic in `α`, so
  they run over `ℚ` and the theorems hold in particular over `ℝ`.
* `sqrt` and `pow` of `<math.h>` are passed as parameters.  Theorems that
  depend on what `sqrt` computes assume `0 ≤ sqrt x` and
  `sqrt x * sqrt x = x` for `0 ≤ x`.
* A C array is a function `Nat → α` from the index to the entry; a store
  `a[i] = v` is `Function.update a i v`.  Index arithmetic (`3*i+k`) is done
  in `Nat`: the arrays hold `3*N` entries and no index wraps.
* `for (i = lo; i < hi; i++) body` is `forLoop body lo (hi - lo)`.
* The norm ratios of the rectification scan (`dhem.c` lines 299-300), whose divisor is zero
  for a body at the origin, are quotients of doubles: `FpValue`, with `x / 0` an infinity
  and `0 / 0` a NaN (`divDouble`), compared as C compares them (`gtDouble`).
-/

namespace TES

/-! ## Control flow -/

/-- The loop `for (i = lo; i < lo + count; i++) s = body i s`. -/
def forLoop {σ : Type} (body : Nat → σ → σ) : Nat → Nat → σ → σ
  | _, 0, s => s
  | lo, count + 1, s => forLoop body (lo + 1) count (body lo s)

/-! ## `radau.c`: the adaptive step-size controller -/

section Radau

variable {α : Type} [LinearOrderedField α]

/-- The value of a C `double` as far as `isnormal` can tell: a finite number,
an infinity or a NaN.  Used for the error estimate returned by the external
collocation solver (`radau->ReturnStepError`) and for the quotients whose divisor can be
zero (`dhem.c` lines 299-300). -/
inductive FpValue (α : Type) where
  | finite (x : α)
  | inf (negative : Bool)
  | nan

/-- The constant `DBL_MIN` of `<float.h>`: the smallest positive normal double, `2^-1022`. -/
def DBL_MIN : α := 1 / 2 ^ 1022

/-- The classification `isnormal` of `<math.h>`: true when the argument is neither zero,
subnormal, infinite nor NaN. -/
def isnormal : FpValue α → Bool
  | .finite x => decide (DBL_MIN ≤ |x|)
  | .inf _ => false
  | .nan => false

/-- The constant `#define MAX_STEP_SIZE_GROWTH 4.0`. -/
def MAX_STEP_SIZE_GROWTH : α := 4

/-- The constant `#define MIN_STEP_SIZE 1E-5`. -/
def MIN_STEP_SIZE : α := 1 / 100000

/-- The trial step before clamping (`radau.c` lines 168-175).  In the normal branch the
error estimate is a finite number, so the quotient `rTol / errMax` is taken in `α`. -/
def hTrialUnclamped (pow : α → α → α) (rTol : α) (errMax : FpValue α) (h : α) : α :=
  match errMax with
  | .finite e => if isnormal (FpValue.finite e) then h * pow (rTol / e) (1 / 7) else (11 / 10) * h
  | .inf _ => (11 / 10) * h
  | .nan => (11 / 10) * h

/-- The function `Radau_CalculateStepSize` of `radau.c`.  `errMax` is the value returned by
`radau->ReturnStepError(r, h, t)` and `rTol` is `radau->rTol`; the arguments `hLast` and
`t` are only passed on to the error estimator. -/
def Radau_CalculateStepSize (pow : α → α → α) (rTol : α) (errMax : FpValue α) (h : α) : α :=
  let hTrial := hTrialUnclamped pow rTol errMax h
  -- Impose a minimum step size.
  let hTrial := if hTrial < MIN_STEP_SIZE then MIN_STEP_SIZE else hTrial
  -- Limit step size growth to 4x per step.
  let hTrial := if hTrial > MAX_STEP_SIZE_GROWTH * h then h * MAX_STEP_SIZE_GROWTH else hTrial
  hTrial

end Radau

/-! ## `dhem.c`: the differential equations of motion -/

section Dhem

variable {α : Type} [LinearOrderedField α]

/-- The macro `NORM(x, i)`: the Euclidean norm of the 3-vector of body `i` in array `x`. -/
def NORM (sqrt : α → α) (x : Nat → α) (i : Nat) : α :=
  sqrt (x (3 * i) * x (3 * i) + x (3 * i + 1) * x (3 * i + 1) + x (3 * i + 2) * x (3 * i + 2))

/-- The function `add_cs` of `dhem.c`: from the accumulator `out`, the carry `cs` and the
increment `inp` to the new accumulator and the new carry. -/
def add_cs (out cs inp : α) : α × α :=
  let y := inp - cs
  let t := out + y
  let cs := (t - out) - y
  (t, cs)

/-- The call `memset(dst, 0, nbytes)` on an array of 8-byte doubles: every entry that lies
wholly inside the first `nbytes` bytes becomes `0`. -/
def memsetZero (dst : Nat → α) (nbytes : Nat) : Nat → α :=
  fun i => if 8 * (i + 1) ≤ nbytes then 0 else dst i

/-- The module state `static DHEM * dhem` (`dhem.h`).  The pointers `Xosc`/`Qosc`/`Posc`,
`Xosc_dot`/`Qosc_dot`/`Posc_dot` and `Xosc_cs`/`Qosc_cs`/`Posc_cs` always point at one
per-stage slice of `XoscArr`, `Xosc_dotArr` and `XoscArr_cs`; each is kept as the number
of the stage it selects (`dhem_Init` selects stage `0`).  `m` is `r->ri_tes.mass`. -/
structure DHEM (α : Type) where
  XoscStage : Nat
  Xosc_dotStage : Nat
  Xosc_csStage : Nat
  XoscArr : Nat → Nat → α
  XoscPredArr : Nat → Nat → α
  XoscArr_cs : Nat → Nat → α
  Xosc_dotArr : Nat → Nat → α
  Q : Nat → α
  P : Nat → α
  m : Nat → α
  m_inv : Nat → α
  rectifyTimeArray : Nat → α
  rectificationPeriod : Nat → α

/-- The pointer `dhem->Qosc` (`= dhem->Xosc`). -/
def DHEM.Qosc (dhem : DHEM α) : Nat → α := dhem.XoscArr dhem.XoscStage

/-- The pointer `dhem->Posc` (`= &dhem->Qosc[3*r->N]`). -/
def DHEM.Posc (dhem : DHEM α) (N : Nat) : Nat → α :=
  fun i => dhem.XoscArr dhem.XoscStage (3 * N + i)

/-- The pointer `dhem->Posc_dot` (`= &dhem->Qosc_dot[3*r->N]`). -/
def DHEM.Posc_dot (dhem : DHEM α) (N : Nat) : Nat → α :=
  fun i => dhem.Xosc_dotArr dhem.Xosc_dotStage (3 * N + i)

/-- The pointer `dhem->Qosc_cs` (`= dhem->Xosc_cs`). -/
def DHEM.Qosc_cs (dhem : DHEM α) : Nat → α := dhem.XoscArr_cs dhem.Xosc_csStage

/-- The pointer `dhem->Posc_cs` (`= &dhem->Qosc_cs[3*r->N]`). -/
def DHEM.Posc_cs (dhem : DHEM α) (N : Nat) : Nat → α :=
  fun i => dhem.XoscArr_cs dhem.Xosc_csStage (3 * N + i)

/-- The output arrays of `dhem_rhs`. -/
structure RhsArrays (α : Type) where
  dQ_dot : Nat → α
  dP_dot : Nat → α
  dQ_ddot : Nat → α
  dP_ddot : Nat → α

/-- `dhem.c` lines 76-80: `Q[i] = Qosc[i] + dQ[i]; P[i] = Posc[i] + dP[i]` for `3 ≤ i < 3N`. -/
def rhs_absolute (N : Nat) (Qosc Posc dQ dP : Nat → α) (QP : (Nat → α) × (Nat → α)) :
    (Nat → α) × (Nat → α) :=
  forLoop (fun i QP =>
      (Function.update QP.1 i (Qosc i + dQ i), Function.update QP.2 i (Posc i + dP i)))
    3 (3 * N - 3) QP

/-- `dhem.c` lines 82-90 and 167-176: a 3-vector starting at `{0,0,0}` accumulates the
3-vectors `x[3*i..3*i+2]` of the bodies `1 ≤ i < N`. -/
def rhs_sumBodies (N : Nat) (x : Nat → α) : Nat → α :=
  forLoop (fun i v =>
      let v := Function.update v 0 (v 0 + x (3 * i))
      let v := Function.update v 1 (v 1 + x (3 * i + 1))
      let v := Function.update v 2 (v 2 + x (3 * i + 2))
      v)
    1 (N - 1) (fun _ => 0)

/-- `dhem.c` lines 93-96 and 179-182: `v[i] *= dhem->m_inv[0]` for `0 ≤ i < 3`. -/
def rhs_scale (m_inv0 : α) (v : Nat → α) : Nat → α :=
  forLoop (fun i v => Function.update v i (v i * m_inv0)) 0 3 v

/-- `dhem.c` lines 99-104: `dQ_dot[3*i+k] = dP[3*i+k] / m[i] + vCentral[k]`. -/
def rhs_dQ_dot (N : Nat) (m dP vCentral : Nat → α) (dQ_dot : Nat → α) : Nat → α :=
  forLoop (fun i a =>
      let a := Function.update a (3 * i) ((dP (3 * i) / m i) + vCentral 0)
      let a := Function.update a (3 * i + 1) ((dP (3 * i + 1) / m i) + vCentral 1)
      let a := Function.update a (3 * i + 2) ((dP (3 * i + 2) / m i) + vCentral 2)
      a)
    1 (N - 1) dQ_dot

/-- `dhem.c` lines 109-135: the body of the central-term loop for body `i`. -/
def rhs_centralBody (sqrt : α → α) (G : α) (m Qosc dQ Q : Nat → α) (i : Nat)
    (dP_dot : Nat → α) : Nat → α :=
  let GMM := G * m 0 * m i
  let dQx := dQ (3 * i + 0)
  let dQy := dQ (3 * i + 1)
  let dQz := dQ (3 * i + 2)
  let Qx := Q (3 * i + 0)
  let Qy := Q (3 * i + 1)
  let Qz := Q (3 * i + 2)
  -- Calculate the osculating orbit contribution term.
  let Qosc_norm := NORM sqrt Qosc i
  let Qosc_norm3 := Qosc_norm * Qosc_norm * Qosc_norm
  let GMM_Qosc_norm3Inv := GMM / Qosc_norm3
  let drx := dQx - 2 * Qx
  let dry := dQy - 2 * Qy
  let drz := dQz - 2 * Qz
  let q := (dQx * drx + dQy * dry + dQz * drz) / (Qx * Qx + Qy * Qy + Qz * Qz)
  let q1 := (1 + q)
  let q3 := q1 * q1 * q1
  let fq := -q * (3 + 3 * q + q * q) / (1 + sqrt q3)
  let GMM_Qosc_norm3Inv_fq := GMM_Qosc_norm3Inv * fq
  let dP_dot := Function.update dP_dot (3 * i)
    (-dQx * GMM_Qosc_norm3Inv + GMM_Qosc_norm3Inv_fq * Qx)
  let dP_dot := Function.update dP_dot (3 * i + 1)
    (-dQy * GMM_Qosc_norm3Inv + GMM_Qosc_norm3Inv_fq * Qy)
  let dP_dot := Function.update dP_dot (3 * i + 2)
    (-dQz * GMM_Qosc_norm3Inv + GMM_Qosc_norm3Inv_fq * Qz)
  dP_dot

/-- `dhem.c` lines 107-136: the central-term loop over the bodies `1 ≤ i < N`. -/
def rhs_central (sqrt : α → α) (N : Nat) (G : α) (m Qosc dQ Q : Nat → α)
    (dP_dot : Nat → α) : Nat → α :=
  forLoop (rhs_centralBody sqrt G m Qosc dQ Q) 1 (N - 1) dP_dot

/-- `dhem.c` lines 141-162: the body of the pairwise loop for the pair `(i, j)`. -/
def rhs_pairBody (sqrt : α → α) (G : α) (m Q : Nat → α) (i j : Nat)
    (dP_dot : Nat → α) : Nat → α :=
  let GM := G * m i
  let GMM := GM * m j
  let dx := Q (3 * j + 0) - Q (3 * i + 0)
  let dy := Q (3 * j + 1) - Q (3 * i + 1)
  let dz := Q (3 * j + 2) - Q (3 * i + 2)
  let sepNorm := sqrt (dx * dx + dy * dy + dz * dz)
  let sepNorm2 := sepNorm * sepNorm
  let sepNorm3 := sepNorm2 * sepNorm
  let GMM_SepNorm3Inv := (GMM / sepNorm3)
  let dP_dot := Function.update dP_dot (3 * i + 0) (dP_dot (3 * i + 0) + dx * GMM_SepNorm3Inv)
  let dP_dot := Function.update dP_dot (3 * i + 1) (dP_dot (3 * i + 1) + dy * GMM_SepNorm3Inv)
  let dP_dot := Function.update dP_dot (3 * i + 2) (dP_dot (3 * i + 2) + dz * GMM_SepNorm3Inv)
  let dP_dot := Function.update dP_dot (3 * j + 0) (dP_dot (3 * j + 0) - dx * GMM_SepNorm3Inv)
  let dP_dot := Function.update dP_dot (3 * j + 1) (dP_dot (3 * j + 1) - dy * GMM_SepNorm3Inv)
  let dP_dot := Function.update dP_dot (3 * j + 2) (dP_dot (3 * j + 2) - dz * GMM_SepNorm3Inv)
  dP_dot

/-- `dhem.c` lines 138-164: `for (i = 1; i < n; i++) for (j = 1; j < i; j++)`. -/
def rhs_pairwise (sqrt : α → α) (N : Nat) (G : α) (m Q : Nat → α)
    (dP_dot : Nat → α) : Nat → α :=
  forLoop (fun i a => forLoop (fun j a => rhs_pairBody sqrt G m Q i j a) 1 (i - 1) a)
    1 (N - 1) dP_dot

/-- `dhem.c` lines 185-194: `dQ_ddot[3*i+k] += vCentralDot[k]` and then
`dQ_ddot[3*i+k] += dP_dot[3*i+k] * dhem->m_inv[i]`. -/
def rhs_dQ_ddot (N : Nat) (m_inv dP_dot vCentralDot : Nat → α) (dQ_ddot : Nat → α) :
    Nat → α :=
  forLoop (fun i a =>
      let a := Function.update a (3 * i) (a (3 * i) + vCentralDot 0)
      let a := Function.update a (3 * i + 1) (a (3 * i + 1) + vCentralDot 1)
      let a := Function.update a (3 * i + 2) (a (3 * i + 2) + vCentralDot 2)
      let a := Function.update a (3 * i) (a (3 * i) + dP_dot (3 * i) * m_inv i)
      let a := Function.update a (3 * i + 1) (a (3 * i + 1) + dP_dot (3 * i + 1) * m_inv i)
      let a := Function.update a (3 * i + 2) (a (3 * i + 2) + dP_dot (3 * i + 2) * m_inv i)
      a)
    1 (N - 1) dQ_ddot

/-- The absolute state `dhem->Q`, `dhem->P` after lines 76-80 of `dhem_rhs`. -/
def dhem_rhs_QP (N : Nat) (dhem : DHEM α) (dQ dP : Nat → α) : (Nat → α) × (Nat → α) :=
  rhs_absolute N dhem.Qosc (dhem.Posc N) dQ dP (dhem.Q, dhem.P)

/-- The array `dP_dot` inside `dhem_rhs` after the central-term loop (line 136) and before
the pairwise loop. -/
def dhem_rhs_dP_dot_central (sqrt : α → α) (N : Nat) (G : α) (dhem : DHEM α)
    (dQ dP : Nat → α) (dP_dot : Nat → α) : Nat → α :=
  rhs_central sqrt N G dhem.m dhem.Qosc dQ (dhem_rhs_QP N dhem dQ dP).1 dP_dot

/-- The function `dhem_rhs` of `dhem.c`.  `N`, `G` and `stateVectorSize` are `r->N`, `r->G`
and `r->ri_tes.stateVectorSize`; the result is the module state (whose `Q`, `P` are
overwritten) and the four output arrays. -/
def dhem_rhs (sqrt : α → α) (N : Nat) (G : α) (stateVectorSize : Nat) (dhem : DHEM α)
    (dQ dP : Nat → α) (out : RhsArrays α) : DHEM α × RhsArrays α :=
  let dQ_ddot := memsetZero out.dQ_ddot (stateVectorSize / 2)
  let QP := dhem_rhs_QP N dhem dQ dP
  let Q := QP.1
  let P := QP.2
  let vCentral := rhs_sumBodies N P
  let vCentral := rhs_scale (dhem.m_inv 0) vCentral
  let dQ_dot := rhs_dQ_dot N dhem.m dP vCentral out.dQ_dot
  let dP_dot := dhem_rhs_dP_dot_central sqrt N G dhem dQ dP out.dP_dot
  let dP_dot := rhs_pairwise sqrt N G dhem.m Q dP_dot
  -- Calculate the momentum of the central body.
  let vCentralDot := rhs_sumBodies N (fun i => dhem.Posc_dot N i + dP_dot i)
  let vCentralDot := rhs_scale (dhem.m_inv 0) vCentralDot
  let dQ_ddot := rhs_dQ_ddot N dhem.m_inv dP_dot vCentralDot dQ_ddot
  ({ dhem with Q := Q, P := P },
   { dQ_dot := dQ_dot, dP_dot := dP_dot, dQ_ddot := dQ_ddot, dP_ddot := out.dP_ddot })

/-- The function `dhem_rhs_wrapped` of `dhem.c`: select the slices of `stageNumber`, then
call `dhem_rhs`. -/
def dhem_rhs_wrapped (sqrt : α → α) (N : Nat) (G : α) (stateVectorSize : Nat) (dhem : DHEM α)
    (dQ dP : Nat → α) (out : RhsArrays α) (stageNumber : Nat) : DHEM α × RhsArrays α :=
  let dhem := { dhem with XoscStage := stageNumber, Xosc_dotStage := stageNumber,
                          Xosc_csStage := stageNumber }
  dhem_rhs sqrt N G stateVectorSize dhem dQ dP out

/-- The function `dhem_CalculateOsculatingOrbitDerivatives_Momenta` of `dhem.c`; the result
is the pair of output arrays `(Qosc_dot, Posc_dot)`.  `m` is both `dhem->m` and
`r->ri_tes.mass`. -/
def dhem_CalculateOsculatingOrbitDerivatives_Momenta (sqrt : α → α) (N : Nat) (G : α)
    (m Qosc Posc : Nat → α) (out : (Nat → α) × (Nat → α)) : (Nat → α) × (Nat → α) :=
  let GM0 := -G * m 0
  forLoop (fun i out =>
      let mi := m i
      let GMM := GM0 * mi
      -- Copy across the velocity term.
      let Qosc_dot := Function.update out.1 (3 * i + 0) (Posc (3 * i) / mi)
      let Qosc_dot := Function.update Qosc_dot (3 * i + 1) (Posc (3 * i + 1) / mi)
      let Qosc_dot := Function.update Qosc_dot (3 * i + 2) (Posc (3 * i + 2) / mi)
      -- Calculate the change in momenta term.
      let Q := NORM sqrt Qosc i
      let GMM_Q3 := GMM / (Q * Q * Q)
      let Posc_dot := Function.update out.2 (3 * i + 0) (GMM_Q3 * Qosc (3 * i))
      let Posc_dot := Function.update Posc_dot (3 * i + 1) (GMM_Q3 * Qosc (3 * i + 1))
      let Posc_dot := Function.update Posc_dot (3 * i + 2) (GMM_Q3 * Qosc (3 * i + 2))
      (Qosc_dot, Posc_dot))
    1 (N - 1) out

/-- The part of the integrator state that `dhem_PerformSummation` and `dhem_RectifyOrbits`
read and write: the module state `dhem`, the arrays passed as arguments (`Q`, `P`, `dQ`,
`dP`, `rectifiedArray`), the residuals of the collocation solver
(`r->ri_tes.radau->cs_dq`, `cs_dp`), the residuals of the Kepler solver
(`r->ri_tes.uVars->uv_csq`, `uv_csp`) and the rest of the Kepler solver's state, `uVars`,
of a type `κ` that `dhem.c` never inspects. -/
structure TesState (α κ : Type) where
  dhem : DHEM α
  Q : Nat → α
  P : Nat → α
  dQ : Nat → α
  dP : Nat → α
  rectifiedArray : Nat → Nat
  cs_dq : Nat → α
  cs_dp : Nat → α
  uv_csq : Nat → α
  uv_csp : Nat → α
  uVars : κ

/-- The function `dhem_PerformSummation` of `dhem.c`. -/
def dhem_PerformSummation {κ : Type} (N : Nat) (s : TesState α κ) (stageNumber : Nat) :
    TesState α κ :=
  -- Need to setup a pointer to the osculating orbits in memory.
  let s := { s with dhem := { s.dhem with XoscStage := stageNumber } }
  -- Always zero in our frame of reference.
  let s := forLoop (fun i (s : TesState α κ) =>
      { s with Q := Function.update s.Q i 0, P := Function.update s.P i 0 }) 0 3 s
  forLoop (fun i (s : TesState α κ) =>
      let Q := Function.update s.Q (3 * i + 0) (s.dhem.Qosc (3 * i + 0)
        + (s.dQ (3 * i + 0) + (s.dhem.Qosc_cs (3 * i + 0) + s.cs_dq (3 * i + 0))))
      let Q := Function.update Q (3 * i + 1) (s.dhem.Qosc (3 * i + 1)
        + (s.dQ (3 * i + 1) + (s.dhem.Qosc_cs (3 * i + 1) + s.cs_dq (3 * i + 1))))
      let Q := Function.update Q (3 * i + 2) (s.dhem.Qosc (3 * i + 2)
        + (s.dQ (3 * i + 2) + (s.dhem.Qosc_cs (3 * i + 2) + s.cs_dq (3 * i + 2))))
      let P := Function.update s.P (3 * i + 0) (s.dhem.Posc N (3 * i + 0)
        + (s.dP (3 * i + 0) + (s.dhem.Posc_cs N (3 * i + 0) + s.cs_dp (3 * i + 0))))
      let P := Function.update P (3 * i + 1) (s.dhem.Posc N (3 * i + 1)
        + (s.dP (3 * i + 1) + (s.dhem.Posc_cs N (3 * i + 1) + s.cs_dp (3 * i + 1))))
      let P := Function.update P (3 * i + 2) (s.dhem.Posc N (3 * i + 2)
        + (s.dP (3 * i + 2) + (s.dhem.Posc_cs N (3 * i + 2) + s.cs_dp (3 * i + 2))))
      { s with Q := Q, P := P })
    1 (N - 1) s

/-- The quotient `a / b` of two C doubles.  A zero divisor does not give a number: IEEE 754
returns an infinity with the sign of `a` when `a` is not zero, and a NaN for `0 / 0`. -/
def divDouble (a b : α) : FpValue α :=
  if b = 0 then (if a = 0 then FpValue.nan else FpValue.inf (decide (a < 0)))
  else FpValue.finite (a / b)

/-- The comparison `x > c` of C between a double `x` and a finite `c`: `+inf` exceeds every
finite number, `-inf` exceeds none, and every comparison with a NaN is false. -/
def gtDouble (x : FpValue α) (c : α) : Bool :=
  match x with
  | .finite v => decide (v > c)
  | .inf negative => !negative
  | .nan => false

/-- `dhem.c` lines 289-308: the scan for a triggering body, `for (i = 1; i < N; i++)` with
its `break`.  The result is the flag array and `rectifyFlag`.  The two ratios are quotients
of doubles (`divDouble`): a body whose reference norm is zero triggers when its deviation
norm is positive (`+inf > dq_max`) and does not when the deviation norm is zero too (NaN). -/
def rectifyScan (sqrt : α → α) (N : Nat) (t dq_max : α)
    (Qosc Posc dQ dP rectifyTimeArray : Nat → α) :
    Nat → Nat → (Nat → Nat) → (Nat → Nat) × Nat
  | _, 0, rectifiedArray => (rectifiedArray, 0)
  | i, count + 1, rectifiedArray =>
    let rectifiedArray := Function.update rectifiedArray (3 * i) 0
    let rectifiedArray := Function.update rectifiedArray (3 * i + 1) 0
    let rectifiedArray := Function.update rectifiedArray (3 * i + 2) 0
    let rectifiedArray := Function.update rectifiedArray (N * 3 + 3 * i) 0
    let rectifiedArray := Function.update rectifiedArray (N * 3 + 3 * i + 1) 0
    let rectifiedArray := Function.update rectifiedArray (N * 3 + 3 * i + 2) 0
    let dQ_norm := divDouble (NORM sqrt dQ i) (NORM sqrt Qosc i)
    let _dP_norm := divDouble (NORM sqrt dP i) (NORM sqrt Posc i)
    if t > rectifyTimeArray i ∨ gtDouble dQ_norm dq_max = true then
      (rectifiedArray, 1)
    else
      rectifyScan sqrt N t dq_max Qosc Posc dQ dP rectifyTimeArray (i + 1) count rectifiedArray

/-- `dhem.c` lines 316-328: the fold of the position deviation and residuals of body `i`. -/
def rectifyFoldQ {κ : Type} (i : Nat) (s : TesState α κ) : TesState α κ :=
  forLoop (fun j (s : TesState α κ) =>
      let temp_cs : α := 0
      let Q := Function.update s.Q (3 * i + j) (s.dhem.Qosc (3 * i + j))
      let r := add_cs (Q (3 * i + j)) temp_cs (s.dQ (3 * i + j))
      let Q := Function.update Q (3 * i + j) r.1
      let temp_cs := r.2
      let r := add_cs (Q (3 * i + j)) temp_cs (s.uv_csq (3 * i + j))
      let Q := Function.update Q (3 * i + j) r.1
      let temp_cs := r.2
      let r := add_cs (Q (3 * i + j)) temp_cs (s.cs_dq (3 * i + j))
      let Q := Function.update Q (3 * i + j) r.1
      let temp_cs := r.2
      { s with Q := Q,
               dQ := Function.update s.dQ (3 * i + j) (-temp_cs),
               cs_dq := Function.update s.cs_dq (3 * i + j) 0,
               uv_csq := Function.update s.uv_csq (3 * i + j) 0 })
    0 3 s

/-- `dhem.c` lines 330-342: the fold of the momentum deviation and residuals of body `i`. -/
def rectifyFoldP {κ : Type} (N : Nat) (i : Nat) (s : TesState α κ) : TesState α κ :=
  forLoop (fun j (s : TesState α κ) =>
      let temp_cs : α := 0
      let P := Function.update s.P (3 * i + j) (s.dhem.Posc N (3 * i + j))
      let r := add_cs (P (3 * i + j)) temp_cs (s.dP (3 * i + j))
      let P := Function.update P (3 * i + j) r.1
      let temp_cs := r.2
      let r := add_cs (P (3 * i + j)) temp_cs (s.uv_csp (3 * i + j))
      let P := Function.update P (3 * i + j) r.1
      let temp_cs := r.2
      let r := add_cs (P (3 * i + j)) temp_cs (s.cs_dp (3 * i + j))
      let P := Function.update P (3 * i + j) r.1
      let temp_cs := r.2
      { s with P := P,
               dP := Function.update s.dP (3 * i + j) (-temp_cs),
               cs_dp := Function.update s.cs_dp (3 * i + j) 0,
               uv_csp := Function.update s.uv_csp (3 * i + j) 0 })
    0 3 s

/-- `dhem.c` lines 314-354: the rectification of body `i` at time `t`.
`RebasisOsculatingOrbits_Momenta` is declared in `UniversalVars.h`; it is passed as the
parameter `Rebasis`, which re-anchors body `i` inside the Kepler solver's state from the
arrays `Q`, `P` and the time `t` and writes nothing else. -/
def rectifyBody {κ : Type} (Rebasis : κ → (Nat → α) → (Nat → α) → α → Nat → κ) (N : Nat)
    (t : α) (i : Nat) (s : TesState α κ) : TesState α κ :=
  let s := rectifyFoldQ i s
  let s := rectifyFoldP N i s
  let s := { s with uVars := Rebasis s.uVars s.Q s.P t i }
  -- This option will add some randomness to the rectification process.
  let rectifyTimeArray :=
    Function.update s.dhem.rectifyTimeArray i (t + s.dhem.rectificationPeriod i)
  let s := { s with dhem := { s.dhem with rectifyTimeArray := rectifyTimeArray } }
  let rectifiedArray := Function.update s.rectifiedArray (3 * i) 1
  let rectifiedArray := Function.update rectifiedArray (3 * i + 1) 1
  let rectifiedArray := Function.update rectifiedArray (3 * i + 2) 1
  let rectifiedArray := Function.update rectifiedArray (N * 3 + 3 * i) 1
  let rectifiedArray := Function.update rectifiedArray (N * 3 + 3 * i + 1) 1
  let rectifiedArray := Function.update rectifiedArray (N * 3 + 3 * i + 2) 1
  { s with rectifiedArray := rectifiedArray }

/-- The state in which `dhem_RectifyOrbits` starts its loops: the slices of `stageNumber`
are selected (`dhem.c` lines 277-287). -/
def rectifySelect {κ : Type} (s : TesState α κ) (stageNumber : Nat) : TesState α κ :=
  { s with dhem := { s.dhem with XoscStage := stageNumber, Xosc_dotStage := stageNumber,
                                 Xosc_csStage := stageNumber } }

/-- The value of `rectifyFlag` after the scan of `dhem_RectifyOrbits` (line 308). -/
def rectifyFlag {κ : Type} (sqrt : α → α) (N : Nat) (dq_max t : α) (s : TesState α κ)
    (stageNumber : Nat) : Nat :=
  let s := rectifySelect s stageNumber
  (rectifyScan sqrt N t dq_max s.dhem.Qosc (s.dhem.Posc N) s.dQ s.dP s.dhem.rectifyTimeArray
    1 (N - 1) s.rectifiedArray).2

/-- The function `dhem_RectifyOrbits` of `dhem.c`; `dq_max` is `r->ri_tes.dq_max`.  The
result is the returned `rectifiedCount` and the state after the call. -/
def dhem_RectifyOrbits {κ : Type} (sqrt : α → α)
    (Rebasis : κ → (Nat → α) → (Nat → α) → α → Nat → κ) (N : Nat) (dq_max t : α)
    (s : TesState α κ) (stageNumber : Nat) : Nat × TesState α κ :=
  let s := rectifySelect s stageNumber
  let scan := rectifyScan sqrt N t dq_max s.dhem.Qosc (s.dhem.Posc N) s.dQ s.dP
    s.dhem.rectifyTimeArray 1 (N - 1) s.rectifiedArray
  let s := { s with rectifiedArray := scan.1 }
  let rectifyFlag := scan.2
  forLoop (fun i (cs : Nat × TesState α κ) =>
      if rectifyFlag ≠ 0 then (cs.1 + 1, rectifyBody Rebasis N t i cs.2) else cs)
    1 (N - 1) (0, s)

end Dhem

/-! ## `dhem.c`: the Hamiltonian -/

section Hamiltonian

variable {α : Type} [LinearOrderedField α]

/-- `dhem.c` lines 204-213: the kinetic and central-potential terms of the bodies
`1 ≤ i < N` and the accumulation of `Psun`; the state is `(hamiltonian, Psun)`. -/
def hamiltonian_bodies (sqrt : α → α) (N : Nat) (G : α) (m Q P : Nat → α)
    (st : α × (Nat → α)) : α × (Nat → α) :=
  forLoop (fun i (st : α × (Nat → α)) =>
      let Pnorm := (NORM sqrt P i)
      let hamiltonian := st.1 + Pnorm * Pnorm / (2 * m i)
      let hamiltonian := hamiltonian - G * m 0 * m i / NORM sqrt Q i
      let Psun := Function.update st.2 0 (st.2 0 + P (3 * i))
      let Psun := Function.update Psun 1 (Psun 1 + P (3 * i + 1))
      let Psun := Function.update Psun 2 (Psun 2 + P (3 * i + 2))
      (hamiltonian, Psun))
    1 (N - 1) st

/-- `dhem.c` lines 217-227: the potential terms of the pairs `1 ≤ i < j < N`; the state is
`(hamiltonian, sepVec)`. -/
def hamiltonian_pairs (sqrt : α → α) (N : Nat) (G : α) (m Q : Nat → α)
    (st : α × (Nat → α)) : α × (Nat → α) :=
  forLoop (fun i (st : α × (Nat → α)) =>
      forLoop (fun j (st : α × (Nat → α)) =>
          let sepVec := Function.update st.2 0 (Q (3 * i) - Q (3 * j))
          let sepVec := Function.update sepVec 1 (Q (3 * i + 1) - Q (3 * j + 1))
          let sepVec := Function.update sepVec 2 (Q (3 * i + 2) - Q (3 * j + 2))
          (st.1 - (G * m i * m j) / NORM sqrt sepVec 0, sepVec))
        (i + 1) (N - (i + 1)) st)
    1 (N - 1) st

/-- The function `dhem_CalculateHamiltonian` of `dhem.c`; `m` is `r->ri_tes.mass`. -/
def dhem_CalculateHamiltonian (sqrt : α → α) (N : Nat) (G : α) (m Q P : Nat → α) : α :=
  let hamiltonian : α := 0
  let Psun : Nat → α := fun _ => 0
  let sepVec : Nat → α := fun _ => 0
  let st := hamiltonian_bodies sqrt N G m Q P (hamiltonian, Psun)
  let hamiltonian := st.1
  let Psun := st.2
  let PsunNorm := NORM sqrt Psun 0
  let hamiltonian := hamiltonian + (1 / (2 * m 0)) * PsunNorm * PsunNorm
  let st := hamiltonian_pairs sqrt N G m Q (hamiltonian, sepVec)
  st.1

end Hamiltonian

/-! ## `radau.c`: the step driver -/

section Driver

variable {α : Type} [LinearOrderedField α]

/-- The struct `controlVars` of `radau.h` as `radau.c` uses it: the seven coefficient
arrays `p0 .. p6` of one B-field. -/
structure controlVars (α : Type) where
  p0 : Nat → α
  p1 : Nat → α
  p2 : Nat → α
  p3 : Nat → α
  p4 : Nat → α
  p5 : Nat → α
  p6 : Nat → α

/-- The function `ClearRectifiedBFields` of `radau.c`; `stateVectorLength` is
`r->ri_tes.stateVectorLength`.  The result is the B-field and the flag array after the
call. -/
def ClearRectifiedBFields (stateVectorLength : Nat) (B : controlVars α)
    (rectifiedArray : Nat → Nat) : controlVars α × (Nat → Nat) :=
  forLoop (fun i (st : controlVars α × (Nat → Nat)) =>
      if st.2 i > 0 then
        let B := st.1
        let B := { B with p0 := Function.update B.p0 i 0 }
        let B := { B with p1 := Function.update B.p1 i 0 }
        let B := { B with p2 := Function.update B.p2 i 0 }
        let B := { B with p3 := Function.update B.p3 i 0 }
        let B := { B with p4 := Function.update B.p4 i 0 }
        let B := { B with p5 := Function.update B.p5 i 0 }
        let B := { B with p6 := Function.update B.p6 i 0 }
        (B, st.2)
      else st)
    0 stateVectorLength (B, rectifiedArray)

/-- The array set that a pointer passed to `CalculateOsculatingOrbitsForSingleStep`
designates: `dhem->XoscArr` (the "rebasis" set) or `dhem->XoscPredArr` (the "prediction"
set). -/
inductive OscSet where
  | rebasis
  | prediction

/-- `dhem.c` lines 396-404: the derivatives of the reference orbit for the stages
`0 ≤ i < z_stagesPerStep`, always computed from `dhem->XoscArr[i]`.  The two halves of
`Xosc_dotArr[i]` are the output arrays. -/
def calcOscDerivatives {κ : Type} (sqrt : α → α) (N : Nat) (G : α) (z_stagesPerStep : Nat)
    (s : TesState α κ) : TesState α κ :=
  forLoop (fun i (s : TesState α κ) =>
      let Qout := s.dhem.XoscArr i
      let Pout := fun x => s.dhem.XoscArr i (3 * N + x)
      let Q_dot_out := s.dhem.Xosc_dotArr i
      let P_dot_out := fun x => s.dhem.Xosc_dotArr i (3 * N + x)
      let out := dhem_CalculateOsculatingOrbitDerivatives_Momenta sqrt N G s.dhem.m Qout Pout
        (Q_dot_out, P_dot_out)
      let Xosc_dotArr := Function.update s.dhem.Xosc_dotArr i
        (fun x => if x < 3 * N then out.1 x else out.2 (x - 3 * N))
      { s with dhem := { s.dhem with Xosc_dotArr := Xosc_dotArr } })
    0 z_stagesPerStep s

/-- The function `dhem_CalcOscOrbitsForAllStages` of `dhem.c`.
`CalculateOsculatingOrbitsForSingleStep` is declared in `UniversalVars.h`; it is the
parameter `Propagate`, which gets the state, the array set it is asked to write and the
remaining arguments `t0`, `h`, `hArr`, `z_stagesPerStep`, `z_rebasis`. -/
def dhem_CalcOscOrbitsForAllStages {κ : Type} (sqrt : α → α)
    (Propagate : TesState α κ → OscSet → α → α → (Nat → α) → Nat → Nat → TesState α κ)
    (N : Nat) (G : α) (s : TesState α κ) (t0 h : α) (hArr : Nat → α)
    (z_stagesPerStep z_rebasis : Nat) : TesState α κ :=
  let s :=
    if z_rebasis ≠ 0 then
      Propagate s OscSet.rebasis t0 h hArr z_stagesPerStep z_rebasis
    else
      Propagate s OscSet.prediction t0 h hArr z_stagesPerStep z_rebasis
  calcOscDerivatives sqrt N G z_stagesPerStep s

/-- The constant `#define FINAL_STAGE_INDEX 8`. -/
def FINAL_STAGE_INDEX : Nat := 8

/-- The constant `#define OSCULATING_ORBIT_SLOTS 9`. -/
def OSCULATING_ORBIT_SLOTS : Nat := 9

/-- The struct `RADAU` of `radau.h` as `Radau_SingleStep` uses it, without the arrays that
are kept in `TesState` (`dQ`, `dP`, `rectifiedArray`, `cs_dq`, `cs_dp`); `solver` is the rest
of the collocation solver's state, of a type `ρ` that `radau.c` never inspects. -/
structure RADAU (α ρ : Type) where
  h : α
  t : α
  rectifications : Nat
  convergenceIterations : Nat
  rTol : α
  B : controlVars α
  B_1st : controlVars α
  solver : ρ

/-- The state of one step: the integrator state, the struct `radau` and the global
`iterations`. -/
structure StepState (α κ ρ : Type) where
  tes : TesState α κ
  radau : RADAU α ρ
  iterations : Nat

/-- The B-field that a pair of pointers passed to `radau->AnalyticalContinuation`
designates: `(radau->B_1st, radau->Blast_1st)` or `(radau->B, radau->Blast)`. -/
inductive BField where
  | first
  | second

/-- The functions that `Radau_SingleStep` reaches through pointers or that are declared in
headers outside the examined sources. -/
structure Externals (α κ ρ : Type) where
  sqrt : α → α
  pow : α → α → α
  Rebasis : κ → (Nat → α) → (Nat → α) → α → Nat → κ
  Propagate : TesState α κ → OscSet → α → α → (Nat → α) → Nat → Nat → TesState α κ
  CalculateGfromB : StepState α κ ρ → StepState α κ ρ
  step : StepState α κ ρ → α → α → StepState α κ ρ
  ReturnStepError : StepState α κ ρ → α → α → FpValue α
  AnalyticalContinuation : StepState α κ ρ → BField → α → α → StepState α κ ρ

/-- The host data that `Radau_SingleStep` reads: `r->N`, `r->G` and the fields
`stateVectorLength`, `dq_max`, `epsilon` of `r->ri_tes`. -/
structure Host (α : Type) where
  N : Nat
  G : α
  stateVectorLength : Nat
  dq_max : α
  epsilon : α

/-- The table `hArr` of `radau.c`: the relative stage times, as decimal fractions. -/
def hArr : Nat → α := fun i =>
  match i with
  | 0 => 0
  | 1 => 562625605369221464656521910318 / 10 ^ 31
  | 2 => 180240691736892364987579942780 / 10 ^ 30
  | 3 => 352624717113169637373907769648 / 10 ^ 30
  | 4 => 547153626330555383001448554766 / 10 ^ 30
  | 5 => 734210177215410531523210605558 / 10 ^ 30
  | 6 => 885320946839095768090359771030 / 10 ^ 30
  | 7 => 977520613561287501891174488626 / 10 ^ 30
  | 8 => 1
  | _ => 0

/-- `radau.c` lines 46-51: the rectification at the start of `Radau_SingleStep`.  The
result is `rectificationCount` and the state after line 51. -/
def Radau_SingleStep_rectified {κ ρ : Type} (ext : Externals α κ ρ) (host : Host α)
    (st : StepState α κ ρ) (z_t dt : α) : Nat × StepState α κ ρ :=
  let st := { st with radau := { st.radau with h := dt } }
  let st := { st with radau := { st.radau with t := z_t } }
  let r := dhem_RectifyOrbits ext.sqrt ext.Rebasis host.N host.dq_max z_t st.tes
    FINAL_STAGE_INDEX
  let rectificationCount := r.1
  let st := { st with tes := r.2 }
  let rectifications := st.radau.rectifications + rectificationCount
  let st := { st with radau := { st.radau with rectifications := rectifications } }
  (rectificationCount, st)

/-- `radau.c` lines 46-54: the state of `Radau_SingleStep` after the call of
`dhem_CalcOscOrbitsForAllStages`. -/
def Radau_SingleStep_propagated {κ ρ : Type} (ext : Externals α κ ρ) (host : Host α)
    (st : StepState α κ ρ) (z_t dt : α) : StepState α κ ρ :=
  let st := (Radau_SingleStep_rectified ext host st z_t dt).2
  -- Calculate the osculating orbits.
  let tes := dhem_CalcOscOrbitsForAllStages ext.sqrt ext.Propagate host.N host.G st.tes
    z_t dt hArr OSCULATING_ORBIT_SLOTS 1
  { st with tes := tes }

/-- The function `Radau_SingleStep` of `radau.c`; the result is the returned `dt_new` and
the state after the call.  The argument `dt_last_done` is only passed on to
`Radau_CalculateStepSize`, which does not use it. -/
def Radau_SingleStep {κ ρ : Type} (ext : Externals α κ ρ) (host : Host α)
    (st : StepState α κ ρ) (z_t dt : α) : α × StepState α κ ρ :=
  let st := Radau_SingleStep_propagated ext host st z_t dt
  let cleared := ClearRectifiedBFields host.stateVectorLength st.radau.B st.tes.rectifiedArray
  let st := { st with radau := { st.radau with B := cleared.1 },
                      tes := { st.tes with rectifiedArray := cleared.2 } }
  let cleared := ClearRectifiedBFields host.stateVectorLength st.radau.B_1st
    st.tes.rectifiedArray
  let st := { st with radau := { st.radau with B_1st := cleared.1 },
                      tes := { st.tes with rectifiedArray := cleared.2 } }
  let st := ext.CalculateGfromB st
  let st := ext.step st z_t dt
  let convergenceIterations := st.radau.convergenceIterations + st.iterations
  let st := { st with radau := { st.radau with convergenceIterations := convergenceIterations } }
  let dt_new :=
    if host.epsilon > 0 then
      Radau_CalculateStepSize ext.pow st.radau.rTol (ext.ReturnStepError st dt z_t) dt
    else dt
  let st := ext.AnalyticalContinuation st BField.first dt dt_new
  let st := ext.AnalyticalContinuation st BField.second dt dt_new
  (dt_new, st)

end Driver

/-! ## Quantities named by the statements -/

section Named

variable {α : Type} [LinearOrderedField α]

/-- The relative perturbation `q` of body `i` as computed in `dhem.c` lines 124-127 from the
deviation `dQ` and the absolute position `Q`. -/
def encke_q (dQ Q : Nat → α) (i : Nat) : α :=
  (dQ (3 * i + 0) * (dQ (3 * i + 0) - 2 * Q (3 * i + 0))
    + dQ (3 * i + 1) * (dQ (3 * i + 1) - 2 * Q (3 * i + 1))
    + dQ (3 * i + 2) * (dQ (3 * i + 2) - 2 * Q (3 * i + 2)))
  / (Q (3 * i + 0) * Q (3 * i + 0) + Q (3 * i + 1) * Q (3 * i + 1)
    + Q (3 * i + 2) * Q (3 * i + 2))

/-- The stabilising factor `fq` as computed in `dhem.c` lines 128-130 from `q`. -/
def encke_f (sqrt : α → α) (q : α) : α :=
  -q * (3 + 3 * q + q * q) / (1 + sqrt ((1 + q) * (1 + q) * (1 + q)))

/-- The value that the central-term loop stores in `dP_dot[3*i+k]` (lines 133-135):
`-dQ * (GMM / |Qosc|^3) + (GMM / |Qosc|^3 * fq) * Q`. -/
def centralTerm (sqrt : α → α) (G : α) (m Qosc dQ Q : Nat → α) (i k : Nat) : α :=
  -dQ (3 * i + k)
      * (G * m 0 * m i / (NORM sqrt Qosc i * NORM sqrt Qosc i * NORM sqrt Qosc i))
    + G * m 0 * m i / (NORM sqrt Qosc i * NORM sqrt Qosc i * NORM sqrt Qosc i)
      * encke_f sqrt (encke_q dQ Q i) * Q (3 * i + k)

/-- The vector that the pairwise loop computes for the pair `(i, j)` (lines 145-154),
component `k`: `d * (G*m[i]*m[j] / sepNorm^3)` with `d = Q[3*j+k] - Q[3*i+k]`. -/
def pairTerm (sqrt : α → α) (G : α) (m Q : Nat → α) (i j k : Nat) : α :=
  (Q (3 * j + k) - Q (3 * i + k))
    * (G * m i * m j
      / (sqrt ((Q (3 * j + 0) - Q (3 * i + 0)) * (Q (3 * j + 0) - Q (3 * i + 0))
            + (Q (3 * j + 1) - Q (3 * i + 1)) * (Q (3 * j + 1) - Q (3 * i + 1))
            + (Q (3 * j + 2) - Q (3 * i + 2)) * (Q (3 * j + 2) - Q (3 * i + 2)))
          * sqrt ((Q (3 * j + 0) - Q (3 * i + 0)) * (Q (3 * j + 0) - Q (3 * i + 0))
            + (Q (3 * j + 1) - Q (3 * i + 1)) * (Q (3 * j + 1) - Q (3 * i + 1))
            + (Q (3 * j + 2) - Q (3 * i + 2)) * (Q (3 * j + 2) - Q (3 * i + 2)))
          * sqrt ((Q (3 * j + 0) - Q (3 * i + 0)) * (Q (3 * j + 0) - Q (3 * i + 0))
            + (Q (3 * j + 1) - Q (3 * i + 1)) * (Q (3 * j + 1) - Q (3 * i + 1))
            + (Q (3 * j + 2) - Q (3 * i + 2)) * (Q (3 * j + 2) - Q (3 * i + 2)))))

/-- The squared length `|x_i|^2` of the 3-vector of body `i` in array `x`. -/
def normSq (x : Nat → α) (i : Nat) : α :=
  x (3 * i) * x (3 * i) + x (3 * i + 1) * x (3 * i + 1) + x (3 * i + 2) * x (3 * i + 2)

/-- The absolute position `Q = Qosc + dQ` that `dhem_rhs` reconstructs (line 78). -/
def absQ (dhem : DHEM α) (dQ : Nat → α) : Nat → α := fun x => dhem.Qosc x + dQ x

/-- The separation `|Q_j - Q_i|` of the bodies `i` and `j`. -/
def sepNorm (sqrt : α → α) (Q : Nat → α) (i j : Nat) : α :=
  sqrt ((Q (3 * j + 0) - Q (3 * i + 0)) ^ 2 + (Q (3 * j + 1) - Q (3 * i + 1)) ^ 2
    + (Q (3 * j + 2) - Q (3 * i + 2)) ^ 2)

/-- The Newtonian force of body `j` on body `i`, component `k`:
`G * m_i * m_j * (Q_j - Q_i) / |Q_j - Q_i|^3`. -/
def pairForce (sqrt : α → α) (G : α) (m Q : Nat → α) (i j k : Nat) : α :=
  G * m i * m j * (Q (3 * j + k) - Q (3 * i + k)) / (sepNorm sqrt Q i j) ^ 3

/-- The trigger test of `dhem_RectifyOrbits` (lines 302-303) for body `i`, with the
reference taken from stage `stageNumber`: `t > rectifyTimeArray[i]` or
`|dQ_i| / |Qosc_i| > dq_max`.  The ratio is a quotient of doubles: when `|Qosc_i|` is zero
it is `+inf` for a non-zero deviation, which exceeds `dq_max`, and a NaN for a zero
deviation, which does not. -/
def bodyTriggers {κ : Type} (sqrt : α → α) (dq_max t : α) (s : TesState α κ)
    (stageNumber : Nat) (i : Nat) : Prop :=
  t > s.dhem.rectifyTimeArray i
    ∨ gtDouble (divDouble (NORM sqrt s.dQ i) (NORM sqrt (s.dhem.XoscArr stageNumber) i))
        dq_max = true

/-- Some non-central body `1 ≤ i < N` passes the trigger test. -/
def someBodyTriggers {κ : Type} (sqrt : α → α) (N : Nat) (dq_max t : α) (s : TesState α κ)
    (stageNumber : Nat) : Prop :=
  ∃ i, 1 ≤ i ∧ i < N ∧ bodyTriggers sqrt dq_max t s stageNumber i

/-- The compensated sum of a reference value `x`, a deviation `d` and two residuals `u`, `c`:
`add_cs` applied in this order to the accumulator `x`, starting from a zero carry.  The
result is the final accumulator and the final carry. -/
def foldCs (x d u c : α) : α × α :=
  let r1 := add_cs x 0 d
  let r2 := add_cs r1.1 r1.2 u
  add_cs r2.1 r2.2 c

/-- The state `s` is the state `s0` in which the bodies `1 ≤ b < I` have been folded by
`rectifyBody` and the other bodies are untouched: the reference snapshots are those of
`s0`, and every entry of `Q`, `dQ`, `cs_dq`, `uv_csq`, `P`, `dP`, `cs_dp`, `uv_csp` of a
folded body holds the compensated sum, the negated carry or zero. -/
def FoldedBelow {κ : Type} (N : Nat) (s0 s : TesState α κ) (I : Nat) : Prop :=
  s.dhem.XoscArr = s0.dhem.XoscArr ∧ s.dhem.XoscStage = s0.dhem.XoscStage
    ∧ ∀ b k, k < 3 →
      s.Q (3 * b + k)
          = (if 1 ≤ b ∧ b < I then (foldCs (s0.dhem.Qosc (3 * b + k)) (s0.dQ (3 * b + k))
              (s0.uv_csq (3 * b + k)) (s0.cs_dq (3 * b + k))).1 else s0.Q (3 * b + k))
        ∧ s.dQ (3 * b + k)
          = (if 1 ≤ b ∧ b < I then -(foldCs (s0.dhem.Qosc (3 * b + k)) (s0.dQ (3 * b + k))
              (s0.uv_csq (3 * b + k)) (s0.cs_dq (3 * b + k))).2 else s0.dQ (3 * b + k))
        ∧ s.cs_dq (3 * b + k) = (if 1 ≤ b ∧ b < I then 0 else s0.cs_dq (3 * b + k))
        ∧ s.uv_csq (3 * b + k) = (if 1 ≤ b ∧ b < I then 0 else s0.uv_csq (3 * b + k))
        ∧ s.P (3 * b + k)
          = (if 1 ≤ b ∧ b < I then (foldCs (s0.dhem.Posc N (3 * b + k)) (s0.dP (3 * b + k))
              (s0.uv_csp (3 * b + k)) (s0.cs_dp (3 * b + k))).1 else s0.P (3 * b + k))
        ∧ s.dP (3 * b + k)
          = (if 1 ≤ b ∧ b < I then -(foldCs (s0.dhem.Posc N (3 * b + k)) (s0.dP (3 * b + k))
              (s0.uv_csp (3 * b + k)) (s0.cs_dp (3 * b + k))).2 else s0.dP (3 * b + k))
        ∧ s.cs_dp (3 * b + k) = (if 1 ≤ b ∧ b < I then 0 else s0.cs_dp (3 * b + k))
        ∧ s.uv_csp (3 * b + k) = (if 1 ≤ b ∧ b < I then 0 else s0.uv_csp (3 * b + k))

/-- The positions with the central body at the origin: the entries `0..2` are replaced by
zero. -/
def centred (Q : Nat → α) : Nat → α := fun x => if x < 3 then 0 else Q x

/-- The Hamiltonian in the words of the specification: the kinetic term
`|P_i|^2 / (2 m_i)` of every non-central body, plus the recoil term
`|sum of the P_i|^2 / (2 m_0)`, minus `G m_i m_j / |Q_i - Q_j|` for every pair
`0 ≤ i < j < N`, with the central body at the origin. -/
def hamiltonianSpec (sqrt : α → α) (N : Nat) (G : α) (m Q P : Nat → α) : α :=
  ∑ i in Finset.Ico 1 N, normSq P i / (2 * m i)
    + ((∑ i in Finset.Ico 1 N, P (3 * i + 0)) ^ 2 + (∑ i in Finset.Ico 1 N, P (3 * i + 1)) ^ 2
        + (∑ i in Finset.Ico 1 N, P (3 * i + 2)) ^ 2) / (2 * m 0)
    - ∑ i in Finset.range N, ∑ j in Finset.Ico (i + 1) N,
        G * m i * m j / sepNorm sqrt (centred Q) j i

/-- A sequence of calls of `add_cs` on one accumulator and one carry, one call for each
increment of the list, in the order of the list. -/
def add_cs_seq (out cs : α) (incs : List α) : α × α :=
  incs.foldl (fun s inp => add_cs s.1 s.2 inp) (out, cs)

end Named

/-! ## Concrete inputs -/

section Examples

variable (α : Type) [LinearOrderedField α]

/-- A module state with unit masses in which every reference entry is `c` and every other
array is zero. -/
def constDhem (c : α) : DHEM α where
  XoscStage := 0
  Xosc_dotStage := 0
  Xosc_csStage := 0
  XoscArr := fun _ _ => c
  XoscPredArr := fun _ _ => 0
  XoscArr_cs := fun _ _ => 0
  Xosc_dotArr := fun _ _ => 0
  Q := fun _ => 0
  P := fun _ => 0
  m := fun _ => 1
  m_inv := fun _ => 1
  rectifyTimeArray := fun _ => 0
  rectificationPeriod := fun _ => 0

/-- A module state with unit masses in which the reference entry `x` of every stage holds
the value `x`, so that the bodies sit at distinct positions (body `i` at
`(3*i, 3*i+1, 3*i+2)`), and every other array is zero. -/
def rampDhem : DHEM α where
  XoscStage := 0
  Xosc_dotStage := 0
  Xosc_csStage := 0
  XoscArr := fun _ x => (x : α)
  XoscPredArr := fun _ _ => 0
  XoscArr_cs := fun _ _ => 0
  Xosc_dotArr := fun _ _ => 0
  Q := fun _ => 0
  P := fun _ => 0
  m := fun _ => 1
  m_inv := fun _ => 1
  rectifyTimeArray := fun _ => 0
  rectificationPeriod := fun _ => 0

/-- Output arrays that hold zeros. -/
def zeroRhsArrays : RhsArrays α where
  dQ_dot := fun _ => 0
  dP_dot := fun _ => 0
  dQ_ddot := fun _ => 0
  dP_ddot := fun _ => 0

/-- The array whose entry `i` is `v` and whose other entries are zero. -/
def single (i : Nat) (v : α) : Nat → α := fun x => if x = i then v else 0

/-- An integrator state around `constDhem α 0` in which every array is zero except the
Kepler-solver residual `uv_csq`; the Kepler solver's remaining state is trivial. -/
def residualState (uv_csq : Nat → α) : TesState α Unit where
  dhem := constDhem α 0
  Q := fun _ => 0
  P := fun _ => 0
  dQ := fun _ => 0
  dP := fun _ => 0
  rectifiedArray := fun _ => 0
  cs_dq := fun _ => 0
  cs_dp := fun _ => 0
  uv_csq := uv_csq
  uv_csp := fun _ => 0
  uVars := ()

/-- An integrator state around `constDhem α c` with the position deviation `dQ`; every other
array is zero and the Kepler solver's remaining state is trivial. -/
def deviationState (c : α) (dQ : Nat → α) : TesState α Unit where
  dhem := constDhem α c
  Q := fun _ => 0
  P := fun _ => 0
  dQ := dQ
  dP := fun _ => 0
  rectifiedArray := fun _ => 0
  cs_dq := fun _ => 0
  cs_dp := fun _ => 0
  uv_csq := fun _ => 0
  uv_csp := fun _ => 0
  uVars := ()

/-- An integrator state over `ℚ` in which every array is zero and the Kepler solver's state
is a number. -/
def idleState : TesState ℚ Nat where
  dhem := constDhem ℚ 0
  Q := fun _ => 0
  P := fun _ => 0
  dQ := fun _ => 0
  dP := fun _ => 0
  rectifiedArray := fun _ => 0
  cs_dq := fun _ => 0
  cs_dp := fun _ => 0
  uv_csq := fun _ => 0
  uv_csp := fun _ => 0
  uVars := 0

/-- A B-field whose seven arrays hold the same value `c` everywhere. -/
def constControlVars (c : α) : controlVars α where
  p0 := fun _ => c
  p1 := fun _ => c
  p2 := fun _ => c
  p3 := fun _ => c
  p4 := fun _ => c
  p5 := fun _ => c
  p6 := fun _ => c

/-- A step state around `idleState`. -/
def idleStepState : StepState ℚ Nat Unit where
  tes := idleState
  radau := { h := 0, t := 0, rectifications := 0, convergenceIterations := 0, rTol := 0,
             B := constControlVars ℚ 0, B_1st := constControlVars ℚ 0, solver := () }
  iterations := 0

/-- External functions over `ℚ` that do nothing, except that the propagator records in the
Kepler solver's state which array set it was asked to write (`1` for the "rebasis" set, `2`
for the "prediction" set). -/
def recordingExternals : Externals ℚ Nat Unit where
  sqrt := fun x => x
  pow := fun x _ => x
  Rebasis := fun u _ _ _ _ => u
  Propagate := fun s set _ _ _ _ _ =>
    { s with uVars := match set with
                      | OscSet.rebasis => 1
                      | OscSet.prediction => 2 }
  CalculateGfromB := fun st => st
  step := fun st _ _ => st
  ReturnStepError := fun _ _ _ => FpValue.nan
  AnalyticalContinuation := fun st _ _ _ => st

/-- A host with two bodies. -/
def twoBodyHost : Host ℚ where
  N := 2
  G := 1
  stateVectorLength := 12
  dq_max := 0
  epsilon := 0

/-- A module state over `ℚ` with unit masses in which the reference residuals of stage `s`
all hold the value `s` and every other array is zero. -/
def stagedDhem : DHEM ℚ where
  XoscStage := 0
  Xosc_dotStage := 0
  Xosc_csStage := 0
  XoscArr := fun _ _ => 0
  XoscPredArr := fun _ _ => 0
  XoscArr_cs := fun stage _ => (stage : ℚ)
  Xosc_dotArr := fun _ _ => 0
  Q := fun _ => 0
  P := fun _ => 0
  m := fun _ => 1
  m_inv := fun _ => 1
  rectifyTimeArray := fun _ => 0
  rectificationPeriod := fun _ => 0

/-- An integrator state around `stagedDhem` in which every other array is zero. -/
def stagedState : TesState ℚ Unit where
  dhem := stagedDhem
  Q := fun _ => 0
  P := fun _ => 0
  dQ := fun _ => 0
  dP := fun _ => 0
  rectifiedArray := fun _ => 0
  cs_dq := fun _ => 0
  cs_dp := fun _ => 0
  uv_csq := fun _ => 0
  uv_csp := fun _ => 0
  uVars := ()

/-- The state after an earlier call `dhem_RectifyOrbits(r, 0, ..., stage)` on `stagedState`
with two bodies and `dq_max = 0`. -/
def stagedRun (stage : Nat) : TesState ℚ Unit :=
  (dhem_RectifyOrbits (fun x => x) (fun u _ _ _ _ => u) 2 0 0 stagedState stage).2

end Examples

/-! ## Theorems -/

section RadauTheorems

variable {α : Type} [LinearOrderedField α]

/-- C1 (as stated, refuted): with `h = 1e-6` and a NaN error estimate the trial step
`1.1e-6` is raised to the minimum `1e-5` and then cut back by the growth cap to
`4e-6`, which is below `MIN_STEP_SIZE`. -/
theorem C1_below_minimum_when_cap_is_smaller :
    Radau_CalculateStepSize (fun (x _ : ℚ) => x) (1 / 1000000000) FpValue.nan (1 / 1000000)
        = 4 / 1000000
      ∧ Radau_CalculateStepSize (fun (x _ : ℚ) => x) (1 / 1000000000) FpValue.nan (1 / 1000000)
        < MIN_STEP_SIZE := by
  constructor <;>
    norm_num [Radau_CalculateStepSize, hTrialUnclamped, MIN_STEP_SIZE, MAX_STEP_SIZE_GROWTH]

/-- C1 (amended): whenever the growth cap `4 * h` is not itself below the minimum step
size, `Radau_CalculateStepSize` returns a step that is not below `MIN_STEP_SIZE`, for every
tolerance, every error estimate and every `pow`. -/
theorem C1_step_size_lower_bound (pow : α → α → α) (rTol : α) (errMax : FpValue α) (h : α)
    (hcap : MIN_STEP_SIZE ≤ MAX_STEP_SIZE_GROWTH * h) :
    MIN_STEP_SIZE ≤ Radau_CalculateStepSize pow rTol errMax h := by
  unfold Radau_CalculateStepSize
  simp only []
  split_ifs with h1 h2 h3
  · rw [mul_comm]; exact hcap
  · exact le_refl _
  · rw [mul_comm]; exact hcap
  · exact not_lt.mp h1

/-- C1 (amended), at a concrete input: `h = 1`, tolerance `1e-9`, infinite error estimate. -/
theorem C1_step_size_lower_bound_witness :
    (MIN_STEP_SIZE : ℚ) ≤ MAX_STEP_SIZE_GROWTH * 1 ∧
      (MIN_STEP_SIZE : ℚ) ≤
        Radau_CalculateStepSize (fun x _ => x) (1 / 1000000000) (FpValue.inf false) 1 :=
  ⟨by norm_num [MIN_STEP_SIZE, MAX_STEP_SIZE_GROWTH],
   C1_step_size_lower_bound _ _ _ _ (by norm_num [MIN_STEP_SIZE, MAX_STEP_SIZE_GROWTH])⟩

/-- C2: for every step size `h` (of either sign), every tolerance and every error estimate,
the value returned by `Radau_CalculateStepSize` is at most `MAX_STEP_SIZE_GROWTH * h = 4 * h`. -/
theorem C2_step_size_growth_cap (pow : α → α → α) (rTol : α) (errMax : FpValue α) (h : α) :
    Radau_CalculateStepSize pow rTol errMax h ≤ MAX_STEP_SIZE_GROWTH * h
      ∧ MAX_STEP_SIZE_GROWTH * h = 4 * h := by
  refine ⟨?_, by simp [MAX_STEP_SIZE_GROWTH]⟩
  unfold Radau_CalculateStepSize
  simp only []
  split_ifs with h1 h2 h3
  · rw [mul_comm]
  · exact not_lt.mp h2
  · rw [mul_comm]
  · exact not_lt.mp h3

end RadauTheorems

/-! ### Loops -/

section Loops

/-- A loop of `count + 1` rounds is a loop of `count` rounds followed by the last round. -/
theorem forLoop_succ_last {σ : Type} (body : Nat → σ → σ) (lo count : Nat) (s : σ) :
    forLoop body lo (count + 1) s = body (lo + count) (forLoop body lo count s) := by
  induction count generalizing lo s with
  | zero => simp [forLoop]
  | succ c ih =>
    have h1 : forLoop body lo (c + 1 + 1) s = forLoop body (lo + 1) (c + 1) (body lo s) := rfl
    have h2 : forLoop body lo (c + 1) s = forLoop body (lo + 1) c (body lo s) := rfl
    rw [h1, ih (lo + 1) (body lo s), h2]
    have h3 : lo + 1 + c = lo + (c + 1) := by omega
    rw [h3]

/-- Loop invariants: what holds before the first round and is carried by every round holds
after the loop. -/
theorem forLoop_invariant {σ : Type} (body : Nat → σ → σ) (Inv : Nat → σ → Prop)
    (lo count : Nat) (s : σ) (h0 : Inv 0 s)
    (hstep : ∀ c s', c < count → Inv c s' → Inv (c + 1) (body (lo + c) s')) :
    Inv count (forLoop body lo count s) := by
  induction count with
  | zero => exact h0
  | succ c ih =>
    rw [forLoop_succ_last]
    exact hstep c _ (Nat.lt_succ_self c)
      (ih (fun c' s' hc' hi => hstep c' s' (Nat.lt_succ_of_lt hc') hi))

/-- A loop whose round `i` adds `δ i` to the entry `x` adds the sum of the `δ i` to it. -/
theorem forLoop_add_sum {β : Type} [AddCommMonoid β] (body : Nat → (Nat → β) → (Nat → β))
    (x : Nat) (δ : Nat → β) (h : ∀ i a, body i a x = a x + δ i)
    (lo count : Nat) (a : Nat → β) :
    forLoop body lo count a x = a x + ∑ c in Finset.range count, δ (lo + c) := by
  induction count with
  | zero => simp [forLoop]
  | succ c ih => rw [forLoop_succ_last, h, ih, Finset.sum_range_succ, add_assoc]

/-- A loop whose round `i` rewrites only the three entries `3*i .. 3*i+2`, each from its own
old value, rewrites the entries of the bodies `lo ≤ b < lo + count` and no other. -/
theorem forLoop_slot {β : Type} (body : Nat → (Nat → β) → (Nat → β)) (g : Nat → Nat → β → β)
    (h : ∀ i a b k, k < 3 →
      body i a (3 * b + k) = if b = i then g i k (a (3 * b + k)) else a (3 * b + k))
    (lo count : Nat) (a : Nat → β) (b k : Nat) (hk : k < 3) :
    forLoop body lo count a (3 * b + k)
      = if lo ≤ b ∧ b < lo + count then g b k (a (3 * b + k)) else a (3 * b + k) := by
  induction count with
  | zero =>
    have h1 : ¬ (lo ≤ b ∧ b < lo + 0) := by omega
    rw [if_neg h1]
    rfl
  | succ c ih =>
    rw [forLoop_succ_last, h _ _ _ _ hk, ih]
    by_cases h1 : b = lo + c
    · have h2 : ¬ (lo ≤ b ∧ b < lo + c) := by omega
      have h3 : lo ≤ b ∧ b < lo + (c + 1) := by omega
      rw [if_pos h1, if_neg h2, if_pos h3, h1]
    · rw [if_neg h1]
      by_cases h2 : lo ≤ b ∧ b < lo + c
      · have h3 : lo ≤ b ∧ b < lo + (c + 1) := by omega
        rw [if_pos h2, if_pos h3]
      · have h3 : ¬ (lo ≤ b ∧ b < lo + (c + 1)) := by omega
        rw [if_neg h2, if_neg h3]

/-- Sums over the rounds `lo ≤ i < hi` of a loop, as sums over an interval. -/
theorem sum_range_eq_sum_Ico {β : Type} [AddCommMonoid β] (f : Nat → β) (lo hi : Nat) :
    ∑ c in Finset.range (hi - lo), f (lo + c) = ∑ i in Finset.Ico lo hi, f i := by
  rw [Finset.sum_Ico_eq_sum_range]

end Loops

/-! ### The phases of `dhem_rhs` -/

section RhsPhases

variable {α : Type} [LinearOrderedField α]

theorem idx_eq_iff (p q k l : Nat) (hk : k < 3) (hl : l < 3) :
    3 * p + k = 3 * q + l ↔ p = q ∧ k = l := by
  omega

/-- Three stores into the entries of body `i`, read at an entry of body `b`. -/
theorem update3_apply {β : Type} (a : Nat → β) (i : Nat) (v0 v1 v2 : β) (b k : Nat)
    (hk : k < 3) :
    Function.update (Function.update (Function.update a (3 * i) v0) (3 * i + 1) v1)
        (3 * i + 2) v2 (3 * b + k)
      = if b = i then (if k = 0 then v0 else if k = 1 then v1 else v2) else a (3 * b + k) := by
  by_cases hb : b = i
  · subst hb
    interval_cases k <;> simp [Function.update_apply]
  · have h0 : 3 * b + k ≠ 3 * i := by omega
    have h1 : 3 * b + k ≠ 3 * i + 1 := by omega
    have h2 : 3 * b + k ≠ 3 * i + 2 := by omega
    simp [Function.update_apply, hb, h0, h1, h2]

/-- Lines 76-80: the absolute positions are reference plus deviation from entry `3` on. -/
theorem rhs_absolute_apply (N : Nat) (Qosc Posc dQ dP : Nat → α) (QP : (Nat → α) × (Nat → α))
    (x : Nat) :
    (rhs_absolute N Qosc Posc dQ dP QP).1 x
        = (if 3 ≤ x ∧ x < 3 * N then Qosc x + dQ x else QP.1 x)
      ∧ (rhs_absolute N Qosc Posc dQ dP QP).2 x
        = (if 3 ≤ x ∧ x < 3 * N then Posc x + dP x else QP.2 x) := by
  have key := forLoop_invariant
    (fun i (QP : (Nat → α) × (Nat → α)) =>
      (Function.update QP.1 i (Qosc i + dQ i), Function.update QP.2 i (Posc i + dP i)))
    (fun c s => ∀ y, s.1 y = (if 3 ≤ y ∧ y < 3 + c then Qosc y + dQ y else QP.1 y)
      ∧ s.2 y = (if 3 ≤ y ∧ y < 3 + c then Posc y + dP y else QP.2 y))
    3 (3 * N - 3) QP
    (by
      intro y
      have h1 : ¬ (3 ≤ y ∧ y < 3 + 0) := by omega
      simp [h1])
    (by
      intro c s' _ hinv y
      obtain ⟨hq, hp⟩ := hinv y
      by_cases hy : y = 3 + c
      · subst hy
        have h1 : 3 ≤ 3 + c ∧ 3 + c < 3 + (c + 1) := by omega
        simp [h1]
      · simp only [Function.update_apply, if_neg hy, hq, hp]
        by_cases h2 : 3 ≤ y ∧ y < 3 + c
        · have h3 : 3 ≤ y ∧ y < 3 + (c + 1) := by omega
          simp [h2, h3]
        · have h3 : ¬ (3 ≤ y ∧ y < 3 + (c + 1)) := by omega
          simp [h2, h3])
  have hx := key x
  have hiff : (3 ≤ x ∧ x < 3 + (3 * N - 3)) ↔ (3 ≤ x ∧ x < 3 * N) := by omega
  simp only [hiff] at hx
  exact hx

/-- Lines 82-90: the accumulated 3-vector is the sum over the bodies `1 ≤ i < N`. -/
theorem rhs_sumBodies_apply (N : Nat) (x : Nat → α) (k : Nat) (hk : k < 3) :
    rhs_sumBodies N x k = ∑ i in Finset.Ico 1 N, x (3 * i + k) := by
  unfold rhs_sumBodies
  rw [forLoop_add_sum _ k (fun i => x (3 * i + k)),
    sum_range_eq_sum_Ico (fun i => x (3 * i + k)) 1 N, zero_add]
  intro i a
  interval_cases k <;> simp [Function.update_apply]

/-- Lines 93-96: each of the three components is multiplied by `m_inv[0]`. -/
theorem rhs_scale_apply (m_inv0 : α) (v : Nat → α) (k : Nat) (hk : k < 3) :
    rhs_scale m_inv0 v k = v k * m_inv0 := by
  interval_cases k <;> simp [rhs_scale, forLoop, Function.update_apply]

/-- Lines 99-104: the entries of `dQ_dot` after the loop. -/
theorem rhs_dQ_dot_apply (N : Nat) (m dP vCentral dQ_dot : Nat → α) (b k : Nat) (hk : k < 3) :
    rhs_dQ_dot N m dP vCentral dQ_dot (3 * b + k)
      = if 1 ≤ b ∧ b < N then dP (3 * b + k) / m b + vCentral k else dQ_dot (3 * b + k) := by
  unfold rhs_dQ_dot
  rw [forLoop_slot _ (fun i k _ => dP (3 * i + k) / m i + vCentral k) _ 1 (N - 1) dQ_dot b k hk]
  · have hiff : (1 ≤ b ∧ b < 1 + (N - 1)) ↔ (1 ≤ b ∧ b < N) := by omega
    simp only [hiff]
  · intro i a b' k' hk'
    simp only []
    rw [update3_apply _ _ _ _ _ _ _ hk']
    by_cases hb : b' = i
    · subst hb
      interval_cases k' <;> simp
    · simp [hb]

end RhsPhases

/-! ### The coordinate derivatives returned by `dhem_rhs` -/

section RhsCoordinates

variable {α : Type} [LinearOrderedField α]

/-- The entries of `dhem->P` that `dhem_rhs` reads for the bodies `1 ≤ j < N`. -/
theorem dhem_rhs_QP_body (N : Nat) (dhem : DHEM α) (dQ dP : Nat → α) (j k : Nat)
    (hj : 1 ≤ j) (hjN : j < N) (hk : k < 3) :
    (dhem_rhs_QP N dhem dQ dP).1 (3 * j + k) = dhem.Qosc (3 * j + k) + dQ (3 * j + k)
      ∧ (dhem_rhs_QP N dhem dQ dP).2 (3 * j + k) = dhem.Posc N (3 * j + k) + dP (3 * j + k) := by
  have h := rhs_absolute_apply N dhem.Qosc (dhem.Posc N) dQ dP (dhem.Q, dhem.P) (3 * j + k)
  have hc : 3 ≤ 3 * j + k ∧ 3 * j + k < 3 * N := by omega
  simp only [if_pos hc] at h
  exact h

/-- The entries of `dQ_dot` returned by `dhem_rhs`. -/
theorem dhem_rhs_dQ_dot (sqrt : α → α) (N : Nat) (G : α) (stateVectorSize : Nat)
    (dhem : DHEM α) (dQ dP : Nat → α) (out : RhsArrays α) (b k : Nat) (hk : k < 3) :
    (dhem_rhs sqrt N G stateVectorSize dhem dQ dP out).2.dQ_dot (3 * b + k)
      = if 1 ≤ b ∧ b < N then
          dP (3 * b + k) / dhem.m b
            + (∑ j in Finset.Ico 1 N, (dhem.Posc N (3 * j + k) + dP (3 * j + k))) * dhem.m_inv 0
        else out.dQ_dot (3 * b + k) := by
  simp only [dhem_rhs]
  rw [rhs_dQ_dot_apply _ _ _ _ _ _ _ hk, rhs_scale_apply _ _ _ hk, rhs_sumBodies_apply _ _ _ hk]
  have hsum : ∑ j in Finset.Ico 1 N, (dhem_rhs_QP N dhem dQ dP).2 (3 * j + k)
      = ∑ j in Finset.Ico 1 N, (dhem.Posc N (3 * j + k) + dP (3 * j + k)) := by
    apply Finset.sum_congr rfl
    intro j hj
    rw [Finset.mem_Ico] at hj
    exact (dhem_rhs_QP_body N dhem dQ dP j k hj.1 hj.2 hk).2
  rw [hsum]

/-- Lines 185-194: the entries of `dQ_ddot` after the last loop. -/
theorem rhs_dQ_ddot_apply (N : Nat) (m_inv dP_dot vCentralDot dQ_ddot : Nat → α) (b k : Nat)
    (hk : k < 3) :
    rhs_dQ_ddot N m_inv dP_dot vCentralDot dQ_ddot (3 * b + k)
      = if 1 ≤ b ∧ b < N then
          dQ_ddot (3 * b + k) + vCentralDot k + dP_dot (3 * b + k) * m_inv b
        else dQ_ddot (3 * b + k) := by
  unfold rhs_dQ_ddot
  rw [forLoop_slot _ (fun i k old => old + vCentralDot k + dP_dot (3 * i + k) * m_inv i)
    _ 1 (N - 1) dQ_ddot b k hk]
  · have hiff : (1 ≤ b ∧ b < 1 + (N - 1)) ↔ (1 ≤ b ∧ b < N) := by omega
    simp only [hiff]
  · intro i a b' k' hk'
    by_cases hb : b' = i
    · subst hb
      interval_cases k' <;> simp [Function.update_apply]
    · have h0 : 3 * b' + k' ≠ 3 * i := by omega
      have h1 : 3 * b' + k' ≠ 3 * i + 1 := by omega
      have h2 : 3 * b' + k' ≠ 3 * i + 2 := by omega
      simp [Function.update_apply, hb, h0, h1, h2]

/-- The entries of `dQ_ddot` returned by `dhem_rhs` for the bodies covered by the `memset`. -/
theorem dhem_rhs_dQ_ddot (sqrt : α → α) (N : Nat) (G : α) (stateVectorSize : Nat)
    (dhem : DHEM α) (dQ dP : Nat → α) (out : RhsArrays α) (i k : Nat)
    (hi : 1 ≤ i) (hiN : i < N) (hk : k < 3) (hsize : 48 * N ≤ stateVectorSize) :
    (dhem_rhs sqrt N G stateVectorSize dhem dQ dP out).2.dQ_ddot (3 * i + k)
      = (dhem_rhs sqrt N G stateVectorSize dhem dQ dP out).2.dP_dot (3 * i + k) * dhem.m_inv i
        + (∑ j in Finset.Ico 1 N, (dhem.Posc_dot N (3 * j + k)
            + (dhem_rhs sqrt N G stateVectorSize dhem dQ dP out).2.dP_dot (3 * j + k)))
          * dhem.m_inv 0 := by
  simp only [dhem_rhs]
  rw [rhs_dQ_ddot_apply _ _ _ _ _ _ _ hk, rhs_scale_apply _ _ _ hk, rhs_sumBodies_apply _ _ _ hk]
  have hc : 1 ≤ i ∧ i < N := ⟨hi, hiN⟩
  have hz : 8 * (3 * i + k + 1) ≤ stateVectorSize / 2 := by omega
  simp only [if_pos hc, memsetZero, if_pos hz]
  ring

/-- C6 (as stated, refuted): two bodies of unit mass, `dP[3] = 1`, all else zero.  The code
returns `dQ_dot[3] = dP[3]/m[1] + (+1) * m_inv[0] = 2`, which is not `dP[3]/m[1] + c` for the
correction of the claim, `c = -(sum of the momenta) * m_inv[0] = -1`. -/
theorem C6_correction_is_not_negated :
    (dhem_rhs (fun x => x) 2 1 96 (constDhem ℚ 0) (fun _ => 0) (single ℚ 3 1)
        (zeroRhsArrays ℚ)).2.dQ_dot (3 * 1 + 0) = 2
      ∧ (dhem_rhs (fun x => x) 2 1 96 (constDhem ℚ 0) (fun _ => 0) (single ℚ 3 1)
          (zeroRhsArrays ℚ)).2.dQ_dot (3 * 1 + 0)
        ≠ single ℚ 3 1 (3 * 1 + 0) / (constDhem ℚ 0).m 1
          + -(∑ j in Finset.Ico 1 2,
                ((constDhem ℚ 0).Posc 2 (3 * j + 0) + single ℚ 3 1 (3 * j + 0)))
            * (constDhem ℚ 0).m_inv 0 := by
  have h : (dhem_rhs (fun x => x) 2 1 96 (constDhem ℚ 0) (fun _ => 0) (single ℚ 3 1)
      (zeroRhsArrays ℚ)).2.dQ_dot (3 * 1 + 0) = 2 := by
    rw [dhem_rhs_dQ_dot _ _ _ _ _ _ _ _ _ _ (by decide)]
    norm_num [single, constDhem, DHEM.Posc]
  refine ⟨h, ?_⟩
  rw [h]
  norm_num [single, constDhem, DHEM.Posc]

/-- C6 (amended): for every non-central body `i`, `dhem_rhs` returns
`dQ_dot[i] = dP[i]/m_i + c` with `c = +(sum over j ≥ 1 of Posc_j + dP_j) * m_inv[0]`: the sum
of the absolute momenta of the non-central bodies scaled by the central body's inverse
mass, not its negative; `c` does not depend on `i`. -/
theorem C6_first_coordinate_derivative (sqrt : α → α) (N : Nat) (G : α)
    (stateVectorSize : Nat) (dhem : DHEM α) (dQ dP : Nat → α) (out : RhsArrays α) (i k : Nat)
    (hi : 1 ≤ i) (hiN : i < N) (hk : k < 3) :
    (dhem_rhs sqrt N G stateVectorSize dhem dQ dP out).2.dQ_dot (3 * i + k)
      = dP (3 * i + k) / dhem.m i
        + (∑ j in Finset.Ico 1 N, (dhem.Posc N (3 * j + k) + dP (3 * j + k)))
          * dhem.m_inv 0 := by
  rw [dhem_rhs_dQ_dot _ _ _ _ _ _ _ _ _ _ hk, if_pos ⟨hi, hiN⟩]

/-- C6 (amended), at a concrete input: body `1` of `2`, component `0`. -/
theorem C6_first_coordinate_derivative_witness :
    (dhem_rhs (fun x => x) 2 1 96 (constDhem ℚ 0) (fun _ => 0) (single ℚ 3 1)
        (zeroRhsArrays ℚ)).2.dQ_dot (3 * 1 + 0)
      = single ℚ 3 1 (3 * 1 + 0) / (constDhem ℚ 0).m 1
        + (∑ j in Finset.Ico 1 2,
              ((constDhem ℚ 0).Posc 2 (3 * j + 0) + single ℚ 3 1 (3 * j + 0)))
          * (constDhem ℚ 0).m_inv 0 :=
  C6_first_coordinate_derivative _ 2 _ _ _ _ _ _ 1 0 (by decide) (by decide) (by decide)

end RhsCoordinates

/-! ### The central-body term -/

section CentralTerm

variable {α : Type} [LinearOrderedField α]

/-- The loop body stores `centralTerm` into the three entries of its body. -/
theorem rhs_centralBody_apply (sqrt : α → α) (G : α) (m Qosc dQ Q : Nat → α) (i : Nat)
    (a : Nat → α) (b k : Nat) (hk : k < 3) :
    rhs_centralBody sqrt G m Qosc dQ Q i a (3 * b + k)
      = if b = i then centralTerm sqrt G m Qosc dQ Q i k else a (3 * b + k) := by
  simp only [rhs_centralBody]
  rw [update3_apply _ _ _ _ _ _ _ hk]
  by_cases hb : b = i
  · subst hb
    interval_cases k <;> simp [centralTerm, encke_f, encke_q]
  · simp [hb]

/-- Lines 107-136: the entries of `dP_dot` after the central-term loop. -/
theorem rhs_central_apply (sqrt : α → α) (N : Nat) (G : α) (m Qosc dQ Q : Nat → α)
    (a : Nat → α) (b k : Nat) (hk : k < 3) :
    rhs_central sqrt N G m Qosc dQ Q a (3 * b + k)
      = if 1 ≤ b ∧ b < N then centralTerm sqrt G m Qosc dQ Q b k else a (3 * b + k) := by
  unfold rhs_central
  rw [forLoop_slot _ (fun i k _ => centralTerm sqrt G m Qosc dQ Q i k) _ 1 (N - 1) a b k hk]
  · have hiff : (1 ≤ b ∧ b < 1 + (N - 1)) ↔ (1 ≤ b ∧ b < N) := by omega
    simp only [hiff]
  · intro i a' b' k' hk'
    exact rhs_centralBody_apply sqrt G m Qosc dQ Q i a' b' k' hk'

/-- A loop over pairs whose two components do not interact is a pair of loops. -/
theorem forLoop_prod {σ τ : Type} (f : Nat → σ → σ) (g : Nat → τ → τ) (lo count : Nat)
    (s : σ × τ) :
    forLoop (fun i (s : σ × τ) => (f i s.1, g i s.2)) lo count s
      = (forLoop f lo count s.1, forLoop g lo count s.2) := by
  induction count generalizing lo s with
  | zero => rfl
  | succ c ih =>
    show forLoop _ (lo + 1) c (f lo s.1, g lo s.2) = _
    rw [ih]
    rfl

/-- The entries of `Posc_dot` written by `dhem_CalculateOsculatingOrbitDerivatives_Momenta`. -/
theorem derivatives_Posc_dot (sqrt : α → α) (N : Nat) (G : α) (m Qosc Posc : Nat → α)
    (out : (Nat → α) × (Nat → α)) (b k : Nat) (hk : k < 3) :
    (dhem_CalculateOsculatingOrbitDerivatives_Momenta sqrt N G m Qosc Posc out).2 (3 * b + k)
      = if 1 ≤ b ∧ b < N then
          -G * m 0 * m b / (NORM sqrt Qosc b * NORM sqrt Qosc b * NORM sqrt Qosc b)
            * Qosc (3 * b + k)
        else out.2 (3 * b + k) := by
  unfold dhem_CalculateOsculatingOrbitDerivatives_Momenta
  simp only []
  rw [forLoop_prod
    (fun i (a : Nat → α) => Function.update (Function.update (Function.update a (3 * i + 0)
      (Posc (3 * i) / m i)) (3 * i + 1) (Posc (3 * i + 1) / m i)) (3 * i + 2)
      (Posc (3 * i + 2) / m i))
    (fun i (a : Nat → α) => Function.update (Function.update (Function.update a (3 * i + 0)
      (-G * m 0 * m i / (NORM sqrt Qosc i * NORM sqrt Qosc i * NORM sqrt Qosc i)
        * Qosc (3 * i))) (3 * i + 1)
      (-G * m 0 * m i / (NORM sqrt Qosc i * NORM sqrt Qosc i * NORM sqrt Qosc i)
        * Qosc (3 * i + 1))) (3 * i + 2)
      (-G * m 0 * m i / (NORM sqrt Qosc i * NORM sqrt Qosc i * NORM sqrt Qosc i)
        * Qosc (3 * i + 2)))]
  simp only []
  rw [forLoop_slot _ (fun i k _ =>
    -G * m 0 * m i / (NORM sqrt Qosc i * NORM sqrt Qosc i * NORM sqrt Qosc i)
      * Qosc (3 * i + k)) _ 1 (N - 1) out.2 b k hk]
  · have hiff : (1 ≤ b ∧ b < 1 + (N - 1)) ↔ (1 ≤ b ∧ b < N) := by omega
    simp only [hiff]
  · intro i a' b' k' hk'
    rw [Nat.add_zero, update3_apply _ _ _ _ _ _ _ hk']
    by_cases hb : b' = i
    · subst hb
      interval_cases k' <;> simp
    · simp [hb]

/-- The value stored by the central-term loop only depends on the entries of `Q` of its
own body. -/
theorem centralTerm_congr (sqrt : α → α) (G : α) (m Qosc dQ Q Q' : Nat → α) (i k : Nat)
    (hk : k < 3) (h : ∀ l, l < 3 → Q (3 * i + l) = Q' (3 * i + l)) :
    centralTerm sqrt G m Qosc dQ Q i k = centralTerm sqrt G m Qosc dQ Q' i k := by
  unfold centralTerm encke_q
  rw [h 0 (by decide), h 1 (by decide), h 2 (by decide), h k hk]

/-- The array `dP_dot` before the pairwise loop holds `centralTerm` of `Q = Qosc + dQ`. -/
theorem dhem_rhs_dP_dot_central_apply (sqrt : α → α) (N : Nat) (G : α) (dhem : DHEM α)
    (dQ dP : Nat → α) (dP_dot : Nat → α) (b k : Nat) (hk : k < 3) :
    dhem_rhs_dP_dot_central sqrt N G dhem dQ dP dP_dot (3 * b + k)
      = if 1 ≤ b ∧ b < N then centralTerm sqrt G dhem.m dhem.Qosc dQ (absQ dhem dQ) b k
        else dP_dot (3 * b + k) := by
  unfold dhem_rhs_dP_dot_central
  rw [rhs_central_apply _ _ _ _ _ _ _ _ _ _ hk]
  by_cases hb : 1 ≤ b ∧ b < N
  · rw [if_pos hb, if_pos hb]
    apply centralTerm_congr _ _ _ _ _ _ _ _ _ hk
    intro l hl
    exact (dhem_rhs_QP_body N dhem dQ dP b l hb.1 hb.2 hl).1
  · rw [if_neg hb, if_neg hb]

end CentralTerm

/-! ### The pairwise loop -/

section Pairwise

variable {α : Type} [LinearOrderedField α]

/-- The loop body for the pair `(i, j)` adds `pairTerm` to body `i` and subtracts it from
body `j`. -/
theorem rhs_pairBody_apply (sqrt : α → α) (G : α) (m Q : Nat → α) (i j : Nat) (a : Nat → α)
    (b k : Nat) (hk : k < 3) :
    rhs_pairBody sqrt G m Q i j a (3 * b + k)
      = a (3 * b + k) + ((if b = i then pairTerm sqrt G m Q i j k else 0)
          - (if b = j then pairTerm sqrt G m Q i j k else 0)) := by
  have e0 : ∀ p q : Nat, (3 * p = 3 * q) ↔ p = q := by intro p q; omega
  have e1 : ∀ p q : Nat, (3 * p + 1 = 3 * q + 1) ↔ p = q := by intro p q; omega
  have e2 : ∀ p q : Nat, (3 * p + 2 = 3 * q + 2) ↔ p = q := by intro p q; omega
  have n01 : ∀ p q : Nat, ¬ (3 * p = 3 * q + 1) := by intro p q; omega
  have n02 : ∀ p q : Nat, ¬ (3 * p = 3 * q + 2) := by intro p q; omega
  have n10 : ∀ p q : Nat, ¬ (3 * p + 1 = 3 * q) := by intro p q; omega
  have n12 : ∀ p q : Nat, ¬ (3 * p + 1 = 3 * q + 2) := by intro p q; omega
  have n20 : ∀ p q : Nat, ¬ (3 * p + 2 = 3 * q) := by intro p q; omega
  have n21 : ∀ p q : Nat, ¬ (3 * p + 2 = 3 * q + 1) := by intro p q; omega
  by_cases hi : b = i
  · subst hi
    by_cases hj : b = j
    · subst hj
      interval_cases k <;>
        simp [rhs_pairBody, pairTerm, Function.update_apply, e0, e1, e2, n01, n02, n10, n12,
          n20, n21]
    · have hj' : ¬ j = b := Ne.symm hj
      interval_cases k <;>
        simp [rhs_pairBody, pairTerm, Function.update_apply, e0, e1, e2, n01, n02, n10, n12,
          n20, n21, hj, hj']
  · have hi' : ¬ i = b := Ne.symm hi
    by_cases hj : b = j
    · subst hj
      interval_cases k <;>
        simp [rhs_pairBody, pairTerm, Function.update_apply, e0, e1, e2, n01, n02, n10, n12,
          n20, n21, hi, hi'] <;> ring
    · interval_cases k <;>
        simp [rhs_pairBody, pairTerm, Function.update_apply, e0, e1, e2, n01, n02, n10, n12,
          n20, n21, hi, hj]

/-- Lines 138-164: the pairwise loop adds, to every entry, the contributions of all pairs
`1 ≤ j < i < N`. -/
theorem rhs_pairwise_apply (sqrt : α → α) (N : Nat) (G : α) (m Q : Nat → α) (a : Nat → α)
    (b k : Nat) (hk : k < 3) :
    rhs_pairwise sqrt N G m Q a (3 * b + k)
      = a (3 * b + k) + ∑ i in Finset.Ico 1 N, ∑ j in Finset.Ico 1 i,
          ((if b = i then pairTerm sqrt G m Q i j k else 0)
            - (if b = j then pairTerm sqrt G m Q i j k else 0)) := by
  unfold rhs_pairwise
  rw [forLoop_add_sum _ (3 * b + k) (fun i => ∑ j in Finset.Ico 1 i,
      ((if b = i then pairTerm sqrt G m Q i j k else 0)
        - (if b = j then pairTerm sqrt G m Q i j k else 0))),
    sum_range_eq_sum_Ico (fun i => ∑ j in Finset.Ico 1 i,
      ((if b = i then pairTerm sqrt G m Q i j k else 0)
        - (if b = j then pairTerm sqrt G m Q i j k else 0))) 1 N]
  intro i a'
  rw [forLoop_add_sum _ (3 * b + k) (fun j =>
      ((if b = i then pairTerm sqrt G m Q i j k else 0)
        - (if b = j then pairTerm sqrt G m Q i j k else 0))),
    sum_range_eq_sum_Ico (fun j =>
      ((if b = i then pairTerm sqrt G m Q i j k else 0)
        - (if b = j then pairTerm sqrt G m Q i j k else 0))) 1 i]
  intro j a2
  exact rhs_pairBody_apply sqrt G m Q i j a2 b k hk

/-- The vector of the pair `(i, j)` is the Newtonian force of `j` on `i`. -/
theorem pairTerm_eq_pairForce (sqrt : α → α) (G : α) (m Q : Nat → α) (i j k : Nat) :
    pairTerm sqrt G m Q i j k = pairForce sqrt G m Q i j k := by
  unfold pairTerm pairForce sepNorm
  simp only [pow_two]
  ring

/-- The force between two bodies only depends on the entries of `Q` of these bodies. -/
theorem pairForce_congr (sqrt : α → α) (G : α) (m Q Q' : Nat → α) (i j k : Nat) (hk : k < 3)
    (hi : ∀ l, l < 3 → Q (3 * i + l) = Q' (3 * i + l))
    (hj : ∀ l, l < 3 → Q (3 * j + l) = Q' (3 * j + l)) :
    pairForce sqrt G m Q i j k = pairForce sqrt G m Q' i j k := by
  unfold pairForce sepNorm
  rw [hi 0 (by decide), hi 1 (by decide), hi 2 (by decide), hi k hk,
    hj 0 (by decide), hj 1 (by decide), hj 2 (by decide), hj k hk]

/-- The contributions of all pairs, summed over the non-central bodies, cancel. -/
theorem pair_sum_total (sqrt : α → α) (N : Nat) (G : α) (m Q : Nat → α) (k : Nat) :
    ∑ b in Finset.Ico 1 N, ∑ i in Finset.Ico 1 N, ∑ j in Finset.Ico 1 i,
        ((if b = i then pairTerm sqrt G m Q i j k else 0)
          - (if b = j then pairTerm sqrt G m Q i j k else 0)) = 0 := by
  rw [Finset.sum_comm]
  apply Finset.sum_eq_zero
  intro i hi
  rw [Finset.sum_comm]
  apply Finset.sum_eq_zero
  intro j hj
  rw [Finset.mem_Ico] at hi hj
  rw [Finset.sum_sub_distrib, Finset.sum_ite_eq', Finset.sum_ite_eq',
    if_pos (Finset.mem_Ico.2 ⟨hi.1, hi.2⟩), if_pos (Finset.mem_Ico.2 ⟨hj.1, by omega⟩), sub_self]

/-- The entries of `dP_dot` returned by `dhem_rhs`: the value before the pairwise loop plus
the contributions of all pairs. -/
theorem dhem_rhs_dP_dot (sqrt : α → α) (N : Nat) (G : α) (stateVectorSize : Nat)
    (dhem : DHEM α) (dQ dP : Nat → α) (out : RhsArrays α) (b k : Nat) (hk : k < 3) :
    (dhem_rhs sqrt N G stateVectorSize dhem dQ dP out).2.dP_dot (3 * b + k)
      = dhem_rhs_dP_dot_central sqrt N G dhem dQ dP out.dP_dot (3 * b + k)
        + ∑ i in Finset.Ico 1 N, ∑ j in Finset.Ico 1 i,
          ((if b = i then pairTerm sqrt G dhem.m (dhem_rhs_QP N dhem dQ dP).1 i j k else 0)
            - (if b = j then pairTerm sqrt G dhem.m (dhem_rhs_QP N dhem dQ dP).1 i j k
                else 0)) := by
  simp only [dhem_rhs]
  rw [rhs_pairwise_apply _ _ _ _ _ _ _ _ hk]

/-- C4: in the pairwise loop of `dhem_rhs`, for a pair of distinct bodies `(i, j)` the loop
body adds the pairwise perturbation `G*m_i*m_j*(Q_j - Q_i)/|Q_j - Q_i|^3` to `dP_dot` of body
`i` and its exact negation to `dP_dot` of body `j`; the `dP_dot` returned by `dhem_rhs` for a
non-central body `b` is its central-body contribution (`centralTerm`, the value stored before
the pairwise loop) plus, for every pair `1 ≤ j < i < N`, this perturbation if `b = i` and its
negation if `b = j`; and so the sum over all non-central bodies of the returned `dP_dot`
equals the sum over those bodies of the central-body contributions alone. -/
theorem C4_momentum_antisymmetry (sqrt : α → α) (N : Nat) (G : α) (stateVectorSize : Nat)
    (dhem : DHEM α) (dQ dP : Nat → α) (out : RhsArrays α) (k : Nat) (hk : k < 3) :
    (∀ (i j : Nat) (m Q a : Nat → α), i ≠ j →
        rhs_pairBody sqrt G m Q i j a (3 * i + k) - a (3 * i + k) = pairForce sqrt G m Q i j k
          ∧ rhs_pairBody sqrt G m Q i j a (3 * j + k) - a (3 * j + k)
            = -pairForce sqrt G m Q i j k
          ∧ rhs_pairBody sqrt G m Q i j a (3 * i + k) - a (3 * i + k)
            = -(rhs_pairBody sqrt G m Q i j a (3 * j + k) - a (3 * j + k)))
      ∧ (∀ b, 1 ≤ b → b < N →
        (dhem_rhs sqrt N G stateVectorSize dhem dQ dP out).2.dP_dot (3 * b + k)
          = centralTerm sqrt G dhem.m dhem.Qosc dQ (absQ dhem dQ) b k
            + ∑ i in Finset.Ico 1 N, ∑ j in Finset.Ico 1 i,
              ((if b = i then pairForce sqrt G dhem.m (absQ dhem dQ) i j k else 0)
                - (if b = j then pairForce sqrt G dhem.m (absQ dhem dQ) i j k else 0)))
      ∧ ∑ b in Finset.Ico 1 N,
          (dhem_rhs sqrt N G stateVectorSize dhem dQ dP out).2.dP_dot (3 * b + k)
        = ∑ b in Finset.Ico 1 N, centralTerm sqrt G dhem.m dhem.Qosc dQ (absQ dhem dQ) b k := by
  refine ⟨?_, ?_, ?_⟩
  · intro i j m Q a hij
    rw [rhs_pairBody_apply _ _ _ _ _ _ _ _ _ hk, rhs_pairBody_apply _ _ _ _ _ _ _ _ _ hk,
      pairTerm_eq_pairForce]
    simp [hij, Ne.symm hij]
  · intro b hb hbN
    rw [dhem_rhs_dP_dot _ _ _ _ _ _ _ _ _ _ hk,
      dhem_rhs_dP_dot_central_apply _ _ _ _ _ _ _ _ _ hk, if_pos ⟨hb, hbN⟩]
    congr 1
    apply Finset.sum_congr rfl
    intro i hi
    apply Finset.sum_congr rfl
    intro j hj
    rw [Finset.mem_Ico] at hi hj
    have hF : pairTerm sqrt G dhem.m (dhem_rhs_QP N dhem dQ dP).1 i j k
        = pairForce sqrt G dhem.m (absQ dhem dQ) i j k := by
      rw [pairTerm_eq_pairForce]
      apply pairForce_congr _ _ _ _ _ _ _ _ hk
      · intro l hl
        exact (dhem_rhs_QP_body N dhem dQ dP i l hi.1 hi.2 hl).1
      · intro l hl
        exact (dhem_rhs_QP_body N dhem dQ dP j l hj.1 (by omega) hl).1
    rw [hF]
  · rw [Finset.sum_congr rfl (fun b _ =>
      dhem_rhs_dP_dot sqrt N G stateVectorSize dhem dQ dP out b k hk),
      Finset.sum_add_distrib, pair_sum_total, add_zero]
    apply Finset.sum_congr rfl
    intro b hb
    rw [dhem_rhs_dP_dot_central_apply _ _ _ _ _ _ _ _ _ hk, if_pos (Finset.mem_Ico.1 hb)]

/-- C4, at a concrete input: three bodies with unit masses at the distinct positions of
`rampDhem` (body `1` at `(3, 4, 5)`, body `2` at `(6, 7, 8)`), `G = 1`, the identity for
`sqrt`, component `0`.  The pair `(2, 1)` is the one pair of the loop: its body adds
`(3 - 6) / 27^3 = -1/6561` to body `2` and `1/6561` to body `1`, the returned `dP_dot` of
body `2` is its central term plus `-1/6561`, and the two returned entries sum to the two
central terms. -/
theorem C4_momentum_antisymmetry_witness :
    (rhs_pairBody (fun x => x) 1 (rampDhem ℚ).m (absQ (rampDhem ℚ) (fun _ => 0)) 2 1
          (fun _ => 0) (3 * 2 + 0) - 0 = -1 / 6561
        ∧ rhs_pairBody (fun x => x) 1 (rampDhem ℚ).m (absQ (rampDhem ℚ) (fun _ => 0)) 2 1
          (fun _ => 0) (3 * 1 + 0) - 0 = 1 / 6561)
      ∧ (dhem_rhs (fun x => x) 3 1 144 (rampDhem ℚ) (fun _ => 0) (fun _ => 0)
          (zeroRhsArrays ℚ)).2.dP_dot (3 * 2 + 0)
        = centralTerm (fun x => x) 1 (rampDhem ℚ).m (rampDhem ℚ).Qosc (fun _ => 0)
            (absQ (rampDhem ℚ) (fun _ => 0)) 2 0 + -1 / 6561
      ∧ ∑ b in Finset.Ico 1 3,
          (dhem_rhs (fun x => x) 3 1 144 (rampDhem ℚ) (fun _ => 0) (fun _ => 0)
            (zeroRhsArrays ℚ)).2.dP_dot (3 * b + 0)
        = ∑ b in Finset.Ico 1 3,
            centralTerm (fun x => x) 1 (rampDhem ℚ).m (rampDhem ℚ).Qosc (fun _ => 0)
              (absQ (rampDhem ℚ) (fun _ => 0)) b 0 := by
  have h := C4_momentum_antisymmetry (fun x => x) 3 1 144 (rampDhem ℚ) (fun _ => 0)
    (fun _ => 0) (zeroRhsArrays ℚ) 0 (by decide)
  have hF : pairForce (fun x => x) 1 (rampDhem ℚ).m (absQ (rampDhem ℚ) (fun _ => 0)) 2 1 0
      = -1 / 6561 := by
    norm_num [pairForce, sepNorm, absQ, rampDhem, DHEM.Qosc]
  have hpair := h.1 2 1 (rampDhem ℚ).m (absQ (rampDhem ℚ) (fun _ => 0)) (fun _ => 0)
    (by decide)
  refine ⟨⟨?_, ?_⟩, ?_, h.2.2⟩
  · rw [hpair.1, hF]
  · rw [hpair.2.1, hF]
    norm_num
  · rw [h.2.1 2 (by decide) (by decide)]
    congr 1
    simp [Finset.sum_Ico_succ_top, hF]

end Pairwise

/-! ### Rectification: the decision and the count -/

section RectifyDecision

variable {α : Type} [LinearOrderedField α] {κ : Type}

/-- With a non-zero divisor the test `a / b > c` on doubles is the test on the quotient. -/
theorem gtDouble_divDouble_of_ne (a b c : α) (hb : b ≠ 0) :
    gtDouble (divDouble a b) c = true ↔ a / b > c := by
  unfold divDouble
  rw [if_neg hb]
  simp only [gtDouble, decide_eq_true_eq]

/-- With a zero divisor the test `a / 0 > c` on doubles holds exactly for a positive
dividend: the quotient is `+inf`; a zero dividend gives a NaN and a negative one `-inf`. -/
theorem gtDouble_divDouble_zero (a c : α) :
    gtDouble (divDouble a 0) c = true ↔ 0 < a := by
  unfold divDouble
  rw [if_pos rfl]
  by_cases ha : a = 0
  · subst ha
    simp [gtDouble]
  · rw [if_neg ha]
    rcases lt_or_gt_of_ne ha with h | h
    · simp [gtDouble, h, not_lt.mpr (le_of_lt h)]
    · simp [gtDouble, h, not_lt.mpr (le_of_lt h)]

/-- A zero dividend never exceeds a non-negative bound, whatever the divisor. -/
theorem gtDouble_zero_divDouble (b c : α) (hc : 0 ≤ c) :
    gtDouble (divDouble 0 b) c = false := by
  unfold divDouble
  by_cases hb : b = 0
  · rw [if_pos hb, if_pos rfl]
    rfl
  · rw [if_neg hb, zero_div]
    simp [gtDouble, hc]

/-- The trigger test of body `i` spelled out: the body is overdue, or its reference norm is
not zero and the ratio of the norms exceeds `dq_max`, or its reference norm is zero and its
deviation norm is positive. -/
theorem bodyTriggers_iff (sqrt : α → α) (dq_max t : α) (s : TesState α κ)
    (stageNumber i : Nat) :
    bodyTriggers sqrt dq_max t s stageNumber i
      ↔ t > s.dhem.rectifyTimeArray i
        ∨ (NORM sqrt (s.dhem.XoscArr stageNumber) i ≠ 0
          ∧ NORM sqrt s.dQ i / NORM sqrt (s.dhem.XoscArr stageNumber) i > dq_max)
        ∨ (NORM sqrt (s.dhem.XoscArr stageNumber) i = 0 ∧ 0 < NORM sqrt s.dQ i) := by
  unfold bodyTriggers
  by_cases hb : NORM sqrt (s.dhem.XoscArr stageNumber) i = 0
  · rw [hb, gtDouble_divDouble_zero]
    simp
  · rw [gtDouble_divDouble_of_ne _ _ _ hb]
    simp [hb]

/-- The scan sets `rectifyFlag` to `1` when one of the scanned bodies triggers, and to `0`
otherwise. -/
theorem rectifyScan_flag (sqrt : α → α) (N : Nat) (t dq_max : α)
    (Qosc Posc dQ dP rta : Nat → α) (i count : Nat) (ra : Nat → Nat) :
    ((∃ b, i ≤ b ∧ b < i + count
          ∧ (t > rta b
            ∨ gtDouble (divDouble (NORM sqrt dQ b) (NORM sqrt Qosc b)) dq_max = true)) →
        (rectifyScan sqrt N t dq_max Qosc Posc dQ dP rta i count ra).2 = 1)
      ∧ ((¬ ∃ b, i ≤ b ∧ b < i + count
            ∧ (t > rta b
              ∨ gtDouble (divDouble (NORM sqrt dQ b) (NORM sqrt Qosc b)) dq_max = true)) →
        (rectifyScan sqrt N t dq_max Qosc Posc dQ dP rta i count ra).2 = 0) := by
  induction count generalizing i ra with
  | zero =>
    constructor
    · rintro ⟨b, h1, h2, _⟩
      omega
    · intro _
      rfl
  | succ c ih =>
    simp only [rectifyScan]
    by_cases htrig : t > rta i
        ∨ gtDouble (divDouble (NORM sqrt dQ i) (NORM sqrt Qosc i)) dq_max = true
    · rw [if_pos htrig]
      constructor
      · intro _
        rfl
      · intro h
        exact absurd ⟨i, le_refl i, by omega, htrig⟩ h
    · rw [if_neg htrig]
      constructor
      · rintro ⟨b, h1, h2, h3⟩
        apply (ih (i + 1) _).1
        by_cases hb : b = i
        · subst hb
          exact absurd h3 htrig
        · exact ⟨b, by omega, by omega, h3⟩
      · intro h
        apply (ih (i + 1) _).2
        rintro ⟨b, h1, h2, h3⟩
        exact h ⟨b, by omega, by omega, h3⟩

/-- The flag of `dhem_RectifyOrbits` is `1` when some non-central body triggers and `0`
otherwise. -/
theorem rectifyFlag_eq (sqrt : α → α) (N : Nat) (dq_max t : α) (s : TesState α κ)
    (stageNumber : Nat) :
    (someBodyTriggers sqrt N dq_max t s stageNumber →
        rectifyFlag sqrt N dq_max t s stageNumber = 1)
      ∧ (¬ someBodyTriggers sqrt N dq_max t s stageNumber →
        rectifyFlag sqrt N dq_max t s stageNumber = 0) := by
  unfold rectifyFlag
  simp only []
  have hiff : (∃ b, 1 ≤ b ∧ b < 1 + (N - 1)
      ∧ (t > (rectifySelect s stageNumber).dhem.rectifyTimeArray b
        ∨ gtDouble (divDouble (NORM sqrt (rectifySelect s stageNumber).dQ b)
            (NORM sqrt (rectifySelect s stageNumber).dhem.Qosc b)) dq_max = true))
      ↔ someBodyTriggers sqrt N dq_max t s stageNumber := by
    constructor
    · rintro ⟨b, h1, h2, h3⟩
      exact ⟨b, h1, by omega, h3⟩
    · rintro ⟨b, h1, h2, h3⟩
      exact ⟨b, h1, by omega, h3⟩
  constructor
  · intro h
    exact (rectifyScan_flag sqrt N t dq_max _ _ _ _ _ 1 (N - 1) _).1 (hiff.2 h)
  · intro h
    exact (rectifyScan_flag sqrt N t dq_max _ _ _ _ _ 1 (N - 1) _).2 (fun h' => h (hiff.1 h'))

/-- The call of `dhem_RectifyOrbits` in terms of its flag. -/
theorem dhem_RectifyOrbits_eq (sqrt : α → α)
    (Rebasis : κ → (Nat → α) → (Nat → α) → α → Nat → κ) (N : Nat) (dq_max t : α)
    (s : TesState α κ) (stageNumber : Nat) :
    dhem_RectifyOrbits sqrt Rebasis N dq_max t s stageNumber
      = forLoop (fun i (cs : Nat × TesState α κ) =>
          if rectifyFlag sqrt N dq_max t s stageNumber ≠ 0
          then (cs.1 + 1, rectifyBody Rebasis N t i cs.2) else cs)
        1 (N - 1)
        (0, { rectifySelect s stageNumber with rectifiedArray :=
          (rectifyScan sqrt N t dq_max (rectifySelect s stageNumber).dhem.Qosc
            ((rectifySelect s stageNumber).dhem.Posc N) (rectifySelect s stageNumber).dQ
            (rectifySelect s stageNumber).dP (rectifySelect s stageNumber).dhem.rectifyTimeArray
            1 (N - 1) (rectifySelect s stageNumber).rectifiedArray).1 }) := rfl

/-- The count returned by `dhem_RectifyOrbits`: `N - 1` when the flag is set, else `0`. -/
theorem dhem_RectifyOrbits_count (sqrt : α → α)
    (Rebasis : κ → (Nat → α) → (Nat → α) → α → Nat → κ) (N : Nat) (dq_max t : α)
    (s : TesState α κ) (stageNumber : Nat) :
    (dhem_RectifyOrbits sqrt Rebasis N dq_max t s stageNumber).1
      = if rectifyFlag sqrt N dq_max t s stageNumber ≠ 0 then N - 1 else 0 := by
  rw [dhem_RectifyOrbits_eq]
  exact forLoop_invariant _
    (fun c (cs : Nat × TesState α κ) =>
      cs.1 = if rectifyFlag sqrt N dq_max t s stageNumber ≠ 0 then c else 0)
    1 (N - 1) _ (by simp)
    (by
      intro c cs _ hinv
      by_cases hf : rectifyFlag sqrt N dq_max t s stageNumber ≠ 0
      · simp only [if_pos hf] at hinv ⊢
        rw [hinv]
      · simp only [if_neg hf] at hinv ⊢
        exact hinv)

/-- The count returned by `dhem_RectifyOrbits` in terms of the trigger test. -/
theorem dhem_RectifyOrbits_count_triggers (sqrt : α → α)
    (Rebasis : κ → (Nat → α) → (Nat → α) → α → Nat → κ) (N : Nat) (dq_max t : α)
    (s : TesState α κ) (stageNumber : Nat) :
    (someBodyTriggers sqrt N dq_max t s stageNumber →
        (dhem_RectifyOrbits sqrt Rebasis N dq_max t s stageNumber).1 = N - 1)
      ∧ (¬ someBodyTriggers sqrt N dq_max t s stageNumber →
        (dhem_RectifyOrbits sqrt Rebasis N dq_max t s stageNumber).1 = 0) := by
  rw [dhem_RectifyOrbits_count]
  constructor
  · intro h
    rw [(rectifyFlag_eq sqrt N dq_max t s stageNumber).1 h]
    simp
  · intro h
    rw [(rectifyFlag_eq sqrt N dq_max t s stageNumber).2 h]
    simp

/-- C8 (as stated, refuted): with `N = 1` there is no non-central body, so no body
triggers, and yet the returned count `0` is `N - 1`: "returns `N - 1` if and only if some
non-central body triggers" fails. -/
theorem C8_single_body_count_without_trigger :
    (dhem_RectifyOrbits (fun x => x) (fun u _ _ _ _ => u) 1 0 0
        (residualState ℚ (fun _ => 0)) 8).1 = 1 - 1
      ∧ ¬ someBodyTriggers (fun x => x) 1 0 0 (residualState ℚ (fun _ => 0)) 8 := by
  constructor
  · rfl
  · rintro ⟨i, h1, h2, _⟩
    omega

/-- C8 (amended): `dhem_RectifyOrbits` returns `N - 1` if some non-central body `i` has
`t > rectifyTimeArray[i]` or `|dQ_i| / |Qosc_i| > dq_max` (with `Qosc` of the given stage;
the ratio is a quotient of doubles, so that a zero `|Qosc_i|` triggers with a non-zero
`|dQ_i|` and does not with a zero one), and returns `0` otherwise, so no other value is
returned; for `N ≥ 2` it returns `N - 1` if and only if some non-central body triggers. -/
theorem C8_rectification_decision_and_count (sqrt : α → α)
    (Rebasis : κ → (Nat → α) → (Nat → α) → α → Nat → κ) (N : Nat) (dq_max t : α)
    (s : TesState α κ) (stageNumber : Nat) :
    (someBodyTriggers sqrt N dq_max t s stageNumber →
        (dhem_RectifyOrbits sqrt Rebasis N dq_max t s stageNumber).1 = N - 1)
      ∧ (¬ someBodyTriggers sqrt N dq_max t s stageNumber →
        (dhem_RectifyOrbits sqrt Rebasis N dq_max t s stageNumber).1 = 0)
      ∧ (2 ≤ N →
        ((dhem_RectifyOrbits sqrt Rebasis N dq_max t s stageNumber).1 = N - 1
          ↔ someBodyTriggers sqrt N dq_max t s stageNumber)) := by
  have h := dhem_RectifyOrbits_count_triggers sqrt Rebasis N dq_max t s stageNumber
  refine ⟨h.1, h.2, ?_⟩
  intro hN
  constructor
  · intro hret
    by_contra hno
    have h0 := h.2 hno
    omega
  · exact h.1

end RectifyDecision

/-! ### Rectification: the folded state -/

section RectifyFold

variable {α : Type} [LinearOrderedField α] {κ : Type}

/-- In exact arithmetic `add_cs` adds the increment less the old carry and leaves a zero
carry. -/
theorem add_cs_exact (out cs inp : α) : add_cs out cs inp = (out + inp - cs, 0) := by
  unfold add_cs
  simp only [Prod.mk.injEq]
  constructor <;> ring

/-- In exact arithmetic the compensated sum is the plain sum, with a zero carry. -/
theorem foldCs_exact (x d u c : α) : foldCs x d u c = (x + d + u + c, 0) := by
  unfold foldCs
  simp only [add_cs_exact, sub_zero]

/-- Lines 316-328: what the position fold of body `i` leaves in the entries of body `b`. -/
theorem rectifyFoldQ_apply (i : Nat) (s : TesState α κ) (b k : Nat) (hk : k < 3) :
    (rectifyFoldQ i s).Q (3 * b + k)
        = (if b = i then (foldCs (s.dhem.Qosc (3 * b + k)) (s.dQ (3 * b + k))
            (s.uv_csq (3 * b + k)) (s.cs_dq (3 * b + k))).1 else s.Q (3 * b + k))
      ∧ (rectifyFoldQ i s).dQ (3 * b + k)
        = (if b = i then -(foldCs (s.dhem.Qosc (3 * b + k)) (s.dQ (3 * b + k))
            (s.uv_csq (3 * b + k)) (s.cs_dq (3 * b + k))).2 else s.dQ (3 * b + k))
      ∧ (rectifyFoldQ i s).cs_dq (3 * b + k) = (if b = i then 0 else s.cs_dq (3 * b + k))
      ∧ (rectifyFoldQ i s).uv_csq (3 * b + k) = (if b = i then 0 else s.uv_csq (3 * b + k)) := by
  by_cases hb : b = i
  · subst hb
    interval_cases k <;>
      simp [rectifyFoldQ, forLoop, foldCs, Function.update_apply]
  · have h0 : 3 * b + k ≠ 3 * i := by omega
    have h1 : 3 * b + k ≠ 3 * i + 1 := by omega
    have h2 : 3 * b + k ≠ 3 * i + 2 := by omega
    simp [rectifyFoldQ, forLoop, Function.update_apply, hb, h0, h1, h2]

/-- The position fold writes nothing but `Q`, `dQ`, `cs_dq` and `uv_csq`. -/
theorem rectifyFoldQ_frame (i : Nat) (s : TesState α κ) :
    (rectifyFoldQ i s).dhem = s.dhem ∧ (rectifyFoldQ i s).P = s.P
      ∧ (rectifyFoldQ i s).dP = s.dP ∧ (rectifyFoldQ i s).cs_dp = s.cs_dp
      ∧ (rectifyFoldQ i s).uv_csp = s.uv_csp
      ∧ (rectifyFoldQ i s).rectifiedArray = s.rectifiedArray
      ∧ (rectifyFoldQ i s).uVars = s.uVars :=
  ⟨rfl, rfl, rfl, rfl, rfl, rfl, rfl⟩

/-- Lines 330-342: what the momentum fold of body `i` leaves in the entries of body `b`. -/
theorem rectifyFoldP_apply (N i : Nat) (s : TesState α κ) (b k : Nat) (hk : k < 3) :
    (rectifyFoldP N i s).P (3 * b + k)
        = (if b = i then (foldCs (s.dhem.Posc N (3 * b + k)) (s.dP (3 * b + k))
            (s.uv_csp (3 * b + k)) (s.cs_dp (3 * b + k))).1 else s.P (3 * b + k))
      ∧ (rectifyFoldP N i s).dP (3 * b + k)
        = (if b = i then -(foldCs (s.dhem.Posc N (3 * b + k)) (s.dP (3 * b + k))
            (s.uv_csp (3 * b + k)) (s.cs_dp (3 * b + k))).2 else s.dP (3 * b + k))
      ∧ (rectifyFoldP N i s).cs_dp (3 * b + k) = (if b = i then 0 else s.cs_dp (3 * b + k))
      ∧ (rectifyFoldP N i s).uv_csp (3 * b + k) = (if b = i then 0 else s.uv_csp (3 * b + k)) := by
  by_cases hb : b = i
  · subst hb
    interval_cases k <;>
      simp [rectifyFoldP, forLoop, foldCs, Function.update_apply]
  · have h0 : 3 * b + k ≠ 3 * i := by omega
    have h1 : 3 * b + k ≠ 3 * i + 1 := by omega
    have h2 : 3 * b + k ≠ 3 * i + 2 := by omega
    simp [rectifyFoldP, forLoop, Function.update_apply, hb, h0, h1, h2]

/-- The momentum fold writes nothing but `P`, `dP`, `cs_dp` and `uv_csp`. -/
theorem rectifyFoldP_frame (N i : Nat) (s : TesState α κ) :
    (rectifyFoldP N i s).dhem = s.dhem ∧ (rectifyFoldP N i s).Q = s.Q
      ∧ (rectifyFoldP N i s).dQ = s.dQ ∧ (rectifyFoldP N i s).cs_dq = s.cs_dq
      ∧ (rectifyFoldP N i s).uv_csq = s.uv_csq
      ∧ (rectifyFoldP N i s).rectifiedArray = s.rectifiedArray
      ∧ (rectifyFoldP N i s).uVars = s.uVars :=
  ⟨rfl, rfl, rfl, rfl, rfl, rfl, rfl⟩

/-- Lines 314-354: what the rectification of body `i` leaves in the entries of body `b`,
and in the reference snapshots. -/
theorem rectifyBody_apply (Rebasis : κ → (Nat → α) → (Nat → α) → α → Nat → κ) (N : Nat)
    (t : α) (i : Nat) (s : TesState α κ) (b k : Nat) (hk : k < 3) :
    (rectifyBody Rebasis N t i s).Q (3 * b + k)
        = (if b = i then (foldCs (s.dhem.Qosc (3 * b + k)) (s.dQ (3 * b + k))
            (s.uv_csq (3 * b + k)) (s.cs_dq (3 * b + k))).1 else s.Q (3 * b + k))
      ∧ (rectifyBody Rebasis N t i s).dQ (3 * b + k)
        = (if b = i then -(foldCs (s.dhem.Qosc (3 * b + k)) (s.dQ (3 * b + k))
            (s.uv_csq (3 * b + k)) (s.cs_dq (3 * b + k))).2 else s.dQ (3 * b + k))
      ∧ (rectifyBody Rebasis N t i s).cs_dq (3 * b + k)
        = (if b = i then 0 else s.cs_dq (3 * b + k))
      ∧ (rectifyBody Rebasis N t i s).uv_csq (3 * b + k)
        = (if b = i then 0 else s.uv_csq (3 * b + k))
      ∧ (rectifyBody Rebasis N t i s).P (3 * b + k)
        = (if b = i then (foldCs (s.dhem.Posc N (3 * b + k)) (s.dP (3 * b + k))
            (s.uv_csp (3 * b + k)) (s.cs_dp (3 * b + k))).1 else s.P (3 * b + k))
      ∧ (rectifyBody Rebasis N t i s).dP (3 * b + k)
        = (if b = i then -(foldCs (s.dhem.Posc N (3 * b + k)) (s.dP (3 * b + k))
            (s.uv_csp (3 * b + k)) (s.cs_dp (3 * b + k))).2 else s.dP (3 * b + k))
      ∧ (rectifyBody Rebasis N t i s).cs_dp (3 * b + k)
        = (if b = i then 0 else s.cs_dp (3 * b + k))
      ∧ (rectifyBody Rebasis N t i s).uv_csp (3 * b + k)
        = (if b = i then 0 else s.uv_csp (3 * b + k)) := by
  have hQ := rectifyFoldQ_apply i s b k hk
  have hP := rectifyFoldP_apply N i (rectifyFoldQ i s) b k hk
  exact ⟨hQ.1, hQ.2.1, hQ.2.2.1, hQ.2.2.2, hP.1, hP.2.1, hP.2.2.1, hP.2.2.2⟩

/-- The rectification of a body leaves the reference snapshots and their selection as they
are. -/
theorem rectifyBody_reference (Rebasis : κ → (Nat → α) → (Nat → α) → α → Nat → κ) (N : Nat)
    (t : α) (i : Nat) (s : TesState α κ) :
    (rectifyBody Rebasis N t i s).dhem.XoscArr = s.dhem.XoscArr
      ∧ (rectifyBody Rebasis N t i s).dhem.XoscStage = s.dhem.XoscStage :=
  ⟨rfl, rfl⟩

/-- Nothing is folded before the first round. -/
theorem FoldedBelow_start (N : Nat) (s0 : TesState α κ) (ra : Nat → Nat) :
    FoldedBelow N s0 { s0 with rectifiedArray := ra } 1 := by
  refine ⟨rfl, rfl, ?_⟩
  intro b k _
  have h : ¬ (1 ≤ b ∧ b < 1) := by omega
  refine ⟨?_, ?_, ?_, ?_, ?_, ?_, ?_, ?_⟩ <;> rw [if_neg h]

/-- The round for body `I` folds body `I` and touches no other body. -/
theorem FoldedBelow_step (Rebasis : κ → (Nat → α) → (Nat → α) → α → Nat → κ) (N : Nat)
    (t : α) (s0 s : TesState α κ) (I : Nat) (hI : 1 ≤ I) (h : FoldedBelow N s0 s I) :
    FoldedBelow N s0 (rectifyBody Rebasis N t I s) (I + 1) := by
  obtain ⟨hX, hS, hall⟩ := h
  have hQosc : s.dhem.Qosc = s0.dhem.Qosc := by
    unfold DHEM.Qosc
    rw [hX, hS]
  have hPosc : s.dhem.Posc N = s0.dhem.Posc N := by
    unfold DHEM.Posc
    rw [hX, hS]
  refine ⟨hX, hS, ?_⟩
  intro b k hk
  have hb := rectifyBody_apply Rebasis N t I s b k hk
  have hs := hall b k hk
  by_cases hbI : b = I
  · subst hbI
    have h1 : ¬ (1 ≤ b ∧ b < b) := by omega
    have h2 : 1 ≤ b ∧ b < b + 1 := by omega
    simp only [if_neg h1] at hs
    simp only [if_true, hQosc, hPosc, hs.1, hs.2.1, hs.2.2.1, hs.2.2.2.1, hs.2.2.2.2.1,
      hs.2.2.2.2.2.1, hs.2.2.2.2.2.2.1, hs.2.2.2.2.2.2.2] at hb
    simp only [if_pos h2]
    exact hb
  · simp only [if_neg hbI] at hb
    by_cases hlt : 1 ≤ b ∧ b < I
    · have h2 : 1 ≤ b ∧ b < I + 1 := by omega
      simp only [if_pos hlt] at hs
      simp only [if_pos h2]
      exact ⟨hb.1.trans hs.1, hb.2.1.trans hs.2.1, hb.2.2.1.trans hs.2.2.1,
        hb.2.2.2.1.trans hs.2.2.2.1, hb.2.2.2.2.1.trans hs.2.2.2.2.1,
        hb.2.2.2.2.2.1.trans hs.2.2.2.2.2.1, hb.2.2.2.2.2.2.1.trans hs.2.2.2.2.2.2.1,
        hb.2.2.2.2.2.2.2.trans hs.2.2.2.2.2.2.2⟩
    · have h2 : ¬ (1 ≤ b ∧ b < I + 1) := by omega
      simp only [if_neg hlt] at hs
      simp only [if_neg h2]
      exact ⟨hb.1.trans hs.1, hb.2.1.trans hs.2.1, hb.2.2.1.trans hs.2.2.1,
        hb.2.2.2.1.trans hs.2.2.2.1, hb.2.2.2.2.1.trans hs.2.2.2.2.1,
        hb.2.2.2.2.2.1.trans hs.2.2.2.2.2.1, hb.2.2.2.2.2.2.1.trans hs.2.2.2.2.2.2.1,
        hb.2.2.2.2.2.2.2.trans hs.2.2.2.2.2.2.2⟩

/-- After a rectifying call every non-central body has been folded, starting from the state
in which the slices of the stage are selected. -/
theorem dhem_RectifyOrbits_folded (sqrt : α → α)
    (Rebasis : κ → (Nat → α) → (Nat → α) → α → Nat → κ) (N : Nat) (dq_max t : α)
    (s : TesState α κ) (stageNumber : Nat)
    (hflag : rectifyFlag sqrt N dq_max t s stageNumber ≠ 0) :
    FoldedBelow N (rectifySelect s stageNumber)
      (dhem_RectifyOrbits sqrt Rebasis N dq_max t s stageNumber).2 (1 + (N - 1)) := by
  rw [dhem_RectifyOrbits_eq]
  exact forLoop_invariant _
    (fun c (cs : Nat × TesState α κ) =>
      FoldedBelow N (rectifySelect s stageNumber) cs.2 (1 + c))
    1 (N - 1) _ (FoldedBelow_start N _ _)
    (by
      intro c cs _ hinv
      simp only [if_pos hflag]
      exact FoldedBelow_step Rebasis N t _ cs.2 (1 + c) (by omega) hinv)

/-- The entries of a non-central body after a rectifying call, from the state before the
call: `Qosc`, `Posc` are read from the slice of the given stage. -/
theorem dhem_RectifyOrbits_entries (sqrt : α → α)
    (Rebasis : κ → (Nat → α) → (Nat → α) → α → Nat → κ) (N : Nat) (dq_max t : α)
    (s : TesState α κ) (stageNumber : Nat)
    (htrig : someBodyTriggers sqrt N dq_max t s stageNumber) (i k : Nat)
    (hi : 1 ≤ i) (hiN : i < N) (hk : k < 3) :
    (dhem_RectifyOrbits sqrt Rebasis N dq_max t s stageNumber).2.Q (3 * i + k)
        = (foldCs (s.dhem.XoscArr stageNumber (3 * i + k)) (s.dQ (3 * i + k))
            (s.uv_csq (3 * i + k)) (s.cs_dq (3 * i + k))).1
      ∧ (dhem_RectifyOrbits sqrt Rebasis N dq_max t s stageNumber).2.dQ (3 * i + k)
        = -(foldCs (s.dhem.XoscArr stageNumber (3 * i + k)) (s.dQ (3 * i + k))
            (s.uv_csq (3 * i + k)) (s.cs_dq (3 * i + k))).2
      ∧ (dhem_RectifyOrbits sqrt Rebasis N dq_max t s stageNumber).2.cs_dq (3 * i + k) = 0
      ∧ (dhem_RectifyOrbits sqrt Rebasis N dq_max t s stageNumber).2.uv_csq (3 * i + k) = 0
      ∧ (dhem_RectifyOrbits sqrt Rebasis N dq_max t s stageNumber).2.P (3 * i + k)
        = (foldCs (s.dhem.XoscArr stageNumber (3 * N + (3 * i + k))) (s.dP (3 * i + k))
            (s.uv_csp (3 * i + k)) (s.cs_dp (3 * i + k))).1
      ∧ (dhem_RectifyOrbits sqrt Rebasis N dq_max t s stageNumber).2.dP (3 * i + k)
        = -(foldCs (s.dhem.XoscArr stageNumber (3 * N + (3 * i + k))) (s.dP (3 * i + k))
            (s.uv_csp (3 * i + k)) (s.cs_dp (3 * i + k))).2
      ∧ (dhem_RectifyOrbits sqrt Rebasis N dq_max t s stageNumber).2.cs_dp (3 * i + k) = 0
      ∧ (dhem_RectifyOrbits sqrt Rebasis N dq_max t s stageNumber).2.uv_csp (3 * i + k) = 0 := by
  have hflag : rectifyFlag sqrt N dq_max t s stageNumber ≠ 0 := by
    rw [(rectifyFlag_eq sqrt N dq_max t s stageNumber).1 htrig]
    decide
  have h := (dhem_RectifyOrbits_folded sqrt Rebasis N dq_max t s stageNumber hflag).2.2 i k hk
  have hc : 1 ≤ i ∧ i < 1 + (N - 1) := by omega
  simp only [if_pos hc] at h
  exact h

/-- The entries of `Q` and `P` written by `dhem_PerformSummation`: zero for the central
body, reference plus deviation plus the two residuals for the bodies `1 ≤ b < N`. -/
theorem dhem_PerformSummation_apply (N : Nat) (s : TesState α κ) (stageNumber : Nat)
    (b k : Nat) (hk : k < 3) :
    (dhem_PerformSummation N s stageNumber).Q (3 * b + k)
        = (if 1 ≤ b ∧ b < N then
            s.dhem.XoscArr stageNumber (3 * b + k)
              + (s.dQ (3 * b + k) + (s.dhem.Qosc_cs (3 * b + k) + s.cs_dq (3 * b + k)))
          else if b = 0 then 0 else s.Q (3 * b + k))
      ∧ (dhem_PerformSummation N s stageNumber).P (3 * b + k)
        = (if 1 ≤ b ∧ b < N then
            s.dhem.XoscArr stageNumber (3 * N + (3 * b + k))
              + (s.dP (3 * b + k) + (s.dhem.Posc_cs N (3 * b + k) + s.cs_dp (3 * b + k)))
          else if b = 0 then 0 else s.P (3 * b + k)) := by
  unfold dhem_PerformSummation
  simp only []
  have key := forLoop_invariant
    (fun i (s : TesState α κ) =>
      let Q := Function.update s.Q (3 * i + 0) (s.dhem.Qosc (3 * i + 0)
        + (s.dQ (3 * i + 0) + (s.dhem.Qosc_cs (3 * i + 0) + s.cs_dq (3 * i + 0))))
      let Q := Function.update Q (3 * i + 1) (s.dhem.Qosc (3 * i + 1)
        + (s.dQ (3 * i + 1) + (s.dhem.Qosc_cs (3 * i + 1) + s.cs_dq (3 * i + 1))))
      let Q := Function.update Q (3 * i + 2) (s.dhem.Qosc (3 * i + 2)
        + (s.dQ (3 * i + 2) + (s.dhem.Qosc_cs (3 * i + 2) + s.cs_dq (3 * i + 2))))
      let P := Function.update s.P (3 * i + 0) (s.dhem.Posc N (3 * i + 0)
        + (s.dP (3 * i + 0) + (s.dhem.Posc_cs N (3 * i + 0) + s.cs_dp (3 * i + 0))))
      let P := Function.update P (3 * i + 1) (s.dhem.Posc N (3 * i + 1)
        + (s.dP (3 * i + 1) + (s.dhem.Posc_cs N (3 * i + 1) + s.cs_dp (3 * i + 1))))
      let P := Function.update P (3 * i + 2) (s.dhem.Posc N (3 * i + 2)
        + (s.dP (3 * i + 2) + (s.dhem.Posc_cs N (3 * i + 2) + s.cs_dp (3 * i + 2))))
      { s with Q := Q, P := P })
    (fun c (s' : TesState α κ) =>
      s'.dhem = { s.dhem with XoscStage := stageNumber } ∧ s'.dQ = s.dQ ∧ s'.dP = s.dP
        ∧ s'.cs_dq = s.cs_dq ∧ s'.cs_dp = s.cs_dp
        ∧ ∀ b k, k < 3 →
          s'.Q (3 * b + k)
              = (if 1 ≤ b ∧ b < 1 + c then
                  s.dhem.XoscArr stageNumber (3 * b + k)
                    + (s.dQ (3 * b + k) + (s.dhem.Qosc_cs (3 * b + k) + s.cs_dq (3 * b + k)))
                else if b = 0 then 0 else s.Q (3 * b + k))
            ∧ s'.P (3 * b + k)
              = (if 1 ≤ b ∧ b < 1 + c then
                  s.dhem.XoscArr stageNumber (3 * N + (3 * b + k))
                    + (s.dP (3 * b + k)
                      + (s.dhem.Posc_cs N (3 * b + k) + s.cs_dp (3 * b + k)))
                else if b = 0 then 0 else s.P (3 * b + k)))
    1 (N - 1)
    (forLoop (fun i (s : TesState α κ) =>
      { s with Q := Function.update s.Q i 0, P := Function.update s.P i 0 }) 0 3
      { s with dhem := { s.dhem with XoscStage := stageNumber } })
    (by
      refine ⟨rfl, rfl, rfl, rfl, rfl, ?_⟩
      intro b k hk
      have h1 : ¬ (1 ≤ b ∧ b < 1 + 0) := by omega
      simp only [if_neg h1]
      by_cases hb : b = 0
      · subst hb
        interval_cases k <;> simp [forLoop, Function.update_apply]
      · have e0 : 3 * b + k ≠ 0 := by omega
        have e1 : 3 * b + k ≠ 1 := by omega
        have e2 : 3 * b + k ≠ 2 := by omega
        simp [forLoop, Function.update_apply, hb, e0, e1, e2])
    (by
      intro c s' _ hinv
      obtain ⟨hd, hdQ, hdP, hcq, hcp, hall⟩ := hinv
      refine ⟨hd, hdQ, hdP, hcq, hcp, ?_⟩
      intro b k hk
      obtain ⟨hQ, hP⟩ := hall b k hk
      simp only [Nat.add_zero]
      rw [update3_apply _ _ _ _ _ _ _ hk, update3_apply _ _ _ _ _ _ _ hk, hQ, hP, hd, hdQ, hdP,
        hcq, hcp]
      by_cases hb : b = 1 + c
      · subst hb
        have h2 : 1 ≤ 1 + c ∧ 1 + c < 1 + (c + 1) := by omega
        simp only [if_true, if_pos h2, DHEM.Qosc, DHEM.Posc, DHEM.Qosc_cs, DHEM.Posc_cs]
        interval_cases k <;> simp
      · simp only [if_neg hb]
        by_cases hlt : 1 ≤ b ∧ b < 1 + c
        · have h2 : 1 ≤ b ∧ b < 1 + (c + 1) := by omega
          simp only [if_pos hlt, if_pos h2, and_self]
        · have h2 : ¬ (1 ≤ b ∧ b < 1 + (c + 1)) := by omega
          simp only [if_neg hlt, if_neg h2, and_self])
  have hx := key.2.2.2.2.2 b k hk
  have hiff : (1 ≤ b ∧ b < 1 + (N - 1)) ↔ (1 ≤ b ∧ b < N) := by omega
  simp only [hiff] at hx
  exact hx

/-- C10: when `dhem_RectifyOrbits` rectifies (some non-central body triggers), for every
non-central body `i` and component `k` the new `Q[3*i+k]` is the accumulator of the
compensated sum `foldCs` (`add_cs` applied, from a zero carry, to `Qosc`, then `dQ`, then
`uv_csq`, then `cs_dq`), the new `dQ[3*i+k]` is the negation of its final carry, that carry
is zero in exact arithmetic so that `Q_new = Qosc + dQ + uv_csq + cs_dq` and `dQ_new = 0`,
and `uv_csq[3*i+k]`, `cs_dq[3*i+k]` are zero afterwards; the same holds for `P` with `Posc`,
`dP`, `uv_csp`, `cs_dp`. -/
theorem C10_rectification_folding (sqrt : α → α)
    (Rebasis : κ → (Nat → α) → (Nat → α) → α → Nat → κ) (N : Nat) (dq_max t : α)
    (s : TesState α κ) (stageNumber : Nat)
    (htrig : someBodyTriggers sqrt N dq_max t s stageNumber) (i k : Nat)
    (hi : 1 ≤ i) (hiN : i < N) (hk : k < 3) :
    ((dhem_RectifyOrbits sqrt Rebasis N dq_max t s stageNumber).2.Q (3 * i + k)
          = (foldCs (s.dhem.XoscArr stageNumber (3 * i + k)) (s.dQ (3 * i + k))
              (s.uv_csq (3 * i + k)) (s.cs_dq (3 * i + k))).1
        ∧ (dhem_RectifyOrbits sqrt Rebasis N dq_max t s stageNumber).2.dQ (3 * i + k)
          = -(foldCs (s.dhem.XoscArr stageNumber (3 * i + k)) (s.dQ (3 * i + k))
              (s.uv_csq (3 * i + k)) (s.cs_dq (3 * i + k))).2
        ∧ (foldCs (s.dhem.XoscArr stageNumber (3 * i + k)) (s.dQ (3 * i + k))
              (s.uv_csq (3 * i + k)) (s.cs_dq (3 * i + k))).2 = 0
        ∧ (dhem_RectifyOrbits sqrt Rebasis N dq_max t s stageNumber).2.Q (3 * i + k)
          = s.dhem.XoscArr stageNumber (3 * i + k) + s.dQ (3 * i + k) + s.uv_csq (3 * i + k)
            + s.cs_dq (3 * i + k)
        ∧ (dhem_RectifyOrbits sqrt Rebasis N dq_max t s stageNumber).2.dQ (3 * i + k) = 0
        ∧ (dhem_RectifyOrbits sqrt Rebasis N dq_max t s stageNumber).2.uv_csq (3 * i + k) = 0
        ∧ (dhem_RectifyOrbits sqrt Rebasis N dq_max t s stageNumber).2.cs_dq (3 * i + k) = 0)
      ∧ ((dhem_RectifyOrbits sqrt Rebasis N dq_max t s stageNumber).2.P (3 * i + k)
          = (foldCs (s.dhem.XoscArr stageNumber (3 * N + (3 * i + k))) (s.dP (3 * i + k))
              (s.uv_csp (3 * i + k)) (s.cs_dp (3 * i + k))).1
        ∧ (dhem_RectifyOrbits sqrt Rebasis N dq_max t s stageNumber).2.dP (3 * i + k)
          = -(foldCs (s.dhem.XoscArr stageNumber (3 * N + (3 * i + k))) (s.dP (3 * i + k))
              (s.uv_csp (3 * i + k)) (s.cs_dp (3 * i + k))).2
        ∧ (foldCs (s.dhem.XoscArr stageNumber (3 * N + (3 * i + k))) (s.dP (3 * i + k))
              (s.uv_csp (3 * i + k)) (s.cs_dp (3 * i + k))).2 = 0
        ∧ (dhem_RectifyOrbits sqrt Rebasis N dq_max t s stageNumber).2.P (3 * i + k)
          = s.dhem.XoscArr stageNumber (3 * N + (3 * i + k)) + s.dP (3 * i + k)
            + s.uv_csp (3 * i + k) + s.cs_dp (3 * i + k)
        ∧ (dhem_RectifyOrbits sqrt Rebasis N dq_max t s stageNumber).2.dP (3 * i + k) = 0
        ∧ (dhem_RectifyOrbits sqrt Rebasis N dq_max t s stageNumber).2.uv_csp (3 * i + k) = 0
        ∧ (dhem_RectifyOrbits sqrt Rebasis N dq_max t s stageNumber).2.cs_dp (3 * i + k) = 0) := by
  have hr := dhem_RectifyOrbits_entries sqrt Rebasis N dq_max t s stageNumber htrig i k hi hiN hk
  obtain ⟨hQ, hdQ, hcq, huq, hP, hdP, hcp, hup⟩ := hr
  refine ⟨⟨hQ, hdQ, ?_, ?_, ?_, huq, hcq⟩, ⟨hP, hdP, ?_, ?_, ?_, hup, hcp⟩⟩
  · rw [foldCs_exact]
  · rw [hQ, foldCs_exact]
  · rw [hdQ, foldCs_exact, neg_zero]
  · rw [foldCs_exact]
  · rw [hP, foldCs_exact]
  · rw [hdP, foldCs_exact, neg_zero]

/-- C10, at a concrete input: two bodies, `uv_csq[3] = 1`, body `1` overdue at `t = 1`: the
rectified `Q[3]` is the plain sum `0 + 0 + 1 + 0`. -/
theorem C10_rectification_folding_witness :
    (dhem_RectifyOrbits (fun x => x) (fun u _ _ _ _ => u) 2 0 1
        (residualState ℚ (single ℚ 3 1)) 8).2.Q (3 * 1 + 0)
      = (residualState ℚ (single ℚ 3 1)).dhem.XoscArr 8 (3 * 1 + 0)
        + (residualState ℚ (single ℚ 3 1)).dQ (3 * 1 + 0)
        + (residualState ℚ (single ℚ 3 1)).uv_csq (3 * 1 + 0)
        + (residualState ℚ (single ℚ 3 1)).cs_dq (3 * 1 + 0) :=
  (C10_rectification_folding (fun x => x) (fun u _ _ _ _ => u) 2 0 1
    (residualState ℚ (single ℚ 3 1)) 8
    ⟨1, by decide, by decide, Or.inl (by norm_num [residualState, constDhem])⟩
    1 0 (by decide) (by decide) (by decide)).1.2.2.2.1

end RectifyFold

/-! ### The step-size law -/

section RadauFallback

variable {α : Type} [LinearOrderedField α]

/-- C11: for a non-finite error estimate (an infinity or a NaN) the trial step of
`Radau_CalculateStepSize` before clamping is exactly `1.1 * h`, and for every `h > 0` with
`1.1 * h ≥ MIN_STEP_SIZE = 1e-5` the function returns exactly `1.1 * h`. -/
theorem C11_degenerate_error_fallback (pow : α → α → α) (rTol : α) (errMax : FpValue α)
    (h : α) (hnf : ∀ x, errMax ≠ FpValue.finite x) :
    hTrialUnclamped pow rTol errMax h = (11 / 10) * h
      ∧ (0 < h → MIN_STEP_SIZE ≤ (11 / 10) * h →
          Radau_CalculateStepSize pow rTol errMax h = (11 / 10) * h) := by
  have hu : hTrialUnclamped pow rTol errMax h = (11 / 10) * h := by
    cases errMax with
    | finite x => exact absurd rfl (hnf x)
    | inf b => rfl
    | nan => rfl
  refine ⟨hu, ?_⟩
  intro h0 hmin
  unfold Radau_CalculateStepSize
  simp only [hu]
  have h1 : ¬ ((11 / 10) * h < MIN_STEP_SIZE) := not_lt.mpr hmin
  have h2 : ¬ ((11 / 10) * h > MAX_STEP_SIZE_GROWTH * h) := by
    unfold MAX_STEP_SIZE_GROWTH
    intro hgt
    nlinarith
  rw [if_neg h1, if_neg h2]

/-- C11, at a concrete input: a NaN estimate and `h = 1`. -/
theorem C11_degenerate_error_fallback_witness :
    hTrialUnclamped (fun (x _ : ℚ) => x) (1 / 1000000000) FpValue.nan 1 = (11 / 10) * 1
      ∧ Radau_CalculateStepSize (fun (x _ : ℚ) => x) (1 / 1000000000) FpValue.nan 1
          = (11 / 10) * 1 :=
  ⟨(C11_degenerate_error_fallback (fun (x _ : ℚ) => x) (1 / 1000000000) FpValue.nan 1
      (fun _ hx => by cases hx)).1,
   (C11_degenerate_error_fallback (fun (x _ : ℚ) => x) (1 / 1000000000) FpValue.nan 1
      (fun _ hx => by cases hx)).2 (by norm_num) (by norm_num [MIN_STEP_SIZE])⟩

/-- C12: for every `h > 0`, tolerance `rTol > 0` and positive error estimate `err` that is
well-defined in the sense tested by the code (`isnormal`), the trial step of
`Radau_CalculateStepSize` before clamping is `h * pow (rTol / err) (1/7)`; the function
returns exactly that value whenever it lies between `MIN_STEP_SIZE = 1e-5` and `4 * h`; and
with `err = rTol` (and `pow 1 (1/7) = 1`) it returns `h` for every `h ≥ 1e-5`. -/
theorem C12_seventh_order_step_law (pow : α → α → α) (rTol err h : α)
    (h0 : 0 < h) (hrTol : 0 < rTol) (_herr : 0 < err)
    (hnormal : isnormal (FpValue.finite err) = true) :
    hTrialUnclamped pow rTol (FpValue.finite err) h = h * pow (rTol / err) (1 / 7)
      ∧ (MIN_STEP_SIZE ≤ h * pow (rTol / err) (1 / 7) →
          h * pow (rTol / err) (1 / 7) ≤ 4 * h →
          Radau_CalculateStepSize pow rTol (FpValue.finite err) h
            = h * pow (rTol / err) (1 / 7))
      ∧ (pow 1 (1 / 7) = 1 → err = rTol → MIN_STEP_SIZE ≤ h →
          Radau_CalculateStepSize pow rTol (FpValue.finite err) h = h) := by
  have hu : hTrialUnclamped pow rTol (FpValue.finite err) h = h * pow (rTol / err) (1 / 7) := by
    unfold hTrialUnclamped
    simp only [hnormal, if_true]
  have hclamp : MIN_STEP_SIZE ≤ h * pow (rTol / err) (1 / 7) →
      h * pow (rTol / err) (1 / 7) ≤ 4 * h →
      Radau_CalculateStepSize pow rTol (FpValue.finite err) h
        = h * pow (rTol / err) (1 / 7) := by
    intro hlo hhi
    unfold Radau_CalculateStepSize
    simp only [hu]
    have h1 : ¬ (h * pow (rTol / err) (1 / 7) < MIN_STEP_SIZE) := not_lt.mpr hlo
    have h2 : ¬ (h * pow (rTol / err) (1 / 7) > MAX_STEP_SIZE_GROWTH * h) := by
      unfold MAX_STEP_SIZE_GROWTH
      exact not_lt.mpr hhi
    rw [if_neg h1, if_neg h2]
  refine ⟨hu, hclamp, ?_⟩
  intro hpow heq hmin
  have hq : rTol / err = 1 := by
    rw [heq]
    exact div_self (ne_of_gt hrTol)
  have hval : h * pow (rTol / err) (1 / 7) = h := by rw [hq, hpow, mul_one]
  rw [hclamp (by rw [hval]; exact hmin) (by rw [hval]; linarith), hval]

/-- C12, at a concrete input: `h = 1`, `err = rTol = 1e-9` and a `pow` that is `1`
everywhere: the step is returned unchanged. -/
theorem C12_seventh_order_step_law_witness :
    Radau_CalculateStepSize (fun (_ _ : ℚ) => 1) (1 / 1000000000)
      (FpValue.finite (1 / 1000000000)) 1 = 1 :=
  (C12_seventh_order_step_law (fun (_ _ : ℚ) => 1) (1 / 1000000000) (1 / 1000000000) 1
    (by norm_num) (by norm_num) (by norm_num)
    (by
      simp only [isnormal, decide_eq_true_eq, DBL_MIN]
      rw [abs_of_pos (by norm_num)]
      norm_num)).2.2 rfl rfl (by norm_num [MIN_STEP_SIZE])

end RadauFallback

/-! ### State reconstruction and reference derivatives -/

section Reconstruction

variable {α : Type} [LinearOrderedField α] {κ : Type}

/-- C15: for every input, `dhem_PerformSummation` sets the three position and the three
momentum components of the central body to exactly zero, whatever the deviations and
residuals hold, and for every non-central body and component sets
`Q = Qosc + dQ + Qosc_cs + cs_dq` and `P = Posc + dP + Posc_cs + cs_dp`, with `Qosc`, `Posc`
read from the slice of the requested stage and `Qosc_cs`, `Posc_cs` the reference residuals
that are selected when the call is made. -/
theorem C15_state_reconstruction (N : Nat) (s : TesState α κ) (stageNumber : Nat) :
    (∀ k, k < 3 →
        (dhem_PerformSummation N s stageNumber).Q k = 0
          ∧ (dhem_PerformSummation N s stageNumber).P k = 0)
      ∧ (∀ i k, 1 ≤ i → i < N → k < 3 →
        (dhem_PerformSummation N s stageNumber).Q (3 * i + k)
            = s.dhem.XoscArr stageNumber (3 * i + k) + s.dQ (3 * i + k)
              + s.dhem.Qosc_cs (3 * i + k) + s.cs_dq (3 * i + k)
          ∧ (dhem_PerformSummation N s stageNumber).P (3 * i + k)
            = s.dhem.XoscArr stageNumber (3 * N + (3 * i + k)) + s.dP (3 * i + k)
              + s.dhem.Posc_cs N (3 * i + k) + s.cs_dp (3 * i + k)) := by
  constructor
  · intro k hk
    have h := dhem_PerformSummation_apply N s stageNumber 0 k hk
    have hc : ¬ (1 ≤ 0 ∧ 0 < N) := by omega
    simp only [if_neg hc, if_true, Nat.mul_zero, Nat.zero_add] at h
    exact h
  · intro i k hi hiN hk
    have h := dhem_PerformSummation_apply N s stageNumber i k hk
    rw [if_pos ⟨hi, hiN⟩, if_pos ⟨hi, hiN⟩] at h
    rw [h.1, h.2]
    constructor <;> ring

/-- The entries of `Qosc_dot` written by `dhem_CalculateOsculatingOrbitDerivatives_Momenta`. -/
theorem derivatives_Qosc_dot (sqrt : α → α) (N : Nat) (G : α) (m Qosc Posc : Nat → α)
    (out : (Nat → α) × (Nat → α)) (b k : Nat) (hk : k < 3) :
    (dhem_CalculateOsculatingOrbitDerivatives_Momenta sqrt N G m Qosc Posc out).1 (3 * b + k)
      = if 1 ≤ b ∧ b < N then Posc (3 * b + k) / m b else out.1 (3 * b + k) := by
  unfold dhem_CalculateOsculatingOrbitDerivatives_Momenta
  simp only []
  rw [forLoop_prod
    (fun i (a : Nat → α) => Function.update (Function.update (Function.update a (3 * i + 0)
      (Posc (3 * i) / m i)) (3 * i + 1) (Posc (3 * i + 1) / m i)) (3 * i + 2)
      (Posc (3 * i + 2) / m i))
    (fun i (a : Nat → α) => Function.update (Function.update (Function.update a (3 * i + 0)
      (-G * m 0 * m i / (NORM sqrt Qosc i * NORM sqrt Qosc i * NORM sqrt Qosc i)
        * Qosc (3 * i))) (3 * i + 1)
      (-G * m 0 * m i / (NORM sqrt Qosc i * NORM sqrt Qosc i * NORM sqrt Qosc i)
        * Qosc (3 * i + 1))) (3 * i + 2)
      (-G * m 0 * m i / (NORM sqrt Qosc i * NORM sqrt Qosc i * NORM sqrt Qosc i)
        * Qosc (3 * i + 2)))]
  simp only []
  rw [forLoop_slot _ (fun i k _ => Posc (3 * i + k) / m i) _ 1 (N - 1) out.1 b k hk]
  · have hiff : (1 ≤ b ∧ b < 1 + (N - 1)) ↔ (1 ≤ b ∧ b < N) := by omega
    simp only [hiff]
  · intro i a' b' k' hk'
    rw [Nat.add_zero, update3_apply _ _ _ _ _ _ _ hk']
    by_cases hb : b' = i
    · subst hb
      interval_cases k' <;> simp
    · simp [hb]

/-- C18: for every non-central body `i` with `Qosc_i ≠ 0`,
`dhem_CalculateOsculatingOrbitDerivatives_Momenta` sets `Qosc_dot_i = Posc_i / m_i` and
`Posc_dot_i = -G * m_0 * m_i / |Qosc_i|^3 * Qosc_i`, and it leaves the derivative entries of
the central body (indices `0..2`) as they were. -/
theorem C18_reference_orbit_derivatives (sqrt : α → α) (N : Nat) (G : α)
    (m Qosc Posc : Nat → α) (out : (Nat → α) × (Nat → α)) (i k : Nat)
    (hi : 1 ≤ i) (hiN : i < N) (hk : k < 3) (_hQosc : ∃ l, l < 3 ∧ Qosc (3 * i + l) ≠ 0) :
    (dhem_CalculateOsculatingOrbitDerivatives_Momenta sqrt N G m Qosc Posc out).1 (3 * i + k)
        = Posc (3 * i + k) / m i
      ∧ (dhem_CalculateOsculatingOrbitDerivatives_Momenta sqrt N G m Qosc Posc out).2
          (3 * i + k)
        = -G * m 0 * m i / (NORM sqrt Qosc i) ^ 3 * Qosc (3 * i + k)
      ∧ (∀ l, l < 3 →
        (dhem_CalculateOsculatingOrbitDerivatives_Momenta sqrt N G m Qosc Posc out).1 l
            = out.1 l
          ∧ (dhem_CalculateOsculatingOrbitDerivatives_Momenta sqrt N G m Qosc Posc out).2 l
            = out.2 l) := by
  refine ⟨?_, ?_, ?_⟩
  · rw [derivatives_Qosc_dot _ _ _ _ _ _ _ _ _ hk, if_pos ⟨hi, hiN⟩]
  · rw [derivatives_Posc_dot _ _ _ _ _ _ _ _ _ hk, if_pos ⟨hi, hiN⟩]
    ring
  · intro l hl
    have h1 := derivatives_Qosc_dot sqrt N G m Qosc Posc out 0 l hl
    have h2 := derivatives_Posc_dot sqrt N G m Qosc Posc out 0 l hl
    have hc : ¬ (1 ≤ 0 ∧ 0 < N) := by omega
    simp only [if_neg hc, Nat.mul_zero, Nat.zero_add] at h1 h2
    exact ⟨h1, h2⟩

/-- C18, at a concrete input: two bodies of unit mass, every reference entry `1`. -/
theorem C18_reference_orbit_derivatives_witness :
    (dhem_CalculateOsculatingOrbitDerivatives_Momenta (fun x => x) 2 1 (fun _ => (1 : ℚ))
        (fun _ => 1) (fun _ => 1) (fun _ => 0, fun _ => 0)).1 (3 * 1 + 0)
      = (fun _ => (1 : ℚ)) (3 * 1 + 0) / (fun _ => (1 : ℚ)) 1 :=
  (C18_reference_orbit_derivatives (fun x => x) 2 1 (fun _ => (1 : ℚ)) (fun _ => 1)
    (fun _ => 1) (fun _ => 0, fun _ => 0) 1 0 (by decide) (by decide) (by decide)
    ⟨0, by decide, by norm_num⟩).1

end Reconstruction

/-! ### Rectification: the schedule and the flags -/

section RectifySchedule

variable {α : Type} [LinearOrderedField α] {κ : Type}

/-- Lines 344-354: the schedule and the flags after the rectification of body `i`. -/
theorem rectifyBody_schedule (Rebasis : κ → (Nat → α) → (Nat → α) → α → Nat → κ) (N : Nat)
    (t : α) (i : Nat) (s : TesState α κ) :
    (rectifyBody Rebasis N t i s).dhem.rectificationPeriod = s.dhem.rectificationPeriod
      ∧ (∀ b, (rectifyBody Rebasis N t i s).dhem.rectifyTimeArray b
          = if b = i then t + s.dhem.rectificationPeriod i else s.dhem.rectifyTimeArray b)
      ∧ (∀ x, (rectifyBody Rebasis N t i s).rectifiedArray x = 1
          ∨ (rectifyBody Rebasis N t i s).rectifiedArray x = s.rectifiedArray x)
      ∧ (∀ k, k < 3 → (rectifyBody Rebasis N t i s).rectifiedArray (3 * i + k) = 1
          ∧ (rectifyBody Rebasis N t i s).rectifiedArray (N * 3 + 3 * i + k) = 1) := by
  have hra : (rectifyBody Rebasis N t i s).rectifiedArray
      = Function.update (Function.update (Function.update (Function.update (Function.update
        (Function.update s.rectifiedArray (3 * i) 1) (3 * i + 1) 1) (3 * i + 2) 1)
        (N * 3 + 3 * i) 1) (N * 3 + 3 * i + 1) 1) (N * 3 + 3 * i + 2) 1 := rfl
  refine ⟨rfl, ?_, ?_, ?_⟩
  · intro b
    show Function.update _ i _ b = _
    rw [Function.update_apply]
    rfl
  · intro x
    rw [hra]
    simp only [Function.update_apply]
    split_ifs <;> simp
  · intro k hk
    rw [hra]
    simp only [Function.update_apply]
    constructor
    · interval_cases k <;> split_ifs <;> first | rfl | omega
    · interval_cases k <;> split_ifs <;> first | rfl | omega

/-- After a rectifying call every non-central body has its new scheduled time and all six
of its flags set; the periods are those of the state before the call. -/
theorem dhem_RectifyOrbits_schedule (sqrt : α → α)
    (Rebasis : κ → (Nat → α) → (Nat → α) → α → Nat → κ) (N : Nat) (dq_max t : α)
    (s : TesState α κ) (stageNumber : Nat)
    (hflag : rectifyFlag sqrt N dq_max t s stageNumber ≠ 0) :
    (dhem_RectifyOrbits sqrt Rebasis N dq_max t s stageNumber).2.dhem.rectificationPeriod
        = s.dhem.rectificationPeriod
      ∧ ∀ b, 1 ≤ b → b < 1 + (N - 1) →
        (dhem_RectifyOrbits sqrt Rebasis N dq_max t s stageNumber).2.dhem.rectifyTimeArray b
            = t + s.dhem.rectificationPeriod b
          ∧ ∀ k, k < 3 →
            (dhem_RectifyOrbits sqrt Rebasis N dq_max t s stageNumber).2.rectifiedArray
                (3 * b + k) = 1
              ∧ (dhem_RectifyOrbits sqrt Rebasis N dq_max t s stageNumber).2.rectifiedArray
                (N * 3 + 3 * b + k) = 1 := by
  rw [dhem_RectifyOrbits_eq]
  exact forLoop_invariant _
    (fun c (cs : Nat × TesState α κ) =>
      cs.2.dhem.rectificationPeriod = s.dhem.rectificationPeriod
        ∧ ∀ b, 1 ≤ b → b < 1 + c →
          cs.2.dhem.rectifyTimeArray b = t + s.dhem.rectificationPeriod b
            ∧ ∀ k, k < 3 → cs.2.rectifiedArray (3 * b + k) = 1
              ∧ cs.2.rectifiedArray (N * 3 + 3 * b + k) = 1)
    1 (N - 1) _
    (by
      refine ⟨rfl, ?_⟩
      intro b h1 h2
      omega)
    (by
      intro c cs _ hinv
      simp only [if_pos hflag]
      obtain ⟨hper, hall⟩ := hinv
      obtain ⟨bper, btime, bkeep, bset⟩ := rectifyBody_schedule Rebasis N t (1 + c) cs.2
      refine ⟨bper.trans hper, ?_⟩
      intro b h1 h2
      by_cases hb : b = 1 + c
      · subst hb
        refine ⟨?_, bset⟩
        rw [btime, if_pos rfl, hper]
      · obtain ⟨htime, hflags⟩ := hall b h1 (by omega)
        refine ⟨?_, ?_⟩
        · rw [btime, if_neg hb, htime]
        · intro k hk
          obtain ⟨hf1, hf2⟩ := hflags k hk
          constructor
          · rcases bkeep (3 * b + k) with h | h
            · exact h
            · rw [h, hf1]
          · rcases bkeep (N * 3 + 3 * b + k) with h | h
            · exact h
            · rw [h, hf2])

/-- A call that does not rectify leaves the module state as selected and returns the flag
array of the scan. -/
theorem dhem_RectifyOrbits_idle (sqrt : α → α)
    (Rebasis : κ → (Nat → α) → (Nat → α) → α → Nat → κ) (N : Nat) (dq_max t : α)
    (s : TesState α κ) (stageNumber : Nat)
    (hflag : rectifyFlag sqrt N dq_max t s stageNumber = 0) :
    (dhem_RectifyOrbits sqrt Rebasis N dq_max t s stageNumber).2
      = { rectifySelect s stageNumber with rectifiedArray :=
          (rectifyScan sqrt N t dq_max (rectifySelect s stageNumber).dhem.Qosc
            ((rectifySelect s stageNumber).dhem.Posc N) (rectifySelect s stageNumber).dQ
            (rectifySelect s stageNumber).dP (rectifySelect s stageNumber).dhem.rectifyTimeArray
            1 (N - 1) (rectifySelect s stageNumber).rectifiedArray).1 } := by
  rw [dhem_RectifyOrbits_eq]
  have hno : ¬ rectifyFlag sqrt N dq_max t s stageNumber ≠ 0 := by
    rw [hflag]
    decide
  exact forLoop_invariant _
    (fun _ (cs : Nat × TesState α κ) => cs.2
      = { rectifySelect s stageNumber with rectifiedArray :=
          (rectifyScan sqrt N t dq_max (rectifySelect s stageNumber).dhem.Qosc
            ((rectifySelect s stageNumber).dhem.Posc N) (rectifySelect s stageNumber).dQ
            (rectifySelect s stageNumber).dP (rectifySelect s stageNumber).dhem.rectifyTimeArray
            1 (N - 1) (rectifySelect s stageNumber).rectifiedArray).1 })
    1 (N - 1) _ rfl
    (by
      intro c cs _ hinv
      simp only [if_neg hno]
      exact hinv)

/-- Every store of the scan writes `0`: an entry is `0` afterwards or it is unchanged. -/
theorem rectifyScan_array_keep (sqrt : α → α) (N : Nat) (t dq_max : α)
    (Qosc Posc dQ dP rta : Nat → α) (i count : Nat) (ra : Nat → Nat) (x : Nat) :
    (rectifyScan sqrt N t dq_max Qosc Posc dQ dP rta i count ra).1 x = 0
      ∨ (rectifyScan sqrt N t dq_max Qosc Posc dQ dP rta i count ra).1 x = ra x := by
  induction count generalizing i ra with
  | zero => exact Or.inr rfl
  | succ c ih =>
    simp only [rectifyScan]
    have hsix : ∀ y, Function.update (Function.update (Function.update (Function.update
        (Function.update (Function.update ra (3 * i) 0) (3 * i + 1) 0) (3 * i + 2) 0)
        (N * 3 + 3 * i) 0) (N * 3 + 3 * i + 1) 0) (N * 3 + 3 * i + 2) 0 y = 0
        ∨ Function.update (Function.update (Function.update (Function.update
        (Function.update (Function.update ra (3 * i) 0) (3 * i + 1) 0) (3 * i + 2) 0)
        (N * 3 + 3 * i) 0) (N * 3 + 3 * i + 1) 0) (N * 3 + 3 * i + 2) 0 y = ra y := by
      intro y
      simp only [Function.update_apply]
      split_ifs <;> simp
    split_ifs
    · exact hsix x
    · rcases ih (i + 1) _ with h | h
      · exact Or.inl h
      · rw [h]
        exact hsix x

/-- A scan in which no body triggers zeroes all six flags of every scanned body. -/
theorem rectifyScan_array_zero (sqrt : α → α) (N : Nat) (t dq_max : α)
    (Qosc Posc dQ dP rta : Nat → α) (i count : Nat) (ra : Nat → Nat)
    (hno : ¬ ∃ b, i ≤ b ∧ b < i + count
      ∧ (t > rta b
        ∨ gtDouble (divDouble (NORM sqrt dQ b) (NORM sqrt Qosc b)) dq_max = true))
    (b k : Nat) (hb : i ≤ b) (hbc : b < i + count) (hk : k < 3) :
    (rectifyScan sqrt N t dq_max Qosc Posc dQ dP rta i count ra).1 (3 * b + k) = 0
      ∧ (rectifyScan sqrt N t dq_max Qosc Posc dQ dP rta i count ra).1
          (N * 3 + 3 * b + k) = 0 := by
  induction count generalizing i ra with
  | zero => omega
  | succ c ih =>
    simp only [rectifyScan]
    have hni : ¬ (t > rta i
        ∨ gtDouble (divDouble (NORM sqrt dQ i) (NORM sqrt Qosc i)) dq_max = true) :=
      fun h => hno ⟨i, le_refl i, by omega, h⟩
    rw [if_neg hni]
    by_cases hbi : b = i
    · subst hbi
      have h1 : Function.update (Function.update (Function.update (Function.update
          (Function.update (Function.update ra (3 * b) 0) (3 * b + 1) 0) (3 * b + 2) 0)
          (N * 3 + 3 * b) 0) (N * 3 + 3 * b + 1) 0) (N * 3 + 3 * b + 2) 0 (3 * b + k) = 0 := by
        simp only [Function.update_apply]
        interval_cases k <;> split_ifs <;> first | rfl | omega
      have h2 : Function.update (Function.update (Function.update (Function.update
          (Function.update (Function.update ra (3 * b) 0) (3 * b + 1) 0) (3 * b + 2) 0)
          (N * 3 + 3 * b) 0) (N * 3 + 3 * b + 1) 0) (N * 3 + 3 * b + 2) 0
          (N * 3 + 3 * b + k) = 0 := by
        simp only [Function.update_apply]
        interval_cases k <;> split_ifs <;> first | rfl | omega
      constructor
      · rcases rectifyScan_array_keep sqrt N t dq_max Qosc Posc dQ dP rta (b + 1) c _
          (3 * b + k) with h | h
        · exact h
        · rw [h, h1]
      · rcases rectifyScan_array_keep sqrt N t dq_max Qosc Posc dQ dP rta (b + 1) c _
          (N * 3 + 3 * b + k) with h | h
        · exact h
        · rw [h, h2]
    · exact ih (i + 1) _ (fun ⟨b', h1, h2, h3⟩ => hno ⟨b', by omega, by omega, h3⟩)
        (by omega) (by omega)

/-- C13: when `dhem_RectifyOrbits` rectifies at time `t`, the new scheduled time of every
non-central body `i` is `rectifyTimeArray[i] = t + rectificationPeriod[i]`, computed from
the current time `t` and not from the old scheduled time, and `rectificationPeriod` is left
unchanged. -/
theorem C13_rectification_schedule_update (sqrt : α → α)
    (Rebasis : κ → (Nat → α) → (Nat → α) → α → Nat → κ) (N : Nat) (dq_max t : α)
    (s : TesState α κ) (stageNumber : Nat)
    (htrig : someBodyTriggers sqrt N dq_max t s stageNumber) (i : Nat)
    (hi : 1 ≤ i) (hiN : i < N) :
    (dhem_RectifyOrbits sqrt Rebasis N dq_max t s stageNumber).2.dhem.rectifyTimeArray i
        = t + s.dhem.rectificationPeriod i
      ∧ (dhem_RectifyOrbits sqrt Rebasis N dq_max t s stageNumber).2.dhem.rectificationPeriod
        = s.dhem.rectificationPeriod := by
  have hflag : rectifyFlag sqrt N dq_max t s stageNumber ≠ 0 := by
    rw [(rectifyFlag_eq sqrt N dq_max t s stageNumber).1 htrig]
    decide
  have h := dhem_RectifyOrbits_schedule sqrt Rebasis N dq_max t s stageNumber hflag
  exact ⟨(h.2 i hi (by omega)).1, h.1⟩

/-- C13, at a concrete input: two bodies, body `1` overdue at `t = 1`. -/
theorem C13_rectification_schedule_update_witness :
    (dhem_RectifyOrbits (fun x => x) (fun u _ _ _ _ => u) 2 0 1
        (residualState ℚ (fun _ => 0)) 8).2.dhem.rectifyTimeArray 1
      = 1 + (residualState ℚ (fun _ => 0)).dhem.rectificationPeriod 1 :=
  (C13_rectification_schedule_update (fun x => x) (fun u _ _ _ _ => u) 2 0 1
    (residualState ℚ (fun _ => 0)) 8
    ⟨1, by decide, by decide, Or.inl (by norm_num [residualState, constDhem])⟩
    1 (by decide) (by decide)).1

/-- C14: after every call of `dhem_RectifyOrbits`, for every non-central body `i` all six
flag entries (`3*i+k` in the position half and `3*N+3*i+k` in the momentum half of
`rectifiedArray`, `k < 3`) are `1` if the call rectified and `0` if it did not, whatever the
array held before the call.  "The call rectified" is stated both ways: by the returned count
(non-zero or zero) and by the trigger test of the code (some non-central body has
`t > rectifyTimeArray[i]` or a ratio `|dQ_i| / |Qosc_i|`, taken as a quotient of doubles,
above `dq_max`). -/
theorem C14_rectified_flags (sqrt : α → α)
    (Rebasis : κ → (Nat → α) → (Nat → α) → α → Nat → κ) (N : Nat) (dq_max t : α)
    (s : TesState α κ) (stageNumber : Nat) (i k : Nat)
    (hi : 1 ≤ i) (hiN : i < N) (hk : k < 3) :
    ((dhem_RectifyOrbits sqrt Rebasis N dq_max t s stageNumber).1 ≠ 0 →
        (dhem_RectifyOrbits sqrt Rebasis N dq_max t s stageNumber).2.rectifiedArray
            (3 * i + k) = 1
          ∧ (dhem_RectifyOrbits sqrt Rebasis N dq_max t s stageNumber).2.rectifiedArray
            (3 * N + 3 * i + k) = 1)
      ∧ ((dhem_RectifyOrbits sqrt Rebasis N dq_max t s stageNumber).1 = 0 →
        (dhem_RectifyOrbits sqrt Rebasis N dq_max t s stageNumber).2.rectifiedArray
            (3 * i + k) = 0
          ∧ (dhem_RectifyOrbits sqrt Rebasis N dq_max t s stageNumber).2.rectifiedArray
            (3 * N + 3 * i + k) = 0)
      ∧ (someBodyTriggers sqrt N dq_max t s stageNumber →
        (dhem_RectifyOrbits sqrt Rebasis N dq_max t s stageNumber).2.rectifiedArray
            (3 * i + k) = 1
          ∧ (dhem_RectifyOrbits sqrt Rebasis N dq_max t s stageNumber).2.rectifiedArray
            (3 * N + 3 * i + k) = 1)
      ∧ (¬ someBodyTriggers sqrt N dq_max t s stageNumber →
        (dhem_RectifyOrbits sqrt Rebasis N dq_max t s stageNumber).2.rectifiedArray
            (3 * i + k) = 0
          ∧ (dhem_RectifyOrbits sqrt Rebasis N dq_max t s stageNumber).2.rectifiedArray
            (3 * N + 3 * i + k) = 0) := by
  have hidx : 3 * N + 3 * i + k = N * 3 + 3 * i + k := by omega
  rw [hidx]
  have hcount := dhem_RectifyOrbits_count_triggers sqrt Rebasis N dq_max t s stageNumber
  have hyes : someBodyTriggers sqrt N dq_max t s stageNumber →
      (dhem_RectifyOrbits sqrt Rebasis N dq_max t s stageNumber).2.rectifiedArray
          (3 * i + k) = 1
        ∧ (dhem_RectifyOrbits sqrt Rebasis N dq_max t s stageNumber).2.rectifiedArray
          (N * 3 + 3 * i + k) = 1 := by
    intro htrig
    have hflag : rectifyFlag sqrt N dq_max t s stageNumber ≠ 0 := by
      rw [(rectifyFlag_eq sqrt N dq_max t s stageNumber).1 htrig]
      decide
    exact ((dhem_RectifyOrbits_schedule sqrt Rebasis N dq_max t s stageNumber hflag).2 i hi
      (by omega)).2 k hk
  have hnot : ¬ someBodyTriggers sqrt N dq_max t s stageNumber →
      (dhem_RectifyOrbits sqrt Rebasis N dq_max t s stageNumber).2.rectifiedArray
          (3 * i + k) = 0
        ∧ (dhem_RectifyOrbits sqrt Rebasis N dq_max t s stageNumber).2.rectifiedArray
          (N * 3 + 3 * i + k) = 0 := by
    intro hno
    rw [dhem_RectifyOrbits_idle sqrt Rebasis N dq_max t s stageNumber
      ((rectifyFlag_eq sqrt N dq_max t s stageNumber).2 hno)]
    exact rectifyScan_array_zero sqrt N t dq_max _ _ _ _ _ 1 (N - 1) _
      (fun ⟨b, h1, h2, h3⟩ => hno ⟨b, h1, by omega, h3⟩) i k hi (by omega) hk
  refine ⟨?_, ?_, hyes, hnot⟩
  · intro hne
    by_cases htrig : someBodyTriggers sqrt N dq_max t s stageNumber
    · exact hyes htrig
    · exact absurd (hcount.2 htrig) hne
  · intro hzero
    by_cases htrig : someBodyTriggers sqrt N dq_max t s stageNumber
    · have hN := hcount.1 htrig
      omega
    · exact hnot htrig

/-- C14, at concrete inputs with two bodies.  Body `1` overdue at `t = 1`: the call
rectifies and the flag `3*1+0` is set.  Every reference entry zero and body `1` displaced by
`dQ[3] = 1` at `t = 0` with `dq_max = 1/2`: the ratio is `+inf`, the call rectifies and the
flag is set.  The same state without the displacement: the ratio is a NaN, the call does not
rectify and the flag is `0`. -/
theorem C14_rectified_flags_witness :
    (dhem_RectifyOrbits (fun x => x) (fun u _ _ _ _ => u) 2 0 1
        (residualState ℚ (fun _ => 0)) 8).2.rectifiedArray (3 * 1 + 0) = 1
      ∧ (dhem_RectifyOrbits (fun x => x) (fun u _ _ _ _ => u) 2 (1 / 2) 0
        (deviationState ℚ 0 (single ℚ 3 1)) 8).2.rectifiedArray (3 * 1 + 0) = 1
      ∧ (dhem_RectifyOrbits (fun x => x) (fun u _ _ _ _ => u) 2 (1 / 2) 0
        (deviationState ℚ 0 (fun _ => 0)) 8).2.rectifiedArray (3 * 1 + 0) = 0 :=
  ⟨((C14_rectified_flags (fun x => x) (fun u _ _ _ _ => u) 2 0 1
      (residualState ℚ (fun _ => 0)) 8 1 0 (by decide) (by decide) (by decide)).2.2.1
      ⟨1, by decide, by decide, Or.inl (by norm_num [residualState, constDhem])⟩).1,
    ((C14_rectified_flags (fun x => x) (fun u _ _ _ _ => u) 2 (1 / 2) 0
      (deviationState ℚ 0 (single ℚ 3 1)) 8 1 0 (by decide) (by decide) (by decide)).2.2.1
      ⟨1, by decide, by decide,
        Or.inr (by norm_num [deviationState, constDhem, NORM, single, divDouble,
          gtDouble])⟩).1,
    ((C14_rectified_flags (fun x => x) (fun u _ _ _ _ => u) 2 (1 / 2) 0
      (deviationState ℚ 0 (fun _ => 0)) 8 1 0 (by decide) (by decide) (by decide)).2.2.2
      (by
        rintro ⟨i, hi, hiN, h3⟩
        have hi1 : i = 1 := by omega
        subst hi1
        rcases h3 with h3 | h3
        · norm_num [deviationState, constDhem] at h3
        · norm_num [deviationState, constDhem, NORM, divDouble, gtDouble] at h3)).1⟩

end RectifySchedule

/-! ### The step driver -/

section DriverTheorems

variable {α : Type} [LinearOrderedField α] {κ ρ : Type}

/-- What `ClearRectifiedBFields` leaves in entry `x` of the seven arrays, and the flag
array after the call. -/
theorem ClearRectifiedBFields_apply (stateVectorLength : Nat) (B : controlVars α)
    (ra : Nat → Nat) :
    (ClearRectifiedBFields stateVectorLength B ra).2 = ra
      ∧ ∀ x,
        (ClearRectifiedBFields stateVectorLength B ra).1.p0 x
            = (if x < stateVectorLength ∧ ra x > 0 then 0 else B.p0 x)
          ∧ (ClearRectifiedBFields stateVectorLength B ra).1.p1 x
            = (if x < stateVectorLength ∧ ra x > 0 then 0 else B.p1 x)
          ∧ (ClearRectifiedBFields stateVectorLength B ra).1.p2 x
            = (if x < stateVectorLength ∧ ra x > 0 then 0 else B.p2 x)
          ∧ (ClearRectifiedBFields stateVectorLength B ra).1.p3 x
            = (if x < stateVectorLength ∧ ra x > 0 then 0 else B.p3 x)
          ∧ (ClearRectifiedBFields stateVectorLength B ra).1.p4 x
            = (if x < stateVectorLength ∧ ra x > 0 then 0 else B.p4 x)
          ∧ (ClearRectifiedBFields stateVectorLength B ra).1.p5 x
            = (if x < stateVectorLength ∧ ra x > 0 then 0 else B.p5 x)
          ∧ (ClearRectifiedBFields stateVectorLength B ra).1.p6 x
            = (if x < stateVectorLength ∧ ra x > 0 then 0 else B.p6 x) := by
  unfold ClearRectifiedBFields
  exact forLoop_invariant _
    (fun c (st : controlVars α × (Nat → Nat)) =>
      st.2 = ra ∧ ∀ x,
        st.1.p0 x = (if x < c ∧ ra x > 0 then 0 else B.p0 x)
          ∧ st.1.p1 x = (if x < c ∧ ra x > 0 then 0 else B.p1 x)
          ∧ st.1.p2 x = (if x < c ∧ ra x > 0 then 0 else B.p2 x)
          ∧ st.1.p3 x = (if x < c ∧ ra x > 0 then 0 else B.p3 x)
          ∧ st.1.p4 x = (if x < c ∧ ra x > 0 then 0 else B.p4 x)
          ∧ st.1.p5 x = (if x < c ∧ ra x > 0 then 0 else B.p5 x)
          ∧ st.1.p6 x = (if x < c ∧ ra x > 0 then 0 else B.p6 x))
    0 stateVectorLength (B, ra)
    (by
      refine ⟨rfl, ?_⟩
      intro x
      have h : ¬ (x < 0 ∧ ra x > 0) := by omega
      refine ⟨?_, ?_, ?_, ?_, ?_, ?_, ?_⟩ <;> rw [if_neg h])
    (by
      intro c st _ hinv
      obtain ⟨h2, hall⟩ := hinv
      simp only [Nat.zero_add, h2]
      by_cases hpos : ra c > 0
      · rw [if_pos hpos]
        refine ⟨rfl, ?_⟩
        intro x
        obtain ⟨h0, h1, h2', h3, h4, h5, h6⟩ := hall x
        by_cases hx : x = c
        · subst hx
          have hc : x < x + 1 ∧ ra x > 0 := ⟨by omega, hpos⟩
          simp only [if_pos hc, Function.update_same, and_self]
        · have hiff : (x < c + 1 ∧ ra x > 0) ↔ (x < c ∧ ra x > 0) := by
            constructor
            · rintro ⟨ha, hb⟩
              exact ⟨by omega, hb⟩
            · rintro ⟨ha, hb⟩
              exact ⟨by omega, hb⟩
          simp only [hiff, Function.update_noteq hx]
          exact ⟨h0, h1, h2', h3, h4, h5, h6⟩
      · rw [if_neg hpos]
        refine ⟨h2, ?_⟩
        intro x
        have hiff : (x < c + 1 ∧ ra x > 0) ↔ (x < c ∧ ra x > 0) := by
          constructor
          · rintro ⟨ha, hb⟩
            have : x ≠ c := fun hxc => hpos (hxc ▸ hb)
            exact ⟨by omega, hb⟩
          · rintro ⟨ha, hb⟩
            exact ⟨by omega, hb⟩
        simp only [hiff]
        exact hall x)

/-- C16: for every index `i < stateVectorLength`, `ClearRectifiedBFields` sets all seven
coefficient orders `p0[i] .. p6[i]` of the given B-field to `0` if `rectifiedArray[i] > 0`
and leaves all seven unchanged if `rectifiedArray[i] = 0`; the flag array is not
modified. -/
theorem C16_clearing_rectified_coefficients (stateVectorLength : Nat) (B : controlVars α)
    (rectifiedArray : Nat → Nat) (i : Nat) (hi : i < stateVectorLength) :
    (rectifiedArray i > 0 →
        (ClearRectifiedBFields stateVectorLength B rectifiedArray).1.p0 i = 0
          ∧ (ClearRectifiedBFields stateVectorLength B rectifiedArray).1.p1 i = 0
          ∧ (ClearRectifiedBFields stateVectorLength B rectifiedArray).1.p2 i = 0
          ∧ (ClearRectifiedBFields stateVectorLength B rectifiedArray).1.p3 i = 0
          ∧ (ClearRectifiedBFields stateVectorLength B rectifiedArray).1.p4 i = 0
          ∧ (ClearRectifiedBFields stateVectorLength B rectifiedArray).1.p5 i = 0
          ∧ (ClearRectifiedBFields stateVectorLength B rectifiedArray).1.p6 i = 0)
      ∧ (rectifiedArray i = 0 →
        (ClearRectifiedBFields stateVectorLength B rectifiedArray).1.p0 i = B.p0 i
          ∧ (ClearRectifiedBFields stateVectorLength B rectifiedArray).1.p1 i = B.p1 i
          ∧ (ClearRectifiedBFields stateVectorLength B rectifiedArray).1.p2 i = B.p2 i
          ∧ (ClearRectifiedBFields stateVectorLength B rectifiedArray).1.p3 i = B.p3 i
          ∧ (ClearRectifiedBFields stateVectorLength B rectifiedArray).1.p4 i = B.p4 i
          ∧ (ClearRectifiedBFields stateVectorLength B rectifiedArray).1.p5 i = B.p5 i
          ∧ (ClearRectifiedBFields stateVectorLength B rectifiedArray).1.p6 i = B.p6 i)
      ∧ (ClearRectifiedBFields stateVectorLength B rectifiedArray).2 = rectifiedArray := by
  obtain ⟨hra, hall⟩ := ClearRectifiedBFields_apply stateVectorLength B rectifiedArray
  refine ⟨?_, ?_, hra⟩
  · intro hpos
    have h := hall i
    simp only [if_pos (And.intro hi hpos)] at h
    exact h
  · intro hzero
    have h := hall i
    have hc : ¬ (i < stateVectorLength ∧ rectifiedArray i > 0) := by omega
    simp only [if_neg hc] at h
    exact h

/-- C16, at a concrete input: twelve entries, all flagged, coefficients all `1`. -/
theorem C16_clearing_rectified_coefficients_witness :
    (ClearRectifiedBFields 12 (constControlVars ℚ 1) (fun _ => 1)).1.p0 3 = 0 :=
  ((C16_clearing_rectified_coefficients 12 (constControlVars ℚ 1) (fun _ => 1) 3
    (by decide)).1 (by decide)).1

/-- The derivative loop writes `Xosc_dotArr` only. -/
theorem calcOscDerivatives_frame (sqrt : α → α) (N : Nat) (G : α) (z_stagesPerStep : Nat)
    (s : TesState α κ) :
    (calcOscDerivatives sqrt N G z_stagesPerStep s).uVars = s.uVars
      ∧ (calcOscDerivatives sqrt N G z_stagesPerStep s).dhem.XoscArr = s.dhem.XoscArr
      ∧ (calcOscDerivatives sqrt N G z_stagesPerStep s).dhem.XoscPredArr
        = s.dhem.XoscPredArr := by
  unfold calcOscDerivatives
  exact forLoop_invariant _
    (fun _ (s' : TesState α κ) =>
      s'.uVars = s.uVars ∧ s'.dhem.XoscArr = s.dhem.XoscArr
        ∧ s'.dhem.XoscPredArr = s.dhem.XoscPredArr)
    0 z_stagesPerStep s ⟨rfl, rfl, rfl⟩
    (by
      intro c s' _ hinv
      exact hinv)

/-- The count of `Radau_SingleStep` is the count returned by `dhem_RectifyOrbits` for the
final stage. -/
theorem Radau_SingleStep_rectified_count (ext : Externals α κ ρ) (host : Host α)
    (st : StepState α κ ρ) (z_t dt : α) :
    (Radau_SingleStep_rectified ext host st z_t dt).1
      = (dhem_RectifyOrbits ext.sqrt ext.Rebasis host.N host.dq_max z_t st.tes
          FINAL_STAGE_INDEX).1 := rfl

/-- The integrator state of `Radau_SingleStep` after line 54: the propagator has been asked
to write the "rebasis" set with `z_rebasis = 1`, and the derivatives have been computed. -/
theorem Radau_SingleStep_propagated_tes (ext : Externals α κ ρ) (host : Host α)
    (st : StepState α κ ρ) (z_t dt : α) :
    (Radau_SingleStep_propagated ext host st z_t dt).tes
      = calcOscDerivatives ext.sqrt host.N host.G OSCULATING_ORBIT_SLOTS
          (ext.Propagate (Radau_SingleStep_rectified ext host st z_t dt).2.tes
            OscSet.rebasis z_t dt hArr OSCULATING_ORBIT_SLOTS 1) := rfl

/-- C17 (as stated, refuted): two bodies, every array zero, `t = 0`: no body triggers and
`rectificationCount` is `0`, and yet the propagator is asked to write the "rebasis" set (it
records `1`), not the "prediction" set. -/
theorem C17_rebasis_set_without_rectification :
    (Radau_SingleStep_rectified recordingExternals twoBodyHost idleStepState 0 1).1 = 0
      ∧ (Radau_SingleStep_propagated recordingExternals twoBodyHost idleStepState 0 1).tes.uVars
        = 1 := by
  constructor
  · rw [Radau_SingleStep_rectified_count]
    apply (dhem_RectifyOrbits_count_triggers _ _ _ _ _ _ _).2
    rintro ⟨i, h1, h2, h3⟩
    have h2' : i < 2 := h2
    have hi : i = 1 := by omega
    subst hi
    rcases h3 with h3 | h3
    · norm_num [idleStepState, idleState, constDhem] at h3
    · norm_num [idleStepState, idleState, constDhem, NORM, recordingExternals, twoBodyHost,
        divDouble, gtDouble] at h3
  · rw [Radau_SingleStep_propagated_tes, (calcOscDerivatives_frame _ _ _ _ _).1]
    rfl

/-- C17 (amended): in `Radau_SingleStep` the propagator is always called with
`z_rebasis = 1` and asked to write the "rebasis" set, whether or not the rectification of
this step rectified a body; `dhem_CalcOscOrbitsForAllStages` passes the "rebasis" set for
every `z_rebasis ≠ 0` and the "prediction" set for `z_rebasis = 0`. -/
theorem C17_reference_set_selection (ext : Externals α κ ρ) (host : Host α)
    (st : StepState α κ ρ) (z_t dt : α) :
    (Radau_SingleStep_propagated ext host st z_t dt).tes
        = calcOscDerivatives ext.sqrt host.N host.G OSCULATING_ORBIT_SLOTS
            (ext.Propagate (Radau_SingleStep_rectified ext host st z_t dt).2.tes
              OscSet.rebasis z_t dt hArr OSCULATING_ORBIT_SLOTS 1)
      ∧ (∀ (s : TesState α κ) (t0 h : α) (hA : Nat → α) (n z : Nat), z ≠ 0 →
          dhem_CalcOscOrbitsForAllStages ext.sqrt ext.Propagate host.N host.G s t0 h hA n z
            = calcOscDerivatives ext.sqrt host.N host.G n
                (ext.Propagate s OscSet.rebasis t0 h hA n z))
      ∧ (∀ (s : TesState α κ) (t0 h : α) (hA : Nat → α) (n : Nat),
          dhem_CalcOscOrbitsForAllStages ext.sqrt ext.Propagate host.N host.G s t0 h hA n 0
            = calcOscDerivatives ext.sqrt host.N host.G n
                (ext.Propagate s OscSet.prediction t0 h hA n 0)) := by
  refine ⟨Radau_SingleStep_propagated_tes ext host st z_t dt, ?_, ?_⟩
  · intro s t0 h hA n z hz
    unfold dhem_CalcOscOrbitsForAllStages
    simp only [if_pos hz]
  · intro s t0 h hA n
    rfl

end DriverTheorems

/-! ### The Hamiltonian -/

section HamiltonianTheorems

variable {α : Type} [LinearOrderedField α]

/-- A loop that adds `δ i` to a component of its state in round `i` adds the sum of the
`δ i` to it. -/
theorem forLoop_acc {σ β : Type} [AddCommMonoid β] (body : Nat → σ → σ) (proj : σ → β)
    (δ : Nat → β) (h : ∀ i s, proj (body i s) = proj s + δ i) (lo count : Nat) (s : σ) :
    proj (forLoop body lo count s) = proj s + ∑ c in Finset.range count, δ (lo + c) := by
  induction count with
  | zero => simp [forLoop]
  | succ c ih => rw [forLoop_succ_last, h, ih, Finset.sum_range_succ, add_assoc]

/-- Lines 204-213 in closed form. -/
theorem hamiltonian_bodies_apply (sqrt : α → α) (N : Nat) (G : α) (m Q P : Nat → α)
    (st : α × (Nat → α)) :
    (hamiltonian_bodies sqrt N G m Q P st).1
        = st.1 + ∑ i in Finset.Ico 1 N,
            (NORM sqrt P i * NORM sqrt P i / (2 * m i) - G * m 0 * m i / NORM sqrt Q i)
      ∧ ∀ k, k < 3 →
        (hamiltonian_bodies sqrt N G m Q P st).2 k
          = st.2 k + ∑ i in Finset.Ico 1 N, P (3 * i + k) := by
  constructor
  · unfold hamiltonian_bodies
    rw [forLoop_acc _ (fun st : α × (Nat → α) => st.1)
      (fun i => NORM sqrt P i * NORM sqrt P i / (2 * m i) - G * m 0 * m i / NORM sqrt Q i),
      sum_range_eq_sum_Ico
        (fun i => NORM sqrt P i * NORM sqrt P i / (2 * m i) - G * m 0 * m i / NORM sqrt Q i)
        1 N]
    intro i s
    simp only []
    ring
  · intro k hk
    unfold hamiltonian_bodies
    rw [forLoop_acc _ (fun st : α × (Nat → α) => st.2 k) (fun i => P (3 * i + k)),
      sum_range_eq_sum_Ico (fun i => P (3 * i + k)) 1 N]
    intro i s
    interval_cases k <;> simp [Function.update_apply]

/-- Lines 217-227 in closed form. -/
theorem hamiltonian_pairs_apply (sqrt : α → α) (N : Nat) (G : α) (m Q : Nat → α)
    (st : α × (Nat → α)) :
    (hamiltonian_pairs sqrt N G m Q st).1
      = st.1 + ∑ i in Finset.Ico 1 N, ∑ j in Finset.Ico (i + 1) N,
          -(G * m i * m j
            / sqrt ((Q (3 * i) - Q (3 * j)) * (Q (3 * i) - Q (3 * j))
              + (Q (3 * i + 1) - Q (3 * j + 1)) * (Q (3 * i + 1) - Q (3 * j + 1))
              + (Q (3 * i + 2) - Q (3 * j + 2)) * (Q (3 * i + 2) - Q (3 * j + 2)))) := by
  unfold hamiltonian_pairs
  rw [forLoop_acc _ (fun st : α × (Nat → α) => st.1)
    (fun i => ∑ j in Finset.Ico (i + 1) N,
      -(G * m i * m j
        / sqrt ((Q (3 * i) - Q (3 * j)) * (Q (3 * i) - Q (3 * j))
          + (Q (3 * i + 1) - Q (3 * j + 1)) * (Q (3 * i + 1) - Q (3 * j + 1))
          + (Q (3 * i + 2) - Q (3 * j + 2)) * (Q (3 * i + 2) - Q (3 * j + 2))))),
    sum_range_eq_sum_Ico (fun i => ∑ j in Finset.Ico (i + 1) N,
      -(G * m i * m j
        / sqrt ((Q (3 * i) - Q (3 * j)) * (Q (3 * i) - Q (3 * j))
          + (Q (3 * i + 1) - Q (3 * j + 1)) * (Q (3 * i + 1) - Q (3 * j + 1))
          + (Q (3 * i + 2) - Q (3 * j + 2)) * (Q (3 * i + 2) - Q (3 * j + 2))))) 1 N]
  intro i s
  rw [forLoop_acc _ (fun st : α × (Nat → α) => st.1)
    (fun j => -(G * m i * m j
        / sqrt ((Q (3 * i) - Q (3 * j)) * (Q (3 * i) - Q (3 * j))
          + (Q (3 * i + 1) - Q (3 * j + 1)) * (Q (3 * i + 1) - Q (3 * j + 1))
          + (Q (3 * i + 2) - Q (3 * j + 2)) * (Q (3 * i + 2) - Q (3 * j + 2))))),
    sum_range_eq_sum_Ico (fun j => -(G * m i * m j
        / sqrt ((Q (3 * i) - Q (3 * j)) * (Q (3 * i) - Q (3 * j))
          + (Q (3 * i + 1) - Q (3 * j + 1)) * (Q (3 * i + 1) - Q (3 * j + 1))
          + (Q (3 * i + 2) - Q (3 * j + 2)) * (Q (3 * i + 2) - Q (3 * j + 2))))) (i + 1) N]
  intro j s'
  simp [NORM, Function.update_apply, sub_eq_add_neg]

/-- The value of `dhem_CalculateHamiltonian` in closed form, in the order in which the code
accumulates it. -/
theorem dhem_CalculateHamiltonian_closed (sqrt : α → α) (N : Nat) (G : α) (m Q P : Nat → α) :
    dhem_CalculateHamiltonian sqrt N G m Q P
      = ∑ i in Finset.Ico 1 N,
            (NORM sqrt P i * NORM sqrt P i / (2 * m i) - G * m 0 * m i / NORM sqrt Q i)
        + 1 / (2 * m 0)
          * sqrt ((∑ i in Finset.Ico 1 N, P (3 * i + 0)) * (∑ i in Finset.Ico 1 N, P (3 * i + 0))
            + (∑ i in Finset.Ico 1 N, P (3 * i + 1)) * (∑ i in Finset.Ico 1 N, P (3 * i + 1))
            + (∑ i in Finset.Ico 1 N, P (3 * i + 2)) * (∑ i in Finset.Ico 1 N, P (3 * i + 2)))
          * sqrt ((∑ i in Finset.Ico 1 N, P (3 * i + 0)) * (∑ i in Finset.Ico 1 N, P (3 * i + 0))
            + (∑ i in Finset.Ico 1 N, P (3 * i + 1)) * (∑ i in Finset.Ico 1 N, P (3 * i + 1))
            + (∑ i in Finset.Ico 1 N, P (3 * i + 2)) * (∑ i in Finset.Ico 1 N, P (3 * i + 2)))
        + ∑ i in Finset.Ico 1 N, ∑ j in Finset.Ico (i + 1) N,
          -(G * m i * m j
            / sqrt ((Q (3 * i) - Q (3 * j)) * (Q (3 * i) - Q (3 * j))
              + (Q (3 * i + 1) - Q (3 * j + 1)) * (Q (3 * i + 1) - Q (3 * j + 1))
              + (Q (3 * i + 2) - Q (3 * j + 2)) * (Q (3 * i + 2) - Q (3 * j + 2)))) := by
  unfold dhem_CalculateHamiltonian
  simp only []
  rw [hamiltonian_pairs_apply]
  have hb := hamiltonian_bodies_apply sqrt N G m Q P (0, fun _ => 0)
  have h0 := hb.2 0 (by decide)
  have h1 := hb.2 1 (by decide)
  have h2 := hb.2 2 (by decide)
  simp only [zero_add] at h0 h1 h2
  simp only [NORM, Nat.mul_zero, Nat.zero_add, hb.1, h0, h1, h2, zero_add, Nat.add_zero]

/-- The norm of a body only depends on the entries of that body. -/
theorem NORM_congr (sqrt : α → α) (x y : Nat → α) (i : Nat)
    (h : ∀ l, l < 3 → x (3 * i + l) = y (3 * i + l)) : NORM sqrt x i = NORM sqrt y i := by
  unfold NORM
  have h0 := h 0 (by decide)
  have h1 := h 1 (by decide)
  have h2 := h 2 (by decide)
  simp only [Nat.add_zero] at h0
  rw [h0, h1, h2]

/-- The value of `dhem_CalculateHamiltonian` only depends on the entries of `Q` and `P` from
index `3` on. -/
theorem dhem_CalculateHamiltonian_congr (sqrt : α → α) (N : Nat) (G : α)
    (m Q P Q' P' : Nat → α) (hQ : ∀ x, 3 ≤ x → Q' x = Q x) (hP : ∀ x, 3 ≤ x → P' x = P x) :
    dhem_CalculateHamiltonian sqrt N G m Q' P' = dhem_CalculateHamiltonian sqrt N G m Q P := by
  rw [dhem_CalculateHamiltonian_closed, dhem_CalculateHamiltonian_closed]
  have hsum : ∀ k, ∑ i in Finset.Ico 1 N, P' (3 * i + k) = ∑ i in Finset.Ico 1 N, P (3 * i + k) := by
    intro k
    apply Finset.sum_congr rfl
    intro i hi
    rw [Finset.mem_Ico] at hi
    exact hP _ (by omega)
  have hA : ∑ i in Finset.Ico 1 N,
        (NORM sqrt P' i * NORM sqrt P' i / (2 * m i) - G * m 0 * m i / NORM sqrt Q' i)
      = ∑ i in Finset.Ico 1 N,
        (NORM sqrt P i * NORM sqrt P i / (2 * m i) - G * m 0 * m i / NORM sqrt Q i) := by
    apply Finset.sum_congr rfl
    intro i hi
    rw [Finset.mem_Ico] at hi
    rw [NORM_congr sqrt P' P i (fun l _ => hP _ (by omega)),
      NORM_congr sqrt Q' Q i (fun l _ => hQ _ (by omega))]
  have hC : ∑ i in Finset.Ico 1 N, ∑ j in Finset.Ico (i + 1) N,
        -(G * m i * m j
          / sqrt ((Q' (3 * i) - Q' (3 * j)) * (Q' (3 * i) - Q' (3 * j))
            + (Q' (3 * i + 1) - Q' (3 * j + 1)) * (Q' (3 * i + 1) - Q' (3 * j + 1))
            + (Q' (3 * i + 2) - Q' (3 * j + 2)) * (Q' (3 * i + 2) - Q' (3 * j + 2))))
      = ∑ i in Finset.Ico 1 N, ∑ j in Finset.Ico (i + 1) N,
        -(G * m i * m j
          / sqrt ((Q (3 * i) - Q (3 * j)) * (Q (3 * i) - Q (3 * j))
            + (Q (3 * i + 1) - Q (3 * j + 1)) * (Q (3 * i + 1) - Q (3 * j + 1))
            + (Q (3 * i + 2) - Q (3 * j + 2)) * (Q (3 * i + 2) - Q (3 * j + 2)))) := by
    apply Finset.sum_congr rfl
    intro i hi
    apply Finset.sum_congr rfl
    intro j hj
    rw [Finset.mem_Ico] at hi hj
    rw [hQ (3 * i) (by omega), hQ (3 * i + 1) (by omega), hQ (3 * i + 2) (by omega),
      hQ (3 * j) (by omega), hQ (3 * j + 1) (by omega), hQ (3 * j + 2) (by omega)]
  rw [hA, hC, hsum 0, hsum 1, hsum 2]

/-- The pair terms of the specification, split into the pairs with the central body and
the pairs of non-central bodies, as the code computes them. -/
theorem hamiltonianSpec_pairs (sqrt : α → α) (N : Nat) (G : α) (m Q : Nat → α) :
    ∑ i in Finset.range N, ∑ j in Finset.Ico (i + 1) N,
        G * m i * m j / sepNorm sqrt (centred Q) j i
      = ∑ j in Finset.Ico 1 N, G * m 0 * m j / NORM sqrt Q j
        + ∑ i in Finset.Ico 1 N, ∑ j in Finset.Ico (i + 1) N,
          G * m i * m j
            / sqrt ((Q (3 * i) - Q (3 * j)) * (Q (3 * i) - Q (3 * j))
              + (Q (3 * i + 1) - Q (3 * j + 1)) * (Q (3 * i + 1) - Q (3 * j + 1))
              + (Q (3 * i + 2) - Q (3 * j + 2)) * (Q (3 * i + 2) - Q (3 * j + 2))) := by
  have hc : ∀ x, 3 ≤ x → centred Q x = Q x := by
    intro x hx
    unfold centred
    rw [if_neg (by omega)]
  have hz : ∀ x, x < 3 → centred Q x = 0 := by
    intro x hx
    unfold centred
    rw [if_pos hx]
  have hinner : ∀ i, 1 ≤ i → ∑ j in Finset.Ico (i + 1) N,
        G * m i * m j / sepNorm sqrt (centred Q) j i
      = ∑ j in Finset.Ico (i + 1) N,
          G * m i * m j
            / sqrt ((Q (3 * i) - Q (3 * j)) * (Q (3 * i) - Q (3 * j))
              + (Q (3 * i + 1) - Q (3 * j + 1)) * (Q (3 * i + 1) - Q (3 * j + 1))
              + (Q (3 * i + 2) - Q (3 * j + 2)) * (Q (3 * i + 2) - Q (3 * j + 2))) := by
    intro i hi
    apply Finset.sum_congr rfl
    intro j hj
    rw [Finset.mem_Ico] at hj
    unfold sepNorm
    simp only [Nat.add_zero, pow_two]
    rw [hc (3 * i) (by omega), hc (3 * i + 1) (by omega), hc (3 * i + 2) (by omega),
      hc (3 * j) (by omega), hc (3 * j + 1) (by omega), hc (3 * j + 2) (by omega)]
  have hzero : ∑ j in Finset.Ico (0 + 1) N, G * m 0 * m j / sepNorm sqrt (centred Q) j 0
      = ∑ j in Finset.Ico 1 N, G * m 0 * m j / NORM sqrt Q j := by
    apply Finset.sum_congr rfl
    intro j hj
    rw [Finset.mem_Ico] at hj
    unfold sepNorm NORM
    simp only [Nat.mul_zero, Nat.zero_add, Nat.add_zero]
    rw [hz 0 (by decide), hz 1 (by decide), hz 2 (by decide),
      hc (3 * j) (by omega), hc (3 * j + 1) (by omega), hc (3 * j + 2) (by omega)]
    congr 2
    ring
  rcases Nat.eq_zero_or_pos N with hN | hN
  · subst hN
    simp
  · rw [Finset.range_eq_Ico, Finset.sum_eq_sum_Ico_succ_bot hN, hzero]
    congr 1
    apply Finset.sum_congr rfl
    intro i hi
    rw [Finset.mem_Ico] at hi
    exact hinner i (by omega)

/-- C19: for every `N` and every state, with a `sqrt` that is the exact square root,
`dhem_CalculateHamiltonian` returns the sum over the non-central bodies of
`|P_i|^2 / (2 m_i)`, plus `|sum of the P_i|^2 / (2 m_0)`, minus `G m_i m_j / |Q_i - Q_j|`
for every pair `0 ≤ i < j < N` counted once with the central body at the origin; and the
returned value does not depend on the entries `0..2` of `Q` and `P` (for any `sqrt`). -/
theorem C19_hamiltonian_definition (sqrt : α → α)
    (hs : ∀ x, 0 ≤ x → sqrt x * sqrt x = x) (N : Nat) (G : α) (m Q P : Nat → α) :
    dhem_CalculateHamiltonian sqrt N G m Q P = hamiltonianSpec sqrt N G m Q P
      ∧ ∀ Q' P' : Nat → α, (∀ x, 3 ≤ x → Q' x = Q x) → (∀ x, 3 ≤ x → P' x = P x) →
        dhem_CalculateHamiltonian sqrt N G m Q' P'
          = dhem_CalculateHamiltonian sqrt N G m Q P := by
  refine ⟨?_, fun Q' P' hQ hP => dhem_CalculateHamiltonian_congr sqrt N G m Q P Q' P' hQ hP⟩
  rw [dhem_CalculateHamiltonian_closed]
  unfold hamiltonianSpec
  rw [hamiltonianSpec_pairs]
  have hkin : ∀ i, NORM sqrt P i * NORM sqrt P i = normSq P i := by
    intro i
    have hnn : 0 ≤ normSq P i := by
      unfold normSq
      nlinarith [mul_self_nonneg (P (3 * i)), mul_self_nonneg (P (3 * i + 1)),
        mul_self_nonneg (P (3 * i + 2))]
    exact hs _ hnn
  have hrec := hs ((∑ i in Finset.Ico 1 N, P (3 * i + 0)) * (∑ i in Finset.Ico 1 N, P (3 * i + 0))
      + (∑ i in Finset.Ico 1 N, P (3 * i + 1)) * (∑ i in Finset.Ico 1 N, P (3 * i + 1))
      + (∑ i in Finset.Ico 1 N, P (3 * i + 2)) * (∑ i in Finset.Ico 1 N, P (3 * i + 2)))
    (by nlinarith [mul_self_nonneg (∑ i in Finset.Ico 1 N, P (3 * i + 0)),
      mul_self_nonneg (∑ i in Finset.Ico 1 N, P (3 * i + 1)),
      mul_self_nonneg (∑ i in Finset.Ico 1 N, P (3 * i + 2))])
  simp only [hkin, Finset.sum_sub_distrib, Finset.sum_neg_distrib]
  rw [mul_assoc, hrec]
  ring

/-- C19, at a concrete input over the reals with the real square root: three bodies of unit
mass with all entries `1`. -/
theorem C19_hamiltonian_definition_witness :
    dhem_CalculateHamiltonian Real.sqrt 3 1 (fun _ => 1) (fun _ => 1) (fun _ => 1)
      = hamiltonianSpec Real.sqrt 3 1 (fun _ => 1) (fun _ => 1) (fun _ => 1) :=
  (C19_hamiltonian_definition Real.sqrt (fun _ hx => Real.mul_self_sqrt hx)
    3 1 (fun _ => 1) (fun _ => 1) (fun _ => 1)).1

end HamiltonianTheorems

/-! ### Compensated summation and repeated rectification -/

section Compensated

variable {α : Type} [LinearOrderedField α] {κ : Type}

/-- A sequence of calls from a zero carry, in exact arithmetic. -/
theorem add_cs_seq_exact (incs : List α) (out : α) :
    add_cs_seq out 0 incs = (out + incs.sum, 0) := by
  unfold add_cs_seq
  induction incs generalizing out with
  | nil => simp
  | cons a l ih =>
    rw [List.foldl_cons, add_cs_exact, ih, List.sum_cons]
    simp only [Prod.mk.injEq, and_true]
    ring

/-- C21: for every accumulator `out`, carry `cs` and increment `inp`, the values after
`add_cs` satisfy `out' - cs' = (out - cs) + inp`; in exact arithmetic `cs' = 0` and
`out' = out + inp - cs`; and every sequence of `add_cs` calls that starts from carry `0`
leaves the accumulator equal to the initial value plus the plain sum of the increments
(and the carry zero). -/
theorem C21_compensated_add_invariant (out cs inp : α) :
    (add_cs out cs inp).1 - (add_cs out cs inp).2 = (out - cs) + inp
      ∧ (add_cs out cs inp).2 = 0
      ∧ (add_cs out cs inp).1 = out + inp - cs
      ∧ ∀ incs : List α, (add_cs_seq out 0 incs).1 = out + incs.sum
          ∧ (add_cs_seq out 0 incs).2 = 0 := by
  rw [add_cs_exact]
  refine ⟨by ring, rfl, rfl, ?_⟩
  intro incs
  rw [add_cs_seq_exact]
  exact ⟨rfl, rfl⟩

/-- "No body triggers", in terms of the trigger test of each non-central body. -/
theorem not_someBodyTriggers_iff (sqrt : α → α) (N : Nat) (dq_max t : α) (s : TesState α κ)
    (stageNumber : Nat) :
    ¬ someBodyTriggers sqrt N dq_max t s stageNumber
      ↔ ∀ i, 1 ≤ i → i < N →
          t ≤ s.dhem.rectifyTimeArray i
            ∧ gtDouble (divDouble (NORM sqrt s.dQ i)
                (NORM sqrt (s.dhem.XoscArr stageNumber) i)) dq_max = false := by
  constructor
  · intro h i hi hiN
    constructor
    · by_contra hc
      exact h ⟨i, hi, hiN, Or.inl (not_le.mp hc)⟩
    · by_contra hc
      exact h ⟨i, hi, hiN, Or.inr (Bool.not_eq_false _ ▸ hc)⟩
  · rintro h ⟨i, hi, hiN, htrig⟩
    obtain ⟨h1, h2⟩ := h i hi hiN
    rcases htrig with ht | ht
    · exact absurd ht (not_lt.mpr h1)
    · rw [h2] at ht
      exact Bool.false_ne_true ht

/-- The state after a call in which no body triggers. -/
theorem dhem_RectifyOrbits_no_trigger (sqrt : α → α)
    (Rebasis : κ → (Nat → α) → (Nat → α) → α → Nat → κ) (N : Nat) (dq_max t : α)
    (s : TesState α κ) (stageNumber : Nat)
    (hno : ¬ someBodyTriggers sqrt N dq_max t s stageNumber) :
    (dhem_RectifyOrbits sqrt Rebasis N dq_max t s stageNumber).2
      = { rectifySelect s stageNumber with rectifiedArray :=
          (rectifyScan sqrt N t dq_max (rectifySelect s stageNumber).dhem.Qosc
            ((rectifySelect s stageNumber).dhem.Posc N) (rectifySelect s stageNumber).dQ
            (rectifySelect s stageNumber).dP (rectifySelect s stageNumber).dhem.rectifyTimeArray
            1 (N - 1) (rectifySelect s stageNumber).rectifiedArray).1 } :=
  dhem_RectifyOrbits_idle sqrt Rebasis N dq_max t s stageNumber
    ((rectifyFlag_eq sqrt N dq_max t s stageNumber).2 hno)

/-- C22: when no non-central body triggers (for all `1 ≤ i < N`, `t ≤ rectifyTimeArray[i]`
and the test `|dQ_i| / |Qosc_i| > dq_max` of the code is false, which for `|Qosc_i| ≠ 0` is
`|dQ_i| / |Qosc_i| ≤ dq_max` and for `|Qosc_i| = 0` requires `|dQ_i| = 0`),
`dhem_RectifyOrbits` returns `0` and leaves `Q`, `P`, `dQ`, `dP`, the Kepler-solver residuals
`uv_csq`, `uv_csp`, the collocation-solver residuals `cs_dq`, `cs_dp`, `rectifyTimeArray` and
`rectificationPeriod` unchanged, and it re-anchors no reference orbit: the Kepler solver's
state and the reference snapshots are unchanged. -/
theorem C22_non_rectifying_call_frame (sqrt : α → α)
    (Rebasis : κ → (Nat → α) → (Nat → α) → α → Nat → κ) (N : Nat) (dq_max t : α)
    (s : TesState α κ) (stageNumber : Nat)
    (hno : ∀ i, 1 ≤ i → i < N →
      t ≤ s.dhem.rectifyTimeArray i
        ∧ gtDouble (divDouble (NORM sqrt s.dQ i) (NORM sqrt (s.dhem.XoscArr stageNumber) i))
            dq_max = false) :
    (dhem_RectifyOrbits sqrt Rebasis N dq_max t s stageNumber).1 = 0
      ∧ (dhem_RectifyOrbits sqrt Rebasis N dq_max t s stageNumber).2.Q = s.Q
      ∧ (dhem_RectifyOrbits sqrt Rebasis N dq_max t s stageNumber).2.P = s.P
      ∧ (dhem_RectifyOrbits sqrt Rebasis N dq_max t s stageNumber).2.dQ = s.dQ
      ∧ (dhem_RectifyOrbits sqrt Rebasis N dq_max t s stageNumber).2.dP = s.dP
      ∧ (dhem_RectifyOrbits sqrt Rebasis N dq_max t s stageNumber).2.uv_csq = s.uv_csq
      ∧ (dhem_RectifyOrbits sqrt Rebasis N dq_max t s stageNumber).2.uv_csp = s.uv_csp
      ∧ (dhem_RectifyOrbits sqrt Rebasis N dq_max t s stageNumber).2.cs_dq = s.cs_dq
      ∧ (dhem_RectifyOrbits sqrt Rebasis N dq_max t s stageNumber).2.cs_dp = s.cs_dp
      ∧ (dhem_RectifyOrbits sqrt Rebasis N dq_max t s stageNumber).2.dhem.rectifyTimeArray
        = s.dhem.rectifyTimeArray
      ∧ (dhem_RectifyOrbits sqrt Rebasis N dq_max t s stageNumber).2.dhem.rectificationPeriod
        = s.dhem.rectificationPeriod
      ∧ (dhem_RectifyOrbits sqrt Rebasis N dq_max t s stageNumber).2.uVars = s.uVars
      ∧ (dhem_RectifyOrbits sqrt Rebasis N dq_max t s stageNumber).2.dhem.XoscArr
        = s.dhem.XoscArr
      ∧ (dhem_RectifyOrbits sqrt Rebasis N dq_max t s stageNumber).2.dhem.XoscPredArr
        = s.dhem.XoscPredArr := by
  have hnot := (not_someBodyTriggers_iff sqrt N dq_max t s stageNumber).2 hno
  refine ⟨(dhem_RectifyOrbits_count_triggers sqrt Rebasis N dq_max t s stageNumber).2 hnot, ?_⟩
  rw [dhem_RectifyOrbits_no_trigger sqrt Rebasis N dq_max t s stageNumber hnot]
  exact ⟨rfl, rfl, rfl, rfl, rfl, rfl, rfl, rfl, rfl, rfl, rfl, rfl, rfl⟩

/-- C22, at a concrete input: three bodies whose reference entries are all `1` (so that
`|Qosc_i| = 3` with the identity for `sqrt`), body `1` displaced by `dQ[3] = 1`, `t = 0`,
`dq_max = 1/2`.  The ratios are `1/3` and `0`, no body triggers, the count is `0` and the
deviation is kept. -/
theorem C22_non_rectifying_call_frame_witness :
    (∀ i, 1 ≤ i → i < 3 →
        (0 : ℚ) ≤ (deviationState ℚ 1 (single ℚ 3 1)).dhem.rectifyTimeArray i
          ∧ NORM (fun x => x) ((deviationState ℚ 1 (single ℚ 3 1)).dhem.XoscArr 8) i ≠ 0
          ∧ NORM (fun x => x) (deviationState ℚ 1 (single ℚ 3 1)).dQ i
              / NORM (fun x => x) ((deviationState ℚ 1 (single ℚ 3 1)).dhem.XoscArr 8) i
            ≤ 1 / 2)
      ∧ (dhem_RectifyOrbits (fun x => x) (fun u _ _ _ _ => u) 3 (1 / 2) 0
          (deviationState ℚ 1 (single ℚ 3 1)) 8).1 = 0
      ∧ (dhem_RectifyOrbits (fun x => x) (fun u _ _ _ _ => u) 3 (1 / 2) 0
          (deviationState ℚ 1 (single ℚ 3 1)) 8).2.dQ = single ℚ 3 1 := by
  have hratio : ∀ i, 1 ≤ i → i < 3 →
      (0 : ℚ) ≤ (deviationState ℚ 1 (single ℚ 3 1)).dhem.rectifyTimeArray i
        ∧ NORM (fun x => x) ((deviationState ℚ 1 (single ℚ 3 1)).dhem.XoscArr 8) i ≠ 0
        ∧ NORM (fun x => x) (deviationState ℚ 1 (single ℚ 3 1)).dQ i
            / NORM (fun x => x) ((deviationState ℚ 1 (single ℚ 3 1)).dhem.XoscArr 8) i
          ≤ 1 / 2 := by
    intro i hi hiN
    interval_cases i <;> norm_num [deviationState, constDhem, NORM, single]
  have h := C22_non_rectifying_call_frame (fun x => x) (fun u _ _ _ _ => u) 3 (1 / 2) 0
    (deviationState ℚ 1 (single ℚ 3 1)) 8
    (fun i hi hiN => by
      obtain ⟨h1, h2, h3⟩ := hratio i hi hiN
      refine ⟨h1, ?_⟩
      rw [Bool.eq_false_iff, ne_eq, gtDouble_divDouble_of_ne _ _ _ h2]
      exact not_lt.mpr h3)
  exact ⟨hratio, h.1, h.2.2.2.1⟩

/-- The scan at a zero reference norm: two bodies, every reference entry zero, body `1`
displaced by `dQ[3] = 1`, `t = 0`, `dq_max = 1/2`.  The ratio `1 / 0` is `+inf`, body `1`
triggers and the call rectifies (it returns `N - 1 = 1` and folds the deviation into `Q`),
whereas with no displacement the ratio `0 / 0` is a NaN and the call returns `0`. -/
theorem dhem_RectifyOrbits_zero_reference :
    someBodyTriggers (fun x => x) 2 (1 / 2) 0 (deviationState ℚ 0 (single ℚ 3 1)) 8
      ∧ (dhem_RectifyOrbits (fun x => x) (fun u _ _ _ _ => u) 2 (1 / 2) 0
          (deviationState ℚ 0 (single ℚ 3 1)) 8).1 = 1
      ∧ ¬ someBodyTriggers (fun x => x) 2 (1 / 2) 0 (deviationState ℚ 0 (fun _ => 0)) 8
      ∧ (dhem_RectifyOrbits (fun x => x) (fun u _ _ _ _ => u) 2 (1 / 2) 0
          (deviationState ℚ 0 (fun _ => 0)) 8).1 = 0 := by
  have h1 : someBodyTriggers (fun x => x) 2 (1 / 2) 0 (deviationState ℚ 0 (single ℚ 3 1)) 8 :=
    ⟨1, le_refl 1, by decide,
      Or.inr (by norm_num [deviationState, constDhem, NORM, single, divDouble, gtDouble])⟩
  have h2 : ¬ someBodyTriggers (fun x => x) 2 (1 / 2) 0 (deviationState ℚ 0 (fun _ => 0)) 8 := by
    rintro ⟨i, hi, hiN, h3⟩
    have hi1 : i = 1 := by omega
    subst hi1
    rcases h3 with h3 | h3
    · norm_num [deviationState, constDhem] at h3
    · norm_num [deviationState, constDhem, NORM, divDouble, gtDouble] at h3
  exact ⟨h1, (dhem_RectifyOrbits_count_triggers _ _ _ _ _ _ _).1 h1, h2,
    (dhem_RectifyOrbits_count_triggers _ _ _ _ _ _ _).2 h2⟩

/-- An exact square root vanishes at zero. -/
theorem sqrt_zero_of_exact (sqrt : α → α) (hs : ∀ x, 0 ≤ x → sqrt x * sqrt x = x) :
    sqrt 0 = 0 := by
  have h := hs 0 (le_refl 0)
  exact mul_self_eq_zero.mp h

/-- C23: if `rectificationPeriod[i] ≥ 0` for every non-central body and `dq_max ≥ 0`, and
`sqrt` is the exact square root, then after any call of `dhem_RectifyOrbits` at time `t`
every non-central body satisfies `rectifyTimeArray[i] ≥ t`, and a second call at the same
time `t` for the same stage on the resulting state returns `0` (the re-anchor being a
parameter that writes only the Kepler solver's state). -/
theorem C23_no_immediate_re_rectification (sqrt : α → α)
    (hs : ∀ x, 0 ≤ x → sqrt x * sqrt x = x)
    (Rebasis : κ → (Nat → α) → (Nat → α) → α → Nat → κ) (N : Nat) (dq_max t : α)
    (s : TesState α κ) (stageNumber : Nat)
    (hperiod : ∀ i, 1 ≤ i → i < N → 0 ≤ s.dhem.rectificationPeriod i) (hdq : 0 ≤ dq_max) :
    (∀ i, 1 ≤ i → i < N →
        t ≤ (dhem_RectifyOrbits sqrt Rebasis N dq_max t s stageNumber).2.dhem.rectifyTimeArray i)
      ∧ (dhem_RectifyOrbits sqrt Rebasis N dq_max t
          (dhem_RectifyOrbits sqrt Rebasis N dq_max t s stageNumber).2 stageNumber).1 = 0 := by
  by_cases htrig : someBodyTriggers sqrt N dq_max t s stageNumber
  · have hflag : rectifyFlag sqrt N dq_max t s stageNumber ≠ 0 := by
      rw [(rectifyFlag_eq sqrt N dq_max t s stageNumber).1 htrig]
      decide
    have hsched := dhem_RectifyOrbits_schedule sqrt Rebasis N dq_max t s stageNumber hflag
    have htime : ∀ i, 1 ≤ i → i < N →
        t ≤ (dhem_RectifyOrbits sqrt Rebasis N dq_max t s
          stageNumber).2.dhem.rectifyTimeArray i := by
      intro i hi hiN
      rw [(hsched.2 i hi (by omega)).1]
      linarith [hperiod i hi hiN]
    refine ⟨htime, ?_⟩
    apply (dhem_RectifyOrbits_count_triggers sqrt Rebasis N dq_max t _ stageNumber).2
    rw [not_someBodyTriggers_iff]
    intro i hi hiN
    refine ⟨htime i hi hiN, ?_⟩
    have hz : ∀ k, k < 3 →
        (dhem_RectifyOrbits sqrt Rebasis N dq_max t s stageNumber).2.dQ (3 * i + k) = 0 := by
      intro k hk
      rw [(dhem_RectifyOrbits_entries sqrt Rebasis N dq_max t s stageNumber htrig i k hi hiN
        hk).2.1, foldCs_exact, neg_zero]
    have h0 := hz 0 (by decide)
    have h1 := hz 1 (by decide)
    have h2 := hz 2 (by decide)
    simp only [Nat.add_zero] at h0
    have hnorm : NORM sqrt (dhem_RectifyOrbits sqrt Rebasis N dq_max t s stageNumber).2.dQ i
        = 0 := by
      unfold NORM
      rw [h0, h1, h2]
      simp only [mul_zero, add_zero]
      exact sqrt_zero_of_exact sqrt hs
    rw [hnorm]
    exact gtDouble_zero_divDouble _ dq_max hdq
  · have hidle := dhem_RectifyOrbits_no_trigger sqrt Rebasis N dq_max t s stageNumber htrig
    have hall := (not_someBodyTriggers_iff sqrt N dq_max t s stageNumber).1 htrig
    have hrta : (dhem_RectifyOrbits sqrt Rebasis N dq_max t s
        stageNumber).2.dhem.rectifyTimeArray = s.dhem.rectifyTimeArray := by
      rw [hidle]
      rfl
    have hdQ : (dhem_RectifyOrbits sqrt Rebasis N dq_max t s stageNumber).2.dQ = s.dQ := by
      rw [hidle]
      rfl
    have hX : (dhem_RectifyOrbits sqrt Rebasis N dq_max t s stageNumber).2.dhem.XoscArr
        = s.dhem.XoscArr := by
      rw [hidle]
      rfl
    constructor
    · intro i hi hiN
      rw [hrta]
      exact (hall i hi hiN).1
    · apply (dhem_RectifyOrbits_count_triggers sqrt Rebasis N dq_max t _ stageNumber).2
      rw [not_someBodyTriggers_iff, hrta, hdQ, hX]
      exact hall

/-- C23, at a concrete input: two bodies, body `1` overdue at `t = 1`, periods zero; the
second call at `t = 1` returns `0`. -/
theorem C23_no_immediate_re_rectification_witness :
    (dhem_RectifyOrbits Real.sqrt (fun u _ _ _ _ => u) 2 0 1
        (dhem_RectifyOrbits Real.sqrt (fun u _ _ _ _ => u) 2 0 1
          (residualState ℝ (fun _ => 0)) 8).2 8).1 = 0 :=
  (C23_no_immediate_re_rectification Real.sqrt (fun _ hx => Real.mul_self_sqrt hx)
    (fun u _ _ _ _ => u) 2 0 1 (residualState ℝ (fun _ => 0)) 8
    (fun _ _ _ => le_refl _) (le_refl _)).2

end Compensated

/-! ### The frame of `dhem_rhs` -/

section RhsFrame

variable {α : Type} [LinearOrderedField α]

/-- The entries of `dP_dot` of a non-central body returned by `dhem_rhs` do not depend on
the output arrays passed in. -/
theorem dhem_rhs_dP_dot_body (sqrt : α → α) (N : Nat) (G : α) (stateVectorSize : Nat)
    (dhem : DHEM α) (dQ dP : Nat → α) (out out' : RhsArrays α) (i k : Nat)
    (hi : 1 ≤ i) (hiN : i < N) (hk : k < 3) :
    (dhem_rhs sqrt N G stateVectorSize dhem dQ dP out).2.dP_dot (3 * i + k)
      = (dhem_rhs sqrt N G stateVectorSize dhem dQ dP out').2.dP_dot (3 * i + k) := by
  rw [dhem_rhs_dP_dot _ _ _ _ _ _ _ _ _ _ hk, dhem_rhs_dP_dot _ _ _ _ _ _ _ _ _ _ hk,
    dhem_rhs_dP_dot_central_apply _ _ _ _ _ _ _ _ _ hk,
    dhem_rhs_dP_dot_central_apply _ _ _ _ _ _ _ _ _ hk, if_pos ⟨hi, hiN⟩, if_pos ⟨hi, hiN⟩]

/-- The entries `0..2` of `dP_dot` are returned by `dhem_rhs` as they were passed in. -/
theorem dhem_rhs_dP_dot_centralBody (sqrt : α → α) (N : Nat) (G : α) (stateVectorSize : Nat)
    (dhem : DHEM α) (dQ dP : Nat → α) (out : RhsArrays α) (k : Nat) (hk : k < 3) :
    (dhem_rhs sqrt N G stateVectorSize dhem dQ dP out).2.dP_dot k = out.dP_dot k := by
  have h := dhem_rhs_dP_dot sqrt N G stateVectorSize dhem dQ dP out 0 k hk
  have hc := dhem_rhs_dP_dot_central_apply sqrt N G dhem dQ dP out.dP_dot 0 k hk
  have hno : ¬ (1 ≤ 0 ∧ 0 < N) := by omega
  rw [if_neg hno] at hc
  have hsum : ∑ i in Finset.Ico 1 N, ∑ j in Finset.Ico 1 i,
      ((if 0 = i then pairTerm sqrt G dhem.m (dhem_rhs_QP N dhem dQ dP).1 i j k else 0)
        - (if 0 = j then pairTerm sqrt G dhem.m (dhem_rhs_QP N dhem dQ dP).1 i j k else 0))
      = 0 := by
    apply Finset.sum_eq_zero
    intro i hi
    apply Finset.sum_eq_zero
    intro j hj
    rw [Finset.mem_Ico] at hi hj
    have h1 : ¬ (0 = i) := by omega
    have h2 : ¬ (0 = j) := by omega
    rw [if_neg h1, if_neg h2, sub_zero]
  rw [hc, hsum, add_zero] at h
  simpa using h

/-- C24: `dhem_rhs` returns `dP_ddot` exactly as passed in and leaves the entries `0..2` of
`dQ_dot` and `dP_dot` as they were; with at least one body and the `memset` of line 73
covering `dQ_ddot` (`stateVectorSize` at least `2*3*N*8` bytes) it sets the entries `0..2` of
`dQ_ddot` to zero; and every entry of a non-central body of `dQ_dot`, `dP_dot` and `dQ_ddot`
is overwritten with a value that does not depend on the output arrays passed in. -/
theorem C24_frame_of_evaluator_outputs (sqrt : α → α) (N : Nat) (G : α)
    (stateVectorSize : Nat) (dhem : DHEM α) (dQ dP : Nat → α) (out : RhsArrays α)
    (hN : 1 ≤ N) (hsize : 48 * N ≤ stateVectorSize) :
    (dhem_rhs sqrt N G stateVectorSize dhem dQ dP out).2.dP_ddot = out.dP_ddot
      ∧ (∀ k, k < 3 →
          (dhem_rhs sqrt N G stateVectorSize dhem dQ dP out).2.dQ_dot k = out.dQ_dot k
            ∧ (dhem_rhs sqrt N G stateVectorSize dhem dQ dP out).2.dP_dot k = out.dP_dot k
            ∧ (dhem_rhs sqrt N G stateVectorSize dhem dQ dP out).2.dQ_ddot k = 0)
      ∧ (∀ (out' : RhsArrays α) (i k : Nat), 1 ≤ i → i < N → k < 3 →
          (dhem_rhs sqrt N G stateVectorSize dhem dQ dP out).2.dQ_dot (3 * i + k)
              = (dhem_rhs sqrt N G stateVectorSize dhem dQ dP out').2.dQ_dot (3 * i + k)
            ∧ (dhem_rhs sqrt N G stateVectorSize dhem dQ dP out).2.dP_dot (3 * i + k)
              = (dhem_rhs sqrt N G stateVectorSize dhem dQ dP out').2.dP_dot (3 * i + k)
            ∧ (dhem_rhs sqrt N G stateVectorSize dhem dQ dP out).2.dQ_ddot (3 * i + k)
              = (dhem_rhs sqrt N G stateVectorSize dhem dQ dP out').2.dQ_ddot (3 * i + k)) := by
  refine ⟨rfl, ?_, ?_⟩
  · intro k hk
    refine ⟨?_, dhem_rhs_dP_dot_centralBody sqrt N G stateVectorSize dhem dQ dP out k hk, ?_⟩
    · have h := dhem_rhs_dQ_dot sqrt N G stateVectorSize dhem dQ dP out 0 k hk
      have hno : ¬ (1 ≤ 0 ∧ 0 < N) := by omega
      rw [if_neg hno] at h
      simpa using h
    · have h : (dhem_rhs sqrt N G stateVectorSize dhem dQ dP out).2.dQ_ddot (3 * 0 + k) = 0 := by
        simp only [dhem_rhs]
        rw [rhs_dQ_ddot_apply _ _ _ _ _ _ _ hk]
        have hno : ¬ (1 ≤ 0 ∧ 0 < N) := by omega
        have hz : 8 * (3 * 0 + k + 1) ≤ stateVectorSize / 2 := by omega
        rw [if_neg hno]
        simp only [memsetZero, if_pos hz]
      simpa using h
  · intro out' i k hi hiN hk
    refine ⟨?_, dhem_rhs_dP_dot_body sqrt N G stateVectorSize dhem dQ dP out out' i k hi hiN hk,
      ?_⟩
    · rw [dhem_rhs_dQ_dot _ _ _ _ _ _ _ _ _ _ hk, dhem_rhs_dQ_dot _ _ _ _ _ _ _ _ _ _ hk,
        if_pos ⟨hi, hiN⟩, if_pos ⟨hi, hiN⟩]
    · rw [dhem_rhs_dQ_ddot sqrt N G stateVectorSize dhem dQ dP out i k hi hiN hk hsize,
        dhem_rhs_dQ_ddot sqrt N G stateVectorSize dhem dQ dP out' i k hi hiN hk hsize,
        dhem_rhs_dP_dot_body sqrt N G stateVectorSize dhem dQ dP out out' i k hi hiN hk]
      congr 2
      apply Finset.sum_congr rfl
      intro j hj
      rw [Finset.mem_Ico] at hj
      rw [dhem_rhs_dP_dot_body sqrt N G stateVectorSize dhem dQ dP out out' j k hj.1 hj.2 hk]

/-- C24, at a concrete input: two bodies, `stateVectorSize = 96`. -/
theorem C24_frame_of_evaluator_outputs_witness :
    (dhem_rhs (fun x => x) 2 1 96 (constDhem ℚ 1) (fun _ => 0) (single ℚ 3 1)
        (zeroRhsArrays ℚ)).2.dP_ddot = (zeroRhsArrays ℚ).dP_ddot :=
  (C24_frame_of_evaluator_outputs (fun x => x) 2 1 96 (constDhem ℚ 1) (fun _ => 0)
    (single ℚ 3 1) (zeroRhsArrays ℚ) (by decide) (by decide)).1

end RhsFrame

/-! ### Stage selection and state reconstruction -/

section StageTheorems

variable {α : Type} [LinearOrderedField α] {κ : Type}

/-- The output of `dhem_PerformSummation` for the bodies `1 ≤ i < N` is determined by the
reference snapshot of the requested stage, by `dQ`, `dP`, `cs_dq`, `cs_dp`, and by the
residual slice that is selected when the call is made. -/
theorem dhem_PerformSummation_determined (N : Nat) (s s' : TesState α κ) (stageNumber : Nat)
    (hX : s'.dhem.XoscArr stageNumber = s.dhem.XoscArr stageNumber)
    (hcs : s'.dhem.XoscArr_cs s'.dhem.Xosc_csStage = s.dhem.XoscArr_cs s.dhem.Xosc_csStage)
    (hdQ : s'.dQ = s.dQ) (hdP : s'.dP = s.dP) (hq : s'.cs_dq = s.cs_dq)
    (hp : s'.cs_dp = s.cs_dp) (i k : Nat) (hi : 1 ≤ i) (hiN : i < N) (hk : k < 3) :
    (dhem_PerformSummation N s' stageNumber).Q (3 * i + k)
        = (dhem_PerformSummation N s stageNumber).Q (3 * i + k)
      ∧ (dhem_PerformSummation N s' stageNumber).P (3 * i + k)
        = (dhem_PerformSummation N s stageNumber).P (3 * i + k) := by
  have h := dhem_PerformSummation_apply N s stageNumber i k hk
  have h' := dhem_PerformSummation_apply N s' stageNumber i k hk
  rw [if_pos ⟨hi, hiN⟩, if_pos ⟨hi, hiN⟩] at h h'
  rw [h.1, h.2, h'.1, h'.2]
  unfold DHEM.Qosc_cs DHEM.Posc_cs
  rw [hX, hcs, hdQ, hdP, hq, hp]
  exact ⟨rfl, rfl⟩

/-- The earlier call on `stagedState` rectifies nothing, whatever the stage. -/
theorem stagedRun_eq (stage : Nat) :
    stagedRun stage
      = { rectifySelect stagedState stage with rectifiedArray :=
          (rectifyScan (fun x => x) 2 0 0 (rectifySelect stagedState stage).dhem.Qosc
            ((rectifySelect stagedState stage).dhem.Posc 2) (rectifySelect stagedState stage).dQ
            (rectifySelect stagedState stage).dP
            (rectifySelect stagedState stage).dhem.rectifyTimeArray
            1 (2 - 1) (rectifySelect stagedState stage).rectifiedArray).1 } := by
  unfold stagedRun
  apply dhem_RectifyOrbits_idle
  apply (rectifyFlag_eq _ _ _ _ _ _).2
  rintro ⟨i, h1, h2, h3⟩
  have hi : i = 1 := by omega
  subst hi
  rcases h3 with h3 | h3
  · norm_num [stagedState, stagedDhem] at h3
  · norm_num [stagedState, stagedDhem, NORM, divDouble, gtDouble] at h3

/-- C25 (the code at the failing input): two runs on the same arrays that differ only in the
stage selected by an earlier non-rectifying call of `dhem_RectifyOrbits` (stage `0` in one
run, stage `1` in the other) hold equal `dQ`, `dP`, residuals and reference arrays, and yet
`dhem_PerformSummation` for stage `2` returns `Q[3] = 0` in the first run and `Q[3] = 1` in
the second: it adds the residual slice `XoscArr_cs` of the stage selected earlier, not that
of stage `2`. -/
theorem C25_summation_depends_on_earlier_selection :
    ((stagedRun 0).dhem.XoscArr = (stagedRun 1).dhem.XoscArr
        ∧ (stagedRun 0).dhem.XoscArr_cs = (stagedRun 1).dhem.XoscArr_cs
        ∧ (stagedRun 0).Q = (stagedRun 1).Q ∧ (stagedRun 0).P = (stagedRun 1).P
        ∧ (stagedRun 0).dQ = (stagedRun 1).dQ ∧ (stagedRun 0).dP = (stagedRun 1).dP
        ∧ (stagedRun 0).cs_dq = (stagedRun 1).cs_dq ∧ (stagedRun 0).cs_dp = (stagedRun 1).cs_dp)
      ∧ (dhem_PerformSummation 2 (stagedRun 0) 2).Q (3 * 1 + 0) = 0
      ∧ (dhem_PerformSummation 2 (stagedRun 1) 2).Q (3 * 1 + 0) = 1
      ∧ (dhem_PerformSummation 2 (stagedRun 0) 2).Q (3 * 1 + 0)
        ≠ (dhem_PerformSummation 2 (stagedRun 1) 2).Q (3 * 1 + 0) := by
  have h0 : (dhem_PerformSummation 2 (stagedRun 0) 2).Q (3 * 1 + 0) = 0 := by
    rw [(dhem_PerformSummation_apply 2 (stagedRun 0) 2 1 0 (by decide)).1, stagedRun_eq]
    norm_num [rectifySelect, stagedState, stagedDhem, DHEM.Qosc_cs]
  have h1 : (dhem_PerformSummation 2 (stagedRun 1) 2).Q (3 * 1 + 0) = 1 := by
    rw [(dhem_PerformSummation_apply 2 (stagedRun 1) 2 1 0 (by decide)).1, stagedRun_eq]
    norm_num [rectifySelect, stagedState, stagedDhem, DHEM.Qosc_cs]
  refine ⟨?_, h0, h1, ?_⟩
  · rw [stagedRun_eq, stagedRun_eq]
    exact ⟨rfl, rfl, rfl, rfl, rfl, rfl, rfl, rfl⟩
  · rw [h0, h1]
    norm_num

end StageTheorems

end TES
